import Mathlib

/-!
# Zone-aware controllers: eviction webhook, ZDB reconciler and ZAU schedule

A shallow embedding of the parts of `aws/zone-aware-controllers-for-k8s`
that the verified properties are about.

* `webhooks/eviction_webhook.go`, `pkg/utils/zdb_utils.go`,
  `pkg/utils/alarm_status_provider.go`, `pkg/utils/pod_controller_finder.go`,
  `pkg/podzone/helper.go` and `api/v1/zdb_types.go` are translated from the
  Go source.  Calls to the API server are explicit: the handler receives a
  `Client` value that answers every read and decides the outcome of every
  status update, and it returns the list of status updates it issued.
* The two reconcilers (`controllers/zdb_controller.go`,
  `controllers/zau_controller.go`), `pkg/utils/utils.go` and `main.go` are
  not among the sources; they are modelled from the specification and checked
  against their tests.

* The library functions that this code calls are translated from the
  libraries: `retry.RetryOnConflict`, `admission.Allowed`, `admission.Denied`
  and `admission.Errored`, `metav1.LabelSelectorAsSelector` with
  `labels.NewRequirement` and the validation of label keys and values, and
  `schema.ParseGroupVersion`.

Go maps are association lists read by first match (`GoMap`).
-/

set_option autoImplicit false
set_option maxRecDepth 100000

namespace ZoneAware

/-! ## Go maps -/

/-- A Go `map[string]V`: an association list in which the first entry of a
key is the one that counts. -/
abbrev GoMap (V : Type) := List (String × V)

namespace GoMap

variable {V : Type}

/-- The comma-ok read `v, ok := m[k]`. -/
def get? : GoMap V → String → Option V
  | [], _ => none
  | (k, v) :: rest, key => if k = key then some v else get? rest key

/-- Membership test `_, ok := m[k]`. -/
def contains (m : GoMap V) (key : String) : Bool :=
  (get? m key).isSome

/-- The builtin `delete(m, k)`: every entry of the key is dropped. -/
def erase : GoMap V → String → GoMap V
  | [], _ => []
  | (k, v) :: rest, key => if k = key then erase rest key else (k, v) :: erase rest key

/-- The assignment `m[k] = v`: the older entries of the key are dropped. -/
def set (m : GoMap V) (key : String) (v : V) : GoMap V :=
  (key, v) :: erase m key

/-- The builtin `len(m)`: the number of distinct keys. -/
def len : GoMap V → Nat
  | [] => 0
  | (k, _) :: rest => if contains rest k then len rest else len rest + 1

/-- The keys of the map (with repetitions when the list repeats a key). -/
def keys (m : GoMap V) : List String :=
  m.map Prod.fst

end GoMap

/-- The plain read `m[k]` of a `map[string]int32`: a missing key reads as 0. -/
def getInt (m : GoMap Int) (key : String) : Int :=
  (GoMap.get? m key).getD 0

deriving instance DecidableEq for Except

/-! ## Kubernetes objects (the fields the controllers read) -/

/-- The `v1.PodPhase` values. -/
inductive PodPhase where
  | Pending
  | Running
  | Succeeded
  | Failed
  | Unknown
  deriving DecidableEq

/-- The `v1.ConditionStatus` values. -/
inductive ConditionStatus where
  | True
  | False
  | Unknown
  deriving DecidableEq

/-- The `v1.PodCondition`: a condition type (`Ready`, `ContainersReady`, ...)
and its status. -/
structure PodCondition where
  CondType : String
  Status : ConditionStatus
  deriving DecidableEq

/-- The `v1.Pod` fields read by the webhook and the controllers.  Time stamps
are natural numbers; `DeletionTimestamp = none` is the nil (zero) time. -/
structure Pod where
  Name : String
  Namespace : String
  Labels : GoMap String
  NodeName : String
  Phase : PodPhase
  Conditions : List PodCondition
  DeletionTimestamp : Option Nat
  deriving DecidableEq

/-- The `v1.Node` fields read by the zone lookup. -/
structure Node where
  Name : String
  Labels : GoMap String
  deriving DecidableEq

/-- The well-known node label `v1.LabelTopologyZone`. -/
def LabelTopologyZone : String := "topology.kubernetes.io/zone"

/-- The `metav1.StatusReason` values that the webhook tells apart. -/
inductive StatusReason where
  | NotFound
  | Conflict
  | Forbidden
  | Other
  deriving DecidableEq

/-- An error returned by a client call or built by `errors.NewForbidden`. -/
structure ApiError where
  Reason : StatusReason
  Message : String
  deriving DecidableEq

/-- The test `errors.IsConflict(err)`. -/
def IsConflict (e : ApiError) : Bool :=
  decide (e.Reason = StatusReason.Conflict)

/-- The constructor `errors.NewForbidden(resource, name, err)`. -/
def NewForbidden (name : String) (msg : String) : ApiError :=
  { Reason := StatusReason.Forbidden,
    Message := "zonedisruptionbudget \"" ++ name ++ "\" is forbidden: " ++ msg }

/-! ## api/v1/zdb_types.go -/

/-- The `metav1.LabelSelectorOperator`: a string type. -/
abbrev LabelSelectorOperator := String

/-- The constant `metav1.LabelSelectorOpIn`. -/
def LabelSelectorOpIn : LabelSelectorOperator := "In"

/-- The constant `metav1.LabelSelectorOpNotIn`. -/
def LabelSelectorOpNotIn : LabelSelectorOperator := "NotIn"

/-- The constant `metav1.LabelSelectorOpExists`. -/
def LabelSelectorOpExists : LabelSelectorOperator := "Exists"

/-- The constant `metav1.LabelSelectorOpDoesNotExist`. -/
def LabelSelectorOpDoesNotExist : LabelSelectorOperator := "DoesNotExist"

/-- One `metav1.LabelSelectorRequirement`. -/
structure LabelSelectorRequirement where
  Key : String
  Operator : LabelSelectorOperator
  Values : List String
  deriving DecidableEq

/-- The `metav1.LabelSelector`. -/
structure LabelSelector where
  MatchLabels : GoMap String
  MatchExpressions : List LabelSelectorRequirement
  deriving DecidableEq

/-- The `intstr.IntOrString` of `maxUnavailable`: an integer or a percentage. -/
inductive IntOrString where
  | int (n : Int)
  | percent (p : Nat)
  deriving DecidableEq

/-- The `ZoneDisruptionBudgetSpec`. -/
structure ZoneDisruptionBudgetSpec where
  Selector : Option LabelSelector
  MaxUnavailable : Option IntOrString
  DryRun : Bool
  deriving DecidableEq

/-- The `ZoneDisruptionBudgetStatus`.  `DisruptedPods` maps a pod name to the
time of the eviction request. -/
structure ZoneDisruptionBudgetStatus where
  ObservedGeneration : Int
  DisruptedPods : GoMap Nat
  DisruptionsAllowed : GoMap Int
  CurrentHealthy : GoMap Int
  CurrentUnhealthy : GoMap Int
  DesiredHealthy : GoMap Int
  ExpectedPods : GoMap Int
  deriving DecidableEq

/-- The `ZoneDisruptionBudget` object with the metadata the webhook reads. -/
structure ZoneDisruptionBudget where
  Name : String
  Namespace : String
  Generation : Int
  Spec : ZoneDisruptionBudgetSpec
  Status : ZoneDisruptionBudgetStatus
  deriving DecidableEq

/-! ## The admission request and response -/

/-- The `admissionv1.Operation` of a request. -/
inductive Operation where
  | Create
  | Update
  | Delete
  | Connect
  deriving DecidableEq

/-- The `metav1.DeleteOptions` of an eviction: only `DryRun` is read. -/
structure DeleteOptions where
  DryRun : List String
  deriving DecidableEq

/-- The `admission.Request`.  `EvictionV1` and `EvictionBeta` are what the
decoder yields for the `policy/v1` and the `policy/v1beta1` shape of the
payload: an error, or the (optional) `DeleteOptions` of the eviction. -/
structure Request where
  Operation : Operation
  SubResource : String
  Namespace : String
  Name : String
  EvictionV1 : Except String (Option DeleteOptions)
  EvictionBeta : Except String (Option DeleteOptions)

/-- The `admission.Response`: the `Allowed` flag and the code, the reason and
the message of its `Result` (a `metav1.Status`). -/
structure Response where
  Allowed : Bool
  Code : Nat
  Reason : String
  Message : String
  deriving DecidableEq

/-- The function `admission.ValidationResponse(allowed, reason)` of the
controller-runtime release that the handler is written against (the one with
`InjectDecoder`): the code is 200 or 403, and the text, when it is not empty,
becomes the `Reason` of the result.  The `Message` of the result is left
empty. -/
def ValidationResponse (allowed : Bool) (reason : String) : Response :=
  { Allowed := allowed, Code := if allowed then 200 else 403,
    Reason := if 0 < reason.length then reason else "", Message := "" }

/-- The constructor `admission.Allowed(reason)`. -/
def Allowed (reason : String) : Response :=
  ValidationResponse true reason

/-- The constructor `admission.Denied(reason)`. -/
def Denied (reason : String) : Response :=
  ValidationResponse false reason

/-- The constructor `admission.Errored(code, err)`: the text of the error is
the `Message` of the result. -/
def Errored (code : Nat) (message : String) : Response :=
  { Allowed := false, Code := code, Reason := "", Message := message }

/-! ## The API server seen from the webhook

Every call of `h.Client` is answered by the `Client` value.  Calls made inside
the retry loop carry the number of the attempt (0 for the first one), so that
the answers may change between attempts, as they do when other clients write
concurrently. -/

/-- The answers of the API server. -/
structure Client where
  /-- `Client.Get` of a pod by namespace and name. -/
  GetPod : String → String → Except ApiError Pod
  /-- `Client.List` of the ZDBs of a namespace. -/
  ListZdb : String → Except ApiError (List ZoneDisruptionBudget)
  /-- `Client.Get` of a node by name, during the given attempt. -/
  GetNode : Nat → String → Except ApiError Node
  /-- `Client.Get` of a ZDB (the refresh of the retry loop), by attempt,
  namespace and name. -/
  GetZdb : Nat → String → String → Except ApiError ZoneDisruptionBudget
  /-- `Client.Status().Update` of a ZDB during the given attempt: `none` when
  the write is persisted, the error otherwise. -/
  StatusUpdate : Nat → ZoneDisruptionBudget → Option ApiError
  /-- `time.Now()` during the given attempt. -/
  Now : Nat → Nat

/-- One `Client.Status().Update` call: the object sent and the outcome. -/
structure StatusWrite where
  Object : ZoneDisruptionBudget
  Outcome : Option ApiError
  deriving DecidableEq

/-! ## pkg/utils -/

/-- Modelled from the spec: `utils.IsPodReady` (pkg/utils/utils.go is not
among the sources).  A pod is Ready iff its `Ready` condition has status
`True`; the first condition of that type is the one read. -/
def IsPodReady (pod : Pod) : Bool :=
  match pod.Conditions.find? (fun c => decide (c.CondType = "Ready")) with
  | some c => decide (c.Status = ConditionStatus.True)
  | none => false

/-- The pieces of a text between the occurrences of a separator character:
`strings.Split` with a separator of one character. -/
def splitOnChar (sep : Char) : List Char → List (List Char)
  | [] => [[]]
  | c :: cs =>
      match splitOnChar sep cs with
      | [] => [[c]]
      | piece :: rest => if c = sep then [] :: piece :: rest else (c :: piece) :: rest

/-- A text matches `^(A E*)?A$` for two character classes `A` and `E` with
`A` inside `E`: it is not empty, it starts and ends in `A`, and all its
characters are in `E`. -/
def matchesDelimited (inner outer : Char → Bool) (cs : List Char) : Bool :=
  match cs.head?, cs.getLast? with
  | some first, some last => inner first && inner last && cs.all outer
  | _, _ => false

/-- The character class `[A-Za-z0-9]` of `qnameCharFmt`. -/
def isQnameChar (c : Char) : Bool :=
  c.isAlphanum

/-- The character class `[-A-Za-z0-9_.]` of `qnameExtCharFmt`. -/
def isQnameExtChar (c : Char) : Bool :=
  c.isAlphanum || decide (c = '-') || decide (c = '_') || decide (c = '.')

/-- The test `qualifiedNameRegexp.MatchString`, for the expression
`^([A-Za-z0-9][-A-Za-z0-9_.]*)?[A-Za-z0-9]$`. -/
def matchesQualifiedName (cs : List Char) : Bool :=
  matchesDelimited isQnameChar isQnameExtChar cs

/-- The character class `[a-z0-9]` of `dns1123LabelFmt`. -/
def isDNS1123Char (c : Char) : Bool :=
  c.isLower || c.isDigit

/-- The test `dns1123SubdomainRegexp.MatchString`, for the expression
`^[a-z0-9]([-a-z0-9]*[a-z0-9])?(\.[a-z0-9]([-a-z0-9]*[a-z0-9])?)*$`: every
piece between the dots is a DNS label. -/
def matchesDNS1123Subdomain (cs : List Char) : Bool :=
  (splitOnChar '.' cs).all
    (matchesDelimited isDNS1123Char (fun c => isDNS1123Char c || decide (c = '-')))

/-- The function `validation.IsDNS1123Subdomain`: `true` when it reports no
error, that is at most 253 bytes and a match of the expression.  (A text that
matches is ASCII, so its bytes are its characters.) -/
def IsDNS1123Subdomain (cs : List Char) : Bool :=
  decide (cs.length ≤ 253) && matchesDNS1123Subdomain cs

/-- The function `validation.IsQualifiedName`: `true` when it reports no
error.  The text is split at `/` into a name, or a prefix and a name; the
prefix is not empty and is a DNS subdomain; the name is not empty, has at
most 63 bytes and matches the expression of qualified names. -/
def IsQualifiedName (value : String) : Bool :=
  match splitOnChar '/' value.toList with
  | [name] => decide (name.length ≤ 63) && matchesQualifiedName name
  | [pfx, name] =>
      !pfx.isEmpty && IsDNS1123Subdomain pfx &&
        (decide (name.length ≤ 63) && matchesQualifiedName name)
  | _ => false

/-- The function `validation.IsValidLabelValue`: `true` when it reports no
error, that is at most 63 bytes and a match of
`^(([A-Za-z0-9][-A-Za-z0-9_.]*)?[A-Za-z0-9])?$` (the empty text, or a
qualified name). -/
def IsValidLabelValue (value : String) : Bool :=
  decide (value.toList.length ≤ 63) &&
    (value.toList.isEmpty || matchesQualifiedName value.toList)

/-- The `selection.Operator` values that the selector conversion produces. -/
inductive SelectionOperator where
  | DoesNotExist
  | Equals
  | In
  | NotIn
  | Exists
  deriving DecidableEq

/-- The `labels.Requirement`. -/
structure Requirement where
  key : String
  operator : SelectionOperator
  strValues : List String
  deriving DecidableEq

/-- The `switch` on the operator in `labels.NewRequirement`: the number of
values that the operator admits. -/
def valuesCountAllowed (op : SelectionOperator) (n : Nat) : Bool :=
  match op with
  | SelectionOperator.In => decide (n ≠ 0)
  | SelectionOperator.NotIn => decide (n ≠ 0)
  | SelectionOperator.Equals => decide (n = 1)
  | SelectionOperator.Exists => decide (n = 0)
  | SelectionOperator.DoesNotExist => decide (n = 0)

/-- The constructor `labels.NewRequirement(key, op, vals)`: the key is a
qualified name, `In` and `NotIn` have a value, `Equals` has exactly one,
`Exists` and `DoesNotExist` have none, and every value is a valid label
value. -/
def NewRequirement (key : String) (op : SelectionOperator) (vals : List String) :
    Except String Requirement :=
  if IsQualifiedName key = false then Except.error ("invalid label key: " ++ key)
  else if valuesCountAllowed op vals.length = false then
    Except.error ("invalid number of values for the label key: " ++ key)
  else if vals.all IsValidLabelValue = false then
    Except.error ("invalid label value for the label key: " ++ key)
  else Except.ok { key := key, operator := op, strValues := vals }

/-- The method `Requirement.Matches(ls)`. -/
def Requirement.Matches (r : Requirement) (ls : GoMap String) : Bool :=
  match r.operator with
  | SelectionOperator.In | SelectionOperator.Equals =>
      match GoMap.get? ls r.key with
      | some v => decide (v ∈ r.strValues)
      | none => false
  | SelectionOperator.NotIn =>
      match GoMap.get? ls r.key with
      | some v => decide (v ∉ r.strValues)
      | none => true
  | SelectionOperator.Exists => GoMap.contains ls r.key
  | SelectionOperator.DoesNotExist => !GoMap.contains ls r.key

/-- A compiled `labels.Selector`: the selector of `labels.Nothing()`, or a
conjunction of requirements (without requirements: `labels.Everything()`). -/
inductive Selector where
  | nothing
  | requirements (rs : List Requirement)
  deriving DecidableEq

/-- The method `Selector.Empty()`. -/
def Selector.Empty : Selector → Bool
  | Selector.nothing => false
  | Selector.requirements rs => rs.isEmpty

/-- The method `Selector.Matches(labels)`. -/
def Selector.Matches : Selector → GoMap String → Bool
  | Selector.nothing, _ => false
  | Selector.requirements rs, labels => rs.all (fun r => r.Matches labels)

/-- The entries of a Go map, one for each key: the first entry of a key is
the one that counts. -/
def mapEntries {V : Type} : GoMap V → List (String × V)
  | [] => []
  | (k, v) :: rest => (k, v) :: (mapEntries rest).filter (fun e => !decide (e.1 = k))

/-- The `switch` on `expr.Operator` in `LabelSelectorAsSelector`, followed by
`labels.NewRequirement`. -/
def requirementOfExpression (expr : LabelSelectorRequirement) : Except String Requirement :=
  if expr.Operator = LabelSelectorOpIn then
    NewRequirement expr.Key SelectionOperator.In expr.Values
  else if expr.Operator = LabelSelectorOpNotIn then
    NewRequirement expr.Key SelectionOperator.NotIn expr.Values
  else if expr.Operator = LabelSelectorOpExists then
    NewRequirement expr.Key SelectionOperator.Exists expr.Values
  else if expr.Operator = LabelSelectorOpDoesNotExist then
    NewRequirement expr.Key SelectionOperator.DoesNotExist expr.Values
  else Except.error (expr.Operator ++ " is not a valid label selector operator")

/-- A loop that converts its items one by one and returns the first error. -/
def collectRequirements {α : Type} (f : α → Except String Requirement) :
    List α → Except String (List Requirement)
  | [] => Except.ok []
  | a :: rest =>
      match f a with
      | Except.error e => Except.error e
      | Except.ok r =>
          match collectRequirements f rest with
          | Except.error e => Except.error e
          | Except.ok rs => Except.ok (r :: rs)

/-- The conversion `metav1.LabelSelectorAsSelector`: a nil selector gives
`labels.Nothing()`, a selector without terms gives `labels.Everything()`, and
otherwise every `matchLabels` pair becomes an `Equals` requirement with one
value and every expression the requirement of its operator; the first
requirement that `labels.NewRequirement` rejects, or the first operator that
is not one of the four, is the error returned. -/
def LabelSelectorAsSelector : Option LabelSelector → Except String Selector
  | none => Except.ok Selector.nothing
  | some ps =>
      if GoMap.len ps.MatchLabels + ps.MatchExpressions.length = 0 then
        Except.ok (Selector.requirements [])
      else
        match collectRequirements
            (fun kv => NewRequirement kv.1 SelectionOperator.Equals [kv.2])
            (mapEntries ps.MatchLabels) with
        | Except.error e => Except.error e
        | Except.ok fromLabels =>
            match collectRequirements requirementOfExpression ps.MatchExpressions with
            | Except.error e => Except.error e
            | Except.ok fromExpressions =>
                Except.ok (Selector.requirements (fromLabels ++ fromExpressions))

/-- The loop of `GetZdbForPod` that collects `matchedZdbs`. -/
def matchedZdbs (pod : Pod) (items : List ZoneDisruptionBudget) : List ZoneDisruptionBudget :=
  items.filter (fun zdb =>
    match LabelSelectorAsSelector zdb.Spec.Selector with
    | Except.error _ => false
    | Except.ok sel => !(sel.Empty || !sel.Matches pod.Labels))

/-- The function `utils.GetZdbForPod` (pkg/utils/zdb_utils.go). -/
def GetZdbForPod (c : Client) (pod : Pod) : Except ApiError (Option ZoneDisruptionBudget) :=
  if GoMap.len pod.Labels = 0 then Except.ok none
  else
    match c.ListZdb pod.Namespace with
    | Except.error e => Except.error e
    | Except.ok items => Except.ok (matchedZdbs pod items).head?

/-! ## webhooks/eviction_webhook.go -/

/-- The constant `MaxDisruptedPodSize`. -/
def MaxDisruptedPodSize : Nat := 2000

/-- The number of steps of `EvictionsRetry`. -/
def EvictionsRetrySteps : Nat := 20

/-- The helper `dryrun.IsDryRun`. -/
def IsDryRun (flag : List String) : Bool :=
  decide (0 < flag.length)

/-- The method `PodEvictionHandler.getDryRunOption`. -/
def getDryRunOption (req : Request) : Except String Bool :=
  match req.EvictionV1 with
  | Except.error _ =>
      match req.EvictionBeta with
      | Except.error e => Except.error e
      | Except.ok (some opts) => Except.ok (IsDryRun opts.DryRun)
      | Except.ok none => Except.ok false
  | Except.ok (some opts) => Except.ok (IsDryRun opts.DryRun)
  | Except.ok none => Except.ok false

/-- The function `canIgnoreZDB`. -/
def canIgnoreZDB (pod : Pod) : Bool :=
  decide (pod.Phase = PodPhase.Succeeded) || decide (pod.Phase = PodPhase.Failed) ||
    decide (pod.Phase = PodPhase.Pending) || pod.DeletionTimestamp.isSome

/-- The function `isDisruptedPod`. -/
def isDisruptedPod (podName : String) (zdb : ZoneDisruptionBudget) : Bool :=
  GoMap.contains zdb.Status.DisruptedPods podName

/-- The method `PodEvictionHandler.getZone`, during the given attempt. -/
def getZone (c : Client) (attempt : Nat) (pod : Pod) : Except ApiError String :=
  match c.GetNode attempt pod.NodeName with
  | Except.error e => Except.error e
  | Except.ok node =>
      match GoMap.get? node.Labels LabelTopologyZone with
      | some zone => Except.ok zone
      | none =>
          Except.error
            { Reason := StatusReason.Other,
              Message := "zone label not found for pod \"" ++ pod.Name ++ "\" and node \"" ++
                node.Name ++ "\"" }

/-- What one call of `checkAndDecrement` leaves behind: the returned error,
the ZDB object as mutated in memory, and the status update it issued. -/
structure CheckResult where
  Err : Option ApiError
  Zdb : ZoneDisruptionBudget
  Write : Option StatusWrite

/-- Lines 231-240 of `checkAndDecrement`: the in-memory change of the ZDB
before the status update, `DisruptionsAllowed[zone]--` and
`DisruptedPods[pod.Name] = now`. -/
def recordDisruption (zdb : ZoneDisruptionBudget) (zone : String) (podName : String)
    (now : Nat) : ZoneDisruptionBudget :=
  { zdb with Status :=
      { zdb.Status with
        DisruptionsAllowed :=
          GoMap.set zdb.Status.DisruptionsAllowed zone
            (getInt zdb.Status.DisruptionsAllowed zone - 1),
        DisruptedPods := GoMap.set zdb.Status.DisruptedPods podName now } }

/-- The method `PodEvictionHandler.checkAndDecrement`.  The decrement is
reached only with a counter above 0, so the `int32` arithmetic cannot wrap. -/
def checkAndDecrement (c : Client) (attempt : Nat) (pod : Pod) (zdb : ZoneDisruptionBudget)
    (dryRun : Bool) : CheckResult :=
  if zdb.Status.ObservedGeneration < zdb.Generation then
    { Err := some (NewForbidden zdb.Name "observed generation is not equals to zdb generation"),
      Zdb := zdb, Write := none }
  else
    match getZone c attempt pod with
    | Except.error e =>
        { Err := some (NewForbidden zdb.Name e.Message), Zdb := zdb, Write := none }
    | Except.ok zone =>
        if getInt zdb.Status.DisruptionsAllowed zone < 0 then
          { Err := some (NewForbidden zdb.Name "zdb disruptions allowed is negative"),
            Zdb := zdb, Write := none }
        else if MaxDisruptedPodSize < GoMap.len zdb.Status.DisruptedPods then
          { Err := some (NewForbidden zdb.Name
              "DisruptedPods map too big - too many evictions not confirmed by ZDB controller"),
            Zdb := zdb, Write := none }
        else if getInt zdb.Status.DisruptionsAllowed zone = 0 then
          { Err := some (NewForbidden zdb.Name
              "cannot evict pod as it would violate the zone disruption budget"),
            Zdb := zdb, Write := none }
        else if dryRun then
          { Err := none, Zdb := zdb, Write := none }
        else
          let zdb1 := recordDisruption zdb zone pod.Name (c.Now attempt)
          let outcome := c.StatusUpdate attempt zdb1
          { Err := outcome, Zdb := zdb1, Write := some { Object := zdb1, Outcome := outcome } }

/-- What the retry loop leaves behind: the final error and the status updates
issued, oldest first. -/
structure RetryResult where
  Err : Option ApiError
  Writes : List StatusWrite

/-- The closure passed to `retry.RetryOnConflict`, run as attempt number
`attempt`: the refresh of the ZDB when `refresh` is set, then
`checkAndDecrement`.  It returns the error, the ZDB object and the `refresh`
flag as they are after the call, and the status update issued. -/
def attemptOnce (c : Client) (pod : Pod) (dryRun : Bool) (attempt : Nat) (refresh : Bool)
    (zdb : ZoneDisruptionBudget) : Option ApiError × ZoneDisruptionBudget × Bool × Option StatusWrite :=
  let fetched : Except ApiError ZoneDisruptionBudget :=
    if refresh then c.GetZdb attempt zdb.Namespace zdb.Name else Except.ok zdb
  match fetched with
  | Except.error e => (some e, zdb, refresh, none)
  | Except.ok cur =>
      let r := checkAndDecrement c attempt pod cur dryRun
      (r.Err, r.Zdb, refresh || r.Err.isSome, r.Write)

/-- The helper `retry.RetryOnConflict(backoff, fn)` with `steps` steps left:
`fn` is run until it succeeds, fails with an error that is not a conflict, or
the steps are used up (the last conflict is then returned; with no step at
all nothing runs and no error is returned).  The sleeps between the attempts
are not part of the embedding. -/
def RetryOnConflict (c : Client) (pod : Pod) (dryRun : Bool) :
    Nat → Nat → Bool → ZoneDisruptionBudget → RetryResult
  | 0, _, _, _ => { Err := none, Writes := [] }
  | steps + 1, attempt, refresh, zdb =>
      match attemptOnce c pod dryRun attempt refresh zdb with
      | (none, _, _, w) => { Err := none, Writes := w.toList }
      | (some e, zdb1, refresh1, w) =>
          if IsConflict e then
            if steps = 0 then { Err := some e, Writes := w.toList }
            else
              let rest := RetryOnConflict c pod dryRun steps (attempt + 1) refresh1 zdb1
              { Err := rest.Err, Writes := w.toList ++ rest.Writes }
          else { Err := some e, Writes := w.toList }

/-- What `PodEvictionHandler.handler` returns, together with the status
updates it issued. -/
structure HandlerResult where
  Response : Response
  Reason : String
  Writes : List StatusWrite

/-- The method `PodEvictionHandler.handler`. -/
def handler (c : Client) (req : Request) : HandlerResult :=
  if req.Operation ≠ Operation.Create then
    { Response := Allowed "", Reason := "NoCreateRequest", Writes := [] }
  else if req.SubResource ≠ "eviction" then
    { Response := Allowed "", Reason := "NoEvictionRequest", Writes := [] }
  else
    match getDryRunOption req with
    | Except.error e =>
        { Response := Errored 400 e, Reason := "GetDryRunOptionError", Writes := [] }
    | Except.ok dryRun =>
        match c.GetPod req.Namespace req.Name with
        | Except.error e =>
            if dryRun then { Response := Allowed "", Reason := "DryRun", Writes := [] }
            else { Response := Errored 500 e.Message, Reason := "GetPodError", Writes := [] }
        | Except.ok pod =>
            if canIgnoreZDB pod then
              { Response := Allowed "", Reason := "canIgnoreZdb", Writes := [] }
            else if !IsPodReady pod then
              { Response := Allowed "", Reason := "NotReadyPod", Writes := [] }
            else
              match GetZdbForPod c pod with
              | Except.error e =>
                  if dryRun then { Response := Allowed "", Reason := "DryRun", Writes := [] }
                  else { Response := Errored 500 e.Message, Reason := "GetZdbError", Writes := [] }
              | Except.ok none => { Response := Allowed "", Reason := "NoZdb", Writes := [] }
              | Except.ok (some zdb) =>
                  let dryRun1 := dryRun || zdb.Spec.DryRun
                  if isDisruptedPod pod.Name zdb then
                    { Response := Allowed "", Reason := "AlreadyDisrupted", Writes := [] }
                  else
                    let r := RetryOnConflict c pod dryRun1 EvictionsRetrySteps 0 false zdb
                    match r.Err with
                    | some _ =>
                        if dryRun1 then
                          { Response := Allowed "", Reason := "DryRun", Writes := r.Writes }
                        else
                          { Response := Denied ("denying pod eviction for " ++ pod.Name),
                            Reason := "DeniedByZdb", Writes := r.Writes }
                    | none =>
                        { Response := Allowed "", Reason := "DisruptionAllowed", Writes := r.Writes }

/-- The status updates of a handler run that were persisted. -/
def persisted (ws : List StatusWrite) : List ZoneDisruptionBudget :=
  (ws.filter (fun w => w.Outcome.isNone)).map (fun w => w.Object)

/-- The status update `w` is the one that `checkAndDecrement` issues during
attempt `a` when it reads the ZDB `cur`: the status was not stale, the zone of
the pod was found, its budget was above 0, the map of disrupted pods was not
over its limit, and the object sent is `cur` with the disruption recorded. -/
def WriteOf (c : Client) (pod : Pod) (a : Nat) (cur : ZoneDisruptionBudget)
    (w : StatusWrite) : Prop :=
  ∃ zone, getZone c a pod = Except.ok zone ∧
    0 < getInt cur.Status.DisruptionsAllowed zone ∧
    GoMap.len cur.Status.DisruptedPods ≤ MaxDisruptedPodSize ∧
    cur.Generation ≤ cur.Status.ObservedGeneration ∧
    w.Object = recordDisruption cur zone pod.Name (c.Now a) ∧
    w.Outcome = c.StatusUpdate a w.Object

/-- The calls of `checkAndDecrement` made by `RetryOnConflict` with `steps`
steps left, oldest first: the number of the attempt and the ZDB object that
is passed.  An attempt whose refresh fails makes no call. -/
def checkCalls (c : Client) (pod : Pod) (dryRun : Bool) :
    Nat → Nat → Bool → ZoneDisruptionBudget → List (Nat × ZoneDisruptionBudget)
  | 0, _, _, _ => []
  | steps + 1, attempt, refresh, zdb =>
      let fetched : Except ApiError ZoneDisruptionBudget :=
        if refresh then c.GetZdb attempt zdb.Namespace zdb.Name else Except.ok zdb
      let call : List (Nat × ZoneDisruptionBudget) :=
        match fetched with
        | Except.error _ => []
        | Except.ok cur => [(attempt, cur)]
      match attemptOnce c pod dryRun attempt refresh zdb with
      | (none, _, _, _) => call
      | (some e, zdb1, refresh1, _) =>
          if IsConflict e then
            if steps = 0 then call
            else call ++ checkCalls c pod dryRun steps (attempt + 1) refresh1 zdb1
          else call

/-! ## pkg/podzone/helper.go -/

/-- The `podzone.Helper`: its client (the node reads) and the live entries of
its TTL cache, pod name to zone.  Expiry happens between calls and is not
part of the embedding. -/
structure Helper where
  GetNode : String → Except ApiError Node
  Cache : GoMap String

/-- The method `Helper.getZoneFromCache`: the zone and the `found` flag. -/
def getZoneFromCache (h : Helper) (podName : String) : String × Bool :=
  match GoMap.get? h.Cache podName with
  | some zone => (zone, true)
  | none => ("", false)

/-- The method `Helper.getPodZone`: the zone, the `found` flag and the helper
with the cache as the call leaves it. -/
def getPodZone (h : Helper) (pod : Pod) : (String × Bool) × Helper :=
  match h.GetNode pod.NodeName with
  | Except.error _ => (getZoneFromCache h pod.Name, h)
  | Except.ok node =>
      match GoMap.get? node.Labels LabelTopologyZone with
      | none => (getZoneFromCache h pod.Name, h)
      | some zone => ((zone, true), { h with Cache := GoMap.set h.Cache pod.Name zone })

/-- One iteration of the loop of `Helper.GetZonePodsMap`. -/
def addPodToZoneMap (acc : GoMap (List Pod) × Helper) (pod : Pod) : GoMap (List Pod) × Helper :=
  match getPodZone acc.2 pod with
  | ((_, false), h1) => (acc.1, h1)
  | ((zone, true), h1) =>
      match GoMap.get? acc.1 zone with
      | some ps => (GoMap.set acc.1 zone (ps ++ [pod]), h1)
      | none => (GoMap.set acc.1 zone [pod], h1)

/-- The method `Helper.GetZonePodsMap`, with the helper as the calls leave it. -/
def GetZonePodsMap (h : Helper) (pods : List Pod) : GoMap (List Pod) × Helper :=
  pods.foldl addPodToZoneMap ([], h)

/-- Bytewise lexicographic order of two strings given by their characters,
the order of `sort.Strings`. -/
def lexLe : List Char → List Char → Bool
  | [], _ => true
  | _ :: _, [] => false
  | a :: as, b :: bs =>
      if a.toNat < b.toNat then true
      else if b.toNat < a.toNat then false
      else lexLe as bs

/-- The order of zone names used by `sort.Strings`. -/
def zoneLe (a b : String) : Prop :=
  lexLe a.toList b.toList = true

/-- The order `zoneLe` is decidable. -/
instance zoneLeDecidable : DecidableRel zoneLe :=
  fun a b => inferInstanceAs (Decidable (lexLe a.toList b.toList = true))

/-- The distinct keys of a map, in the order of their first entries. -/
def distinctKeys {V : Type} : GoMap V → List String
  | [] => []
  | (k, _) :: rest => k :: (distinctKeys rest).filter (fun x => !decide (x = k))

/-- The method `Helper.GetSortedZonesFromMap`. -/
def GetSortedZonesFromMap (zonePodsMap : GoMap (List Pod)) : List String :=
  (distinctKeys zonePodsMap).insertionSort zoneLe

/-- The pods of a zone in a zone map: `zonePodsMap[zone]`. -/
def podsOfZone (zonePodsMap : GoMap (List Pod)) (zone : String) : List Pod :=
  (GoMap.get? zonePodsMap zone).getD []

/-- Modelled from the spec: `utils.IsTerminating` (pkg/utils/utils.go is not
among the sources).  A pod is terminating iff its deletion timestamp is
present. -/
def IsTerminating (pod : Pod) : Bool :=
  pod.DeletionTimestamp.isSome

/-- Modelled from the spec: `utils.IsRunningAndReady` (pkg/utils/utils.go is
not among the sources): phase Running and Ready condition true. -/
def IsRunningAndReady (pod : Pod) : Bool :=
  decide (pod.Phase = PodPhase.Running) && IsPodReady pod

/-! ## controllers/zdb_controller.go

The ZDB reconciler is not among the sources.  It is modelled from the
specification (section 4.1, steps 1 to 8); the controller tests in
`controllers/zdb_controller_test.go` are replayed on the model below. -/

/-- Modelled from the spec: the effective integer `maxUnavailable` of the ZDB
reconciler (zdb_controller.go is not among the sources), step 1: an integer
is taken as it is, a percentage is `ceil(pct * totalExpected / 100)`.  A ZDB
without `maxUnavailable` gets 0. -/
def effectiveMaxUnavailable (mu : Option IntOrString) (totalExpected : Nat) : Int :=
  match mu with
  | none => 0
  | some (IntOrString.int n) => n
  | some (IntOrString.percent p) => ((p * totalExpected + 99) / 100 : Nat)

/-- Modelled from the spec: the health test of the ZDB reconciler
(zdb_controller.go is not among the sources), step 4: healthy iff phase
Running, Ready condition true, not terminating and not in `disruptedPods`. -/
def isHealthy (disruptedPods : GoMap Nat) (pod : Pod) : Bool :=
  decide (pod.Phase = PodPhase.Running) && IsPodReady pod && !IsTerminating pod &&
    !GoMap.contains disruptedPods pod.Name

/-- Modelled from the spec: the healthy count of a zone bucket
(zdb_controller.go is not among the sources), step 5. -/
def healthyCount (disruptedPods : GoMap Nat) (pods : List Pod) : Nat :=
  (pods.filter (isHealthy disruptedPods)).length

/-- Modelled from the spec: the count of the pods of a zone bucket that are
listed in `disruptedPods` (zdb_controller.go is not among the sources),
step 6. -/
def disruptedCount (disruptedPods : GoMap Nat) (pods : List Pod) : Nat :=
  (pods.filter (fun p => GoMap.contains disruptedPods p.Name)).length

/-- Modelled from the spec: `currentUnhealthy` of a zone bucket
(zdb_controller.go is not among the sources), step 5: `expected` minus the
healthy count, clamped at 0. -/
def unhealthyCount (disruptedPods : GoMap Nat) (expected : Nat) (pods : List Pod) : Nat :=
  expected - healthyCount disruptedPods pods

/-- Modelled from the spec: `unhealthyOutside` of zone `z`
(zdb_controller.go is not among the sources), step 6: the sum over the other
observed zones of `currentUnhealthy` plus the disrupted pods of the zone. -/
def unhealthyOutside (disruptedPods : GoMap Nat) (expected : Nat)
    (zonePodsMap : GoMap (List Pod)) (zones : List String) (z : String) : Nat :=
  ((zones.filter (fun z1 => !decide (z1 = z))).map (fun z1 =>
    unhealthyCount disruptedPods expected (podsOfZone zonePodsMap z1) +
      disruptedCount disruptedPods (podsOfZone zonePodsMap z1))).sum

/-- Modelled from the spec: `disruptionsAllowed` of zone `z`
(zdb_controller.go is not among the sources), step 6: 0 when
`unhealthyOutside` is positive, and otherwise `maxUnavailable` minus the
unhealthy and the disrupted pods of the zone, not below 0. -/
def zoneDisruptionsAllowed (disruptedPods : GoMap Nat) (maxUnavailable : Int) (expected : Nat)
    (zonePodsMap : GoMap (List Pod)) (zones : List String) (z : String) : Int :=
  if 0 < unhealthyOutside disruptedPods expected zonePodsMap zones z then 0
  else
    max 0 (maxUnavailable - (unhealthyCount disruptedPods expected (podsOfZone zonePodsMap z) : Nat) -
      (disruptedCount disruptedPods (podsOfZone zonePodsMap z) : Nat))

/-- The age, in seconds, after which an entry of `disruptedPods` is dropped:
two minutes. -/
def DisruptedPodTimeout : Nat := 120

/-- Modelled from the spec: the ageing of `disruptedPods` by the ZDB
reconciler (zdb_controller.go is not among the sources), step 7: an entry is
dropped when its pod is terminating, is gone, or the entry is older than two
minutes. -/
def ageOutDisruptedPods (disruptedPods : GoMap Nat) (pods : List Pod) (now : Nat) : GoMap Nat :=
  disruptedPods.filter (fun e =>
    match pods.find? (fun p => decide (p.Name = e.1)), GoMap.get? disruptedPods e.1 with
    | some p, some t => !IsTerminating p && !decide (t + DisruptedPodTimeout < now)
    | _, _ => false)

/-- Modelled from the spec: the status computed by one reconciliation of a ZDB
(zdb_controller.go is not among the sources), steps 3 to 8, from the zone
buckets of the selected pods.  `totalExpected` is the replica count of the
owning ordered set, `none` when the owner cannot be resolved: the per-zone
maps are then empty. -/
def computeZdbStatus (zdb : ZoneDisruptionBudget) (zonePodsMap : GoMap (List Pod))
    (pods : List Pod) (totalExpected : Option Nat) (now : Nat) : ZoneDisruptionBudgetStatus :=
  let disrupted := zdb.Status.DisruptedPods
  let aged := ageOutDisruptedPods disrupted pods now
  match totalExpected with
  | none =>
      { ObservedGeneration := zdb.Generation, DisruptedPods := aged, DisruptionsAllowed := [],
        CurrentHealthy := [], CurrentUnhealthy := [], DesiredHealthy := [], ExpectedPods := [] }
  | some total =>
      let zones := GetSortedZonesFromMap zonePodsMap
      let expected := total / zones.length
      let maxUnavailable := effectiveMaxUnavailable zdb.Spec.MaxUnavailable total
      { ObservedGeneration := zdb.Generation,
        DisruptedPods := aged,
        DisruptionsAllowed := zones.map (fun z =>
          (z, zoneDisruptionsAllowed disrupted maxUnavailable expected zonePodsMap zones z)),
        CurrentHealthy := zones.map (fun z =>
          (z, (healthyCount disrupted (podsOfZone zonePodsMap z) : Int))),
        CurrentUnhealthy := zones.map (fun z =>
          (z, (unhealthyCount disrupted expected (podsOfZone zonePodsMap z) : Int))),
        DesiredHealthy := zones.map (fun z => (z, (expected : Int) - maxUnavailable)),
        ExpectedPods := zones.map (fun z => (z, (expected : Int))) }

/-- Modelled from the spec: one reconciliation of a ZDB (zdb_controller.go is
not among the sources), steps 2 to 8: the selected pods are bucketed by zone
through the pod-zone helper and the status is computed from the buckets. -/
def reconcileZdb (h : Helper) (zdb : ZoneDisruptionBudget) (pods : List Pod)
    (totalExpected : Option Nat) (now : Nat) : ZoneDisruptionBudgetStatus :=
  computeZdbStatus zdb (GetZonePodsMap h pods).1 pods totalExpected now

/-! ## controllers/zau_controller.go

The ZAU reconciler is not among the sources.  It is modelled from the
specification (section 4.3, steps 1 to 11).  Where the controller tests in
`controllers/zau_controller_test.go` pin a behaviour that the specification
words differently, the model follows the tests: a dry-run ZAU is reconciled
whatever the update strategy of its set, and a failed alarm read returns the
error without asking for a re-check. -/

/-- The label `apps.ControllerRevisionHashLabelKey`. -/
def ControllerRevisionHashLabelKey : String := "controller-revision-hash"

/-- The `apps.StatefulSetUpdateStrategyType` values. -/
inductive UpdateStrategyType where
  | RollingUpdate
  | OnDelete
  deriving DecidableEq

/-- The `apps.StatefulSet` fields read by the ZAU reconciler. -/
structure StatefulSet where
  Name : String
  Namespace : String
  Replicas : Nat
  UpdateStrategy : UpdateStrategyType
  CurrentRevision : String
  UpdateRevision : String
  deriving DecidableEq

/-- Modelled from the spec: the `ZoneAwareUpdateSpec` (api/v1/zau_types.go is
not among the sources): the target set, `maxUnavailable`, the string-encoded
`exponentialFactor`, the optional alarm name (empty: none), `ignoreAlarm` and
`dryRun`. -/
structure ZoneAwareUpdateSpec where
  StatefulSet : String
  MaxUnavailable : Option IntOrString
  ExponentialFactor : String
  PauseRolloutAlarm : String
  IgnoreAlarm : Bool
  DryRun : Bool
  deriving DecidableEq

/-- Modelled from the spec: the `ZoneAwareUpdateStatus` (api/v1/zau_types.go
is not among the sources). -/
structure ZoneAwareUpdateStatus where
  UpdateStep : Int
  DeletedReplicas : Int
  OldReplicas : GoMap Int
  UpdateRevision : String
  CurrentRevision : String
  PausedRollout : Bool
  deriving DecidableEq

/-- Modelled from the spec: the `ZoneAwareUpdate` object (api/v1/zau_types.go
is not among the sources). -/
structure ZoneAwareUpdate where
  Name : String
  Namespace : String
  Spec : ZoneAwareUpdateSpec
  Status : ZoneAwareUpdateStatus
  deriving DecidableEq

/-- A non-negative decimal `Num / 10 ^ Scale`, the value of a parsed
`exponentialFactor`. -/
structure Decimal where
  Num : Nat
  Scale : Nat
  deriving DecidableEq

/-- The rational value of a decimal. -/
def Decimal.toRat (f : Decimal) : ℚ :=
  (f.Num : ℚ) / (10 : ℚ) ^ f.Scale

/-- The number written by a list of decimal digits. -/
def digitsValue (cs : List Char) : Nat :=
  cs.foldl (fun acc c => 10 * acc + (c.toNat - 48)) 0

/-- Modelled from the spec: the parse of `exponentialFactor`, a
string-encoded non-negative decimal (zau_controller.go is not among the
sources): digits, optionally followed by a point and digits, with at least
one digit.  Anything else is malformed. -/
def parseFactor (s : String) : Option Decimal :=
  let cs := s.toList
  let ip := cs.takeWhile Char.isDigit
  match cs.dropWhile Char.isDigit with
  | [] => if ip.isEmpty then none else some { Num := digitsValue ip, Scale := 0 }
  | c :: fp =>
      if c = '.' ∧ fp.all Char.isDigit = true ∧ ¬(ip.isEmpty = true ∧ fp.isEmpty = true) then
        some { Num := digitsValue (ip ++ fp), Scale := fp.length }
      else none

/-- The largest value of the signed 64-bit integer type `int`. -/
def maxInt64 : Nat := 2 ^ 63 - 1

/-- The integer part of `f ^ k`. -/
def floorPow (f : Decimal) (k : Nat) : Nat :=
  f.Num ^ k / 10 ^ (f.Scale * k)

/-- Modelled from the spec: `maxPodsToDelete(maxUnavailable, updateStep,
exponentialFactor)` (zau_controller.go is not among the sources), step 7:
a malformed factor is an error; factor 0 gives `M`; factor 1 gives 1;
otherwise `min(M, floor(f ^ updateStep))`, where a power that does not fit
the 64-bit integer type saturates to `M`. -/
def maxPodsToDelete (maxUnavailable : Int) (updateStep : Nat) (exponentialFactor : String) :
    Except String Int :=
  match parseFactor exponentialFactor with
  | none => Except.error ("invalid exponential factor: " ++ exponentialFactor)
  | some f =>
      if f.Num = 0 then Except.ok maxUnavailable
      else if f.Num = 10 ^ f.Scale then Except.ok 1
      else if maxInt64 < floorPow f updateStep then Except.ok maxUnavailable
      else Except.ok (min maxUnavailable (floorPow f updateStep : Nat))

/-- The helper `getOrdinal` of the controller tests: the number after the
last `-` of the pod name, and -1 when that is not a number that `strconv.Atoi`
accepts. -/
def getOrdinal (name : String) : Int :=
  let last := (name.toList.reverse.takeWhile (fun c => !decide (c = '-'))).reverse
  let digits := match last with
    | '+' :: rest => rest
    | other => other
  if digits.isEmpty = false ∧ digits.all Char.isDigit = true ∧ digitsValue digits ≤ maxInt64 then
    (digitsValue digits : Int)
  else -1

/-- The order of the deletion targets: higher ordinal first. -/
def ordinalGe (a b : Pod) : Prop :=
  getOrdinal b.Name ≤ getOrdinal a.Name

/-- The order `ordinalGe` is decidable. -/
instance ordinalGeDecidable : DecidableRel ordinalGe :=
  fun a b => inferInstanceAs (Decidable (getOrdinal b.Name ≤ getOrdinal a.Name))

/-- Modelled from the spec: a pod is new-revision iff its revision-hash label
equals the `updateRevision` of the set (zau_controller.go is not among the
sources). -/
def isNewRevision (ss : StatefulSet) (pod : Pod) : Bool :=
  decide ((GoMap.get? pod.Labels ControllerRevisionHashLabelKey).getD "" = ss.UpdateRevision)

/-- Modelled from the spec: the old-revision pods among a list of pods
(zau_controller.go is not among the sources). -/
def oldPods (ss : StatefulSet) (pods : List Pod) : List Pod :=
  pods.filter (fun p => !isNewRevision ss p)

/-- Modelled from the spec: `oldReplicas`, the number of old-revision pods of
each zone (zau_controller.go is not among the sources), step 2.  Zones without
an old-revision pod get no entry and read as 0. -/
def oldPodsCountMap (ss : StatefulSet) (zonePodsMap : GoMap (List Pod)) (zones : List String) :
    GoMap Int :=
  zones.filterMap (fun z =>
    let n := (oldPods ss (podsOfZone zonePodsMap z)).length
    if n = 0 then none else some (z, (n : Int)))

/-- Modelled from the spec: the active zone, the first zone in sorted order
that still has old-revision pods (zau_controller.go is not among the
sources), step 6. -/
def activeZone (ss : StatefulSet) (zonePodsMap : GoMap (List Pod)) (zones : List String) :
    Option String :=
  zones.find? (fun z => decide (0 < (oldPods ss (podsOfZone zonePodsMap z)).length))

/-- Modelled from the spec: `updateZauStatus(zau, ss, updateStep,
deletedReplicas, oldPodsCountMap, pausedRollout)` (zau_controller.go is not
among the sources), step 11. -/
def updateZauStatus (ss : StatefulSet) (updateStep : Int) (deletedReplicas : Int)
    (counts : GoMap Int) (pausedRollout : Bool) : ZoneAwareUpdateStatus :=
  { UpdateStep := updateStep, DeletedReplicas := deletedReplicas, OldReplicas := counts,
    UpdateRevision := ss.UpdateRevision, CurrentRevision := ss.CurrentRevision,
    PausedRollout := pausedRollout }

/-- Modelled from the spec: the `ZoneAwareUpdateReconciler` seen from one
reconcile (zau_controller.go is not among the sources): the pods of the set as
listed, the pod-zone helper, the alarm state provider, and the outcome of the
deletion of a pod by name (`none`: deleted). -/
structure ZoneAwareUpdateReconciler where
  Pods : List Pod
  PodZoneHelper : Helper
  AlarmStateProvider : String → Except String String
  DeletePod : String → Option String

/-- The three outcomes of the alarm gate. -/
inductive AlarmGate where
  | pass
  | paused
  | failed (err : String)
  deriving DecidableEq

/-- Modelled from the spec: the alarm gate (zau_controller.go is not among the
sources), step 3. -/
def alarmGate (r : ZoneAwareUpdateReconciler) (zau : ZoneAwareUpdate) : AlarmGate :=
  if zau.Spec.PauseRolloutAlarm ≠ "" ∧ zau.Spec.IgnoreAlarm = false then
    match r.AlarmStateProvider zau.Spec.PauseRolloutAlarm with
    | Except.error e => AlarmGate.failed e
    | Except.ok state => if state = "ALARM" then AlarmGate.paused else AlarmGate.pass
  else AlarmGate.pass

/-- Modelled from the spec: the deletions of a batch (zau_controller.go is not
among the sources), step 10: the pods deleted before the first failure, and
that failure. -/
def deletePods (r : ZoneAwareUpdateReconciler) : List Pod → List Pod × Option String
  | [] => ([], none)
  | p :: ps =>
      match r.DeletePod p.Name with
      | some e => ([], some e)
      | none => (p :: (deletePods r ps).1, (deletePods r ps).2)

/-- What `updateStatefulSet` returns and does: the `recheck` flag, the error,
the status of the ZAU after the call and the pods it deleted. -/
structure UpdateOutcome where
  Recheck : Bool
  Err : Option String
  Status : ZoneAwareUpdateStatus
  Deleted : List Pod

/-- Modelled from the spec: step 4, the update step the batch is computed
from: 0 when the stored `updateRevision` differs from the one of the set
(zau_controller.go is not among the sources). -/
def effectiveUpdateStep (zau : ZoneAwareUpdate) (ss : StatefulSet) : Int :=
  if zau.Status.UpdateRevision ≠ ss.UpdateRevision then 0 else zau.Status.UpdateStep

/-- Modelled from the spec: steps 7 to 9, the deletion targets of a reconcile
that passed the gates (zau_controller.go is not among the sources): the
old-revision pods of the active zone by descending ordinal, cut to the batch;
a not-Ready one among them is the sole target. -/
def deletionTargets (ss : StatefulSet) (zonePodsMap : GoMap (List Pod)) (active : String)
    (batch : Int) : List Pod :=
  let candidates := (oldPods ss (podsOfZone zonePodsMap active)).insertionSort ordinalGe
  match candidates.find? (fun p => !IsPodReady p) with
  | some p => [p]
  | none => candidates.take batch.toNat

/-- Modelled from the spec: `updateStatefulSet(zau, ss)` (zau_controller.go is
not among the sources), steps 1 to 11 of the reconcile loop. -/
def updateStatefulSet (r : ZoneAwareUpdateReconciler) (zau : ZoneAwareUpdate)
    (ss : StatefulSet) : UpdateOutcome :=
  if ss.UpdateStrategy ≠ UpdateStrategyType.OnDelete ∧ zau.Spec.DryRun = false then
    { Recheck := false, Err := none, Status := zau.Status, Deleted := [] }
  else
    let zonePodsMap := (GetZonePodsMap r.PodZoneHelper r.Pods).1
    let zones := GetSortedZonesFromMap zonePodsMap
    let counts := oldPodsCountMap ss zonePodsMap zones
    match activeZone ss zonePodsMap zones with
    | none =>
        { Recheck := false, Err := none, Status := updateZauStatus ss 0 0 counts false,
          Deleted := [] }
    | some active =>
        match alarmGate r zau with
        | AlarmGate.failed e =>
            { Recheck := false, Err := some e,
              Status := { zau.Status with PausedRollout := true }, Deleted := [] }
        | AlarmGate.paused =>
            { Recheck := true, Err := none,
              Status := { zau.Status with PausedRollout := true, OldReplicas := counts },
              Deleted := [] }
        | AlarmGate.pass =>
            if r.Pods.any IsTerminating then
              { Recheck := false, Err := none, Status := zau.Status, Deleted := [] }
            else if r.Pods.any (fun p => isNewRevision ss p && !IsPodReady p) then
              { Recheck := false, Err := none, Status := zau.Status, Deleted := [] }
            else if zones.any (fun z => !decide (z = active) &&
                (oldPods ss (podsOfZone zonePodsMap z)).any (fun p => !IsPodReady p)) then
              { Recheck := false, Err := none, Status := zau.Status, Deleted := [] }
            else
              match maxPodsToDelete (effectiveMaxUnavailable zau.Spec.MaxUnavailable ss.Replicas)
                  (effectiveUpdateStep zau ss).toNat zau.Spec.ExponentialFactor with
              | Except.error e =>
                  { Recheck := false, Err := some e, Status := zau.Status, Deleted := [] }
              | Except.ok batch =>
                  let targets := deletionTargets ss zonePodsMap active batch
                  let status := updateZauStatus ss (effectiveUpdateStep zau ss + 1)
                    (targets.length : Nat) counts false
                  if zau.Spec.DryRun then
                    { Recheck := false, Err := none, Status := status, Deleted := [] }
                  else
                    match (deletePods r targets).2 with
                    | some e =>
                        { Recheck := false, Err := some e, Status := zau.Status,
                          Deleted := (deletePods r targets).1 }
                    | none =>
                        { Recheck := false, Err := none, Status := status,
                          Deleted := (deletePods r targets).1 }

/-! ## pkg/utils/zdb_utils.go, in the words of the claims -/

/-- The ZDB has a selector that is valid, is not empty and matches the labels
of the pod. -/
def selectsPod (pod : Pod) (zdb : ZoneDisruptionBudget) : Bool :=
  match LabelSelectorAsSelector zdb.Spec.Selector with
  | Except.error _ => false
  | Except.ok sel => !sel.Empty && sel.Matches pod.Labels

/-! ## pkg/utils/alarm_status_provider.go -/

/-- The `types.CompositeAlarm` fields read by the provider. -/
structure CompositeAlarm where
  AlarmName : String
  StateValue : String
  deriving DecidableEq

/-- The `cloudwatch.DescribeAlarmsOutput`: only `CompositeAlarms` is read. -/
structure DescribeAlarmsOutput where
  CompositeAlarms : List CompositeAlarm
  deriving DecidableEq

/-- The errors that `AlarmState` returns: the error of the `DescribeAlarms`
call, `alarm not found: <name>` and `multiple alarms found: <alarms>`. -/
inductive AlarmError where
  | describe (err : String)
  | notFound (alarmName : String)
  | multiple (alarms : List CompositeAlarm)
  deriving DecidableEq

/-- The `CloudWatchAPI` interface: the answer of `DescribeAlarms` to a request
for the composite alarms with the given names. -/
structure CloudWatchAPI where
  DescribeAlarms : List String → Except String DescribeAlarmsOutput

/-- The `CloudWatchAlarmStateProvider`. -/
structure CloudWatchAlarmStateProvider where
  Client : CloudWatchAPI

/-- The method `CloudWatchAlarmStateProvider.AlarmState`: the state value and
the error (`none` is the nil error). -/
def CloudWatchAlarmStateProvider.AlarmState (p : CloudWatchAlarmStateProvider)
    (alarmName : String) : String × Option AlarmError :=
  match p.Client.DescribeAlarms [alarmName] with
  | Except.error err => ("", some (AlarmError.describe err))
  | Except.ok output =>
      if output.CompositeAlarms.length = 0 then ("", some (AlarmError.notFound alarmName))
      else if 1 < output.CompositeAlarms.length then
        ("", some (AlarmError.multiple output.CompositeAlarms))
      else
        match output.CompositeAlarms with
        | alarm :: _ => (alarm.StateValue, none)
        | [] => ("", some (AlarmError.notFound alarmName))

/-! ## pkg/utils/pod_controller_finder.go -/

/-- The `metav1.OwnerReference` fields read by the controller finder. -/
structure OwnerReference where
  APIVersion : String
  Kind : String
  Name : String
  UID : String
  deriving DecidableEq

/-- The `schema.GroupVersion`. -/
structure GroupVersion where
  Group : String
  Version : String
  deriving DecidableEq

/-- The function `schema.ParseGroupVersion`: the empty text and `/` give the
empty group and version, a text without `/` is a version of the empty group,
a text with one `/` is `group/version`, and more than one `/` is an error. -/
def ParseGroupVersion (gv : String) : Except String GroupVersion :=
  if gv = "" ∨ gv = "/" then Except.ok { Group := "", Version := "" }
  else
    match splitOnChar '/' gv.toList with
    | [version] => Except.ok { Group := "", Version := String.mk version }
    | [group, version] => Except.ok { Group := String.mk group, Version := String.mk version }
    | _ => Except.error ("unexpected GroupVersion string: " ++ gv)

/-- The function `verifyGroupKind`: the answer and the error. -/
def verifyGroupKind (controllerRef : OwnerReference) (expectedKind : String)
    (expectedGroups : List String) : Bool × Option String :=
  match ParseGroupVersion controllerRef.APIVersion with
  | Except.error err => (false, some err)
  | Except.ok gv =>
      if controllerRef.Kind ≠ expectedKind then (false, none)
      else if expectedGroups.any (fun group => decide (group = gv.Group)) then (true, none)
      else (false, none)

/-- The `apps.StatefulSet` fields read by the controller finder. -/
structure OwnerStatefulSet where
  UID : String
  Replicas : Int
  deriving DecidableEq

/-- The `ControllerAndScale` pair. -/
structure ControllerAndScale where
  UID : String
  Scale : Int
  deriving DecidableEq

/-- The kind of `ControllerKindSS`. -/
def ControllerKindSS : String := "StatefulSet"

/-- The function `getPodStatefulSet`: the pair (`none` is the nil pointer) and
the error (`none` is the nil error).  `getSet` is `c.Get` of a StatefulSet by
namespace and name; an error of the group-version parse is carried with the
reason `Other`. -/
def getPodStatefulSet (getSet : String → String → Except ApiError OwnerStatefulSet)
    (controllerRef : OwnerReference) (ns : String) :
    Option ControllerAndScale × Option ApiError :=
  match verifyGroupKind controllerRef ControllerKindSS ["apps"] with
  | (_, some err) => (none, some { Reason := StatusReason.Other, Message := err })
  | (false, none) => (none, none)
  | (true, none) =>
      match getSet ns controllerRef.Name with
      | Except.error err =>
          if err.Reason = StatusReason.NotFound then (none, none) else (none, some err)
      | Except.ok ss =>
          if ss.UID ≠ controllerRef.UID then (none, none)
          else (some { UID := ss.UID, Scale := ss.Replicas }, none)

/-! ## main.go -/

/-- Modelled from the spec: `controllersToStart()` (main.go is not among the
sources; `main_test.go` is), with the value of the environment variable
`CONTROLLERS` as argument, `none` when it is unset: an unset or empty value
starts both controllers, and otherwise the value is a comma-separated list and
a controller is started iff the list names it.  The result is `(startZdb,
startZau)`. -/
def controllersToStart (env : Option String) : Bool × Bool :=
  let value := env.getD ""
  if value = "" then (true, true)
  else
    let names := (splitOnChar ',' value.toList).map String.mk
    (decide ("zdb" ∈ names), decide ("zau" ∈ names))

/-! ## The zone buckets, pod by pod -/

/-- The lookups of `GetZonePodsMap`, pod by pod in input order: each pod with
the zone and the `found` flag that `getPodZone` returns for it, on the helper
as the earlier lookups left it. -/
def resolveZones (h : Helper) : List Pod → List (Pod × String × Bool)
  | [] => []
  | pod :: rest => (pod, (getPodZone h pod).1) :: resolveZones (getPodZone h pod).2 rest

/-- The pods that resolved to the zone `z`, in input order. -/
def resolvedIn (z : String) (rs : List (Pod × String × Bool)) : List Pod :=
  (rs.filter (fun r => r.2.2 && decide (r.2.1 = z))).map (fun r => r.1)

/-! ## Test fixtures

The resources of the controller and webhook tests: nine pods `<label>-0` to
`<label>-8` spread round-robin over three zones, each on a node of its own
that carries the zone label. -/

/-- The ordinal and the zone of the nine pods created by `createPods`. -/
def fixtureLayout : List (String × String) :=
  [("0", "us-east-1a"), ("1", "us-east-1b"), ("2", "us-east-1c"),
   ("3", "us-east-1a"), ("4", "us-east-1b"), ("5", "us-east-1c"),
   ("6", "us-east-1a"), ("7", "us-east-1b"), ("8", "us-east-1c")]

/-- The node name chosen by `GetOrCreateNode`. -/
def fixtureNodeName (zone podName : String) : String :=
  "node-" ++ zone ++ "-" ++ podName

/-- The pods of `createPods`: Running and Ready on the old revision `""`,
except that the pods whose ordinal is in `updated` carry the revision
`"update"`, those in `notReady` are Pending without a Ready condition, and
those in `terminating` carry a deletion timestamp. -/
def fixturePods (label : String) (updated notReady terminating : List String) : List Pod :=
  fixtureLayout.map (fun e =>
    { Name := label ++ "-" ++ e.1,
      Namespace := "default",
      Labels := [("name", label),
        (ControllerRevisionHashLabelKey, if e.1 ∈ updated then "update" else "")],
      NodeName := fixtureNodeName e.2 (label ++ "-" ++ e.1),
      Phase := if e.1 ∈ notReady then PodPhase.Pending else PodPhase.Running,
      Conditions :=
        [{ CondType := if e.1 ∈ notReady then "ContainersReady" else "Ready",
           Status := ConditionStatus.True }],
      DeletionTimestamp := if e.1 ∈ terminating then some 1 else none })

/-- The nodes of the fixture pods, as the client returns them. -/
def fixtureGetNode (label : String) (nodeName : String) : Except ApiError Node :=
  match fixtureLayout.find? (fun e => decide (fixtureNodeName e.2 (label ++ "-" ++ e.1) = nodeName)) with
  | some e => Except.ok { Name := nodeName, Labels := [(LabelTopologyZone, e.2)] }
  | none => Except.error { Reason := StatusReason.NotFound, Message := "node not found" }

/-- The pod-zone helper of the tests, with an empty cache. -/
def fixtureHelper (label : String) : Helper :=
  { GetNode := fixtureGetNode label, Cache := [] }

/-- The stateful set of `createResources`: nine replicas, current revision
`""`, update revision `"update"`. -/
def fixtureSet (label : String) (strategy : UpdateStrategyType) : StatefulSet :=
  { Name := label ++ "-ss", Namespace := "default", Replicas := 9, UpdateStrategy := strategy,
    CurrentRevision := "", UpdateRevision := "update" }

/-- The ZAU of `createResources` with `maxUnavailable = 2` and the default
factor, after `UpdateZauStep(zau, step, revision)`. -/
def fixtureZau (label : String) (step : Int) (deleted : Int) (revision : String) (alarm : String)
    (dryRun : Bool) : ZoneAwareUpdate :=
  { Name := label ++ "-zau", Namespace := "default",
    Spec := { StatefulSet := label ++ "-ss", MaxUnavailable := some (IntOrString.int 2),
              ExponentialFactor := "2.0", PauseRolloutAlarm := alarm, IgnoreAlarm := false,
              DryRun := dryRun },
    Status := { UpdateStep := step, DeletedReplicas := deleted, OldReplicas := [],
                UpdateRevision := revision, CurrentRevision := "", PausedRollout := false } }

/-- The reconciler of the tests over the given pods: every deletion succeeds
and the alarm provider answers with `alarm`. -/
def fixtureReconciler (label : String) (pods : List Pod) (alarm : Except String String) :
    ZoneAwareUpdateReconciler :=
  { Pods := pods, PodZoneHelper := fixtureHelper label,
    AlarmStateProvider := fun _ => alarm, DeletePod := fun _ => none }

/-- The ZDB of `CreateZdb(maxUnavailable, dryRun, label)`, reconciled once
(generation 1 observed), with the given budget and disrupted pods. -/
def fixtureZdb (label : String) (maxUnavailable : Int) (dryRun : Bool)
    (disruptionsAllowed : GoMap Int) (disruptedPods : GoMap Nat) : ZoneDisruptionBudget :=
  { Name := label ++ "-zdb", Namespace := "default", Generation := 1,
    Spec := { Selector := some { MatchLabels := [("name", label)], MatchExpressions := [] },
              MaxUnavailable := some (IntOrString.int maxUnavailable), DryRun := dryRun },
    Status := { ObservedGeneration := 1, DisruptedPods := disruptedPods,
                DisruptionsAllowed := disruptionsAllowed, CurrentHealthy := [],
                CurrentUnhealthy := [], DesiredHealthy := [], ExpectedPods := [] } }

/-- The pod of `CreatePod(name, "az-1", label, Running, Ready)`. -/
def fixtureEvictionPod (name label : String) : Pod :=
  { Name := name, Namespace := "default", Labels := [("name", label)],
    NodeName := fixtureNodeName "az-1" name, Phase := PodPhase.Running,
    Conditions := [{ CondType := "Ready", Status := ConditionStatus.True }],
    DeletionTimestamp := none }

/-- The node of `fixtureEvictionPod`. -/
def fixtureEvictionNode (name : String) : Node :=
  { Name := fixtureNodeName "az-1" name, Labels := [(LabelTopologyZone, "az-1")] }

/-- The request sent by `evict(pod, dryRun)`: a `policy/v1beta1` eviction. -/
def fixtureEviction (name : String) (dryRun : Bool) : Request :=
  { Operation := Operation.Create, SubResource := "eviction", Namespace := "default",
    Name := name,
    EvictionV1 := Except.error "no kind Eviction is registered for version policy/v1",
    EvictionBeta := Except.ok (some { DryRun := if dryRun then ["All"] else [] }) }

/-- An API server that holds one pod on its node and one ZDB, persists every
status update, and returns the same ZDB on a refresh. -/
def fixtureClient (pod : Pod) (node : Node) (zdb : ZoneDisruptionBudget) : Client :=
  { GetPod := fun _ name =>
      if name = pod.Name then Except.ok pod
      else Except.error { Reason := StatusReason.NotFound, Message := "pod not found" },
    ListZdb := fun _ => Except.ok [zdb],
    GetNode := fun _ name =>
      if name = node.Name then Except.ok node
      else Except.error { Reason := StatusReason.NotFound, Message := "node not found" },
    GetZdb := fun _ _ _ => Except.ok zdb,
    StatusUpdate := fun _ _ => none,
    Now := fun _ => 9 }

/-- The ZDB read by the first attempt of the racing eviction: a budget of 2 in
`az-1` and no disrupted pod. -/
def raceZdbFirst : ZoneDisruptionBudget :=
  fixtureZdb "test1" 2 false [("az-1", 2)] []

/-- The ZDB read by the second attempt, after another handler admitted the
same pod: the budget is down to 1 and the pod is listed. -/
def raceZdbReread : ZoneDisruptionBudget :=
  fixtureZdb "test1" 2 false [("az-1", 1)] [("test-allow", 5)]

/-- An API server on which the first status update of the eviction of
`test-allow` conflicts with the write of a concurrent eviction of the same
pod, and the refresh returns the ZDB that this concurrent eviction wrote. -/
def raceClient : Client :=
  { GetPod := fun _ _ => Except.ok (fixtureEvictionPod "test-allow" "test1"),
    ListZdb := fun _ => Except.ok [raceZdbFirst],
    GetNode := fun _ _ => Except.ok (fixtureEvictionNode "test-allow"),
    GetZdb := fun _ _ _ => Except.ok raceZdbReread,
    StatusUpdate := fun attempt _ =>
      if attempt = 0 then
        some { Reason := StatusReason.Conflict, Message := "the object has been modified" }
      else none,
    Now := fun _ => 9 }

/-! ## More fixtures -/

/-- The placement of the pods of a set with ten replicas over the three
zones: the round-robin of `createPods` continued by one pod, so that the
first zone holds four pods. -/
def unevenLayout : List (String × String) :=
  fixtureLayout ++ [("9", "us-east-1a")]

/-- Ten Running and Ready pods placed by `unevenLayout`. -/
def unevenPods (label : String) : List Pod :=
  unevenLayout.map (fun e =>
    { Name := label ++ "-" ++ e.1,
      Namespace := "default",
      Labels := [("name", label), (ControllerRevisionHashLabelKey, "")],
      NodeName := fixtureNodeName e.2 (label ++ "-" ++ e.1),
      Phase := PodPhase.Running,
      Conditions := [{ CondType := "Ready", Status := ConditionStatus.True }],
      DeletionTimestamp := none })

/-- The pod-zone helper over the nodes of `unevenPods`, with an empty
cache. -/
def unevenHelper (label : String) : Helper :=
  { GetNode := fun nodeName =>
      match unevenLayout.find?
          (fun e => decide (fixtureNodeName e.2 (label ++ "-" ++ e.1) = nodeName)) with
      | some e => Except.ok { Name := nodeName, Labels := [(LabelTopologyZone, e.2)] }
      | none => Except.error { Reason := StatusReason.NotFound, Message := "node not found" },
    Cache := [] }

/-- The pod of `CreatePod(name, "az-1", label, phase, condition)`: the given
phase, and the given condition with status `True` as its only condition. -/
def fixturePodInPhase (name label : String) (phase : PodPhase) (condition : String) : Pod :=
  { Name := name, Namespace := "default", Labels := [("name", label)],
    NodeName := fixtureNodeName "az-1" name, Phase := phase,
    Conditions := [{ CondType := condition, Status := ConditionStatus.True }],
    DeletionTimestamp := none }

/-- The ZDB of `fixtureZdb` after a change of its spec that the reconciler has
not yet seen: generation 2, observed generation 1. -/
def fixtureStaleZdb (label : String) (disruptionsAllowed : GoMap Int) : ZoneDisruptionBudget :=
  { fixtureZdb label 1 false disruptionsAllowed [] with Generation := 2 }

/-- A node that carries no zone label. -/
def fixtureUnlabelledNode (name : String) : Node :=
  { Name := fixtureNodeName "az-1" name, Labels := [] }

/-- An API server on which every status update of the eviction of
`test-conflict` conflicts, and every refresh returns the ZDB with the budget
of 1 in `az-1` again. -/
def conflictClient : Client :=
  { GetPod := fun _ _ => Except.ok (fixtureEvictionPod "test-conflict" "test1"),
    ListZdb := fun _ => Except.ok [raceZdbFirst],
    GetNode := fun _ _ => Except.ok (fixtureEvictionNode "test-conflict"),
    GetZdb := fun _ _ _ => Except.ok raceZdbFirst,
    StatusUpdate := fun _ _ =>
      some { Reason := StatusReason.Conflict, Message := "the object has been modified" },
    Now := fun _ => 9 }

/-- The name `pod-dddd` of the pod number `i`, written with four decimal
digits. -/
def fixtureNumberedName (i : Nat) : String :=
  String.mk ['p', 'o', 'd', '-', Char.ofNat (48 + i / 1000 % 10),
    Char.ofNat (48 + i / 100 % 10), Char.ofNat (48 + i / 10 % 10), Char.ofNat (48 + i % 10)]

/-- A map of disrupted pods with the `n` entries `pod-0000`, `pod-0001`, ...,
all recorded at time 5. -/
def fixtureDisruptedPods : Nat → GoMap Nat
  | 0 => []
  | n + 1 => (fixtureNumberedName n, 5) :: fixtureDisruptedPods n

/-- The ZDB of the webhook test `Should allow evictions`, with a budget of 1
in `az-1`, whose status lists 2000 disrupted pods. -/
def fullZdb : ZoneDisruptionBudget :=
  fixtureZdb "test1" 1 false [("az-1", 1)] (fixtureDisruptedPods 2000)

/-- An API server that holds the pod `test-allow` on its node in `az-1` and
the ZDB `fullZdb`, and persists every status update. -/
def fullClient : Client :=
  fixtureClient (fixtureEvictionPod "test-allow" "test1") (fixtureEvictionNode "test-allow")
    fullZdb

/-! ## Fixtures of the helper and finder tests -/

/-- The pod of `CreateSimplePod(name, node)`: no labels, on the named node. -/
def fixtureSimplePod (name nodeName : String) : Pod :=
  { Name := name, Namespace := "default", Labels := [], NodeName := nodeName,
    Phase := PodPhase.Pending, Conditions := [], DeletionTimestamp := none }

/-- A pod-zone helper whose client holds the one node of
`GetOrCreateNode(podName, zone)`, with the given cache. -/
def fixtureCacheHelper (podName zone : String) (cache : GoMap String) : Helper :=
  { GetNode := fun nodeName =>
      if nodeName = fixtureNodeName zone podName then
        Except.ok { Name := nodeName, Labels := [(LabelTopologyZone, zone)] }
      else Except.error { Reason := StatusReason.NotFound, Message := "node not found" },
    Cache := cache }

/-- The answer of the mock `DescribeAlarms` of the provider test. -/
def fixtureCloudWatch (alarms : List CompositeAlarm) : CloudWatchAlarmStateProvider :=
  { Client := { DescribeAlarms := fun _ => Except.ok { CompositeAlarms := alarms } } }

/-- The alarm `okAlarm` of the provider test. -/
def fixtureOkAlarm : CompositeAlarm :=
  { AlarmName := "anyAlarmName", StateValue := "OK" }

/-- The client of the finder test: the StatefulSet `foobar` of
`createStatefulSet(10)` in the namespace `default`. -/
def fixtureGetSet (ns name : String) : Except ApiError OwnerStatefulSet :=
  if ns = "default" ∧ name = "foobar" then Except.ok { UID := "uid-foobar", Replicas := 10 }
  else Except.error { Reason := StatusReason.NotFound, Message := "statefulset not found" }

/-- A ZDB whose selector asks for the absence of the label `app`, reconciled
once, with a budget of 1 in `az-1`. -/
def fixtureAbsenceZdb : ZoneDisruptionBudget :=
  { Name := "absence-zdb", Namespace := "default", Generation := 1,
    Spec := { Selector := some
                { MatchLabels := [],
                  MatchExpressions :=
                    [{ Key := "app", Operator := LabelSelectorOpDoesNotExist,
                       Values := [] }] },
              MaxUnavailable := some (IntOrString.int 1), DryRun := false },
    Status := { ObservedGeneration := 1, DisruptedPods := [],
                DisruptionsAllowed := [("az-1", 1)], CurrentHealthy := [],
                CurrentUnhealthy := [], DesiredHealthy := [], ExpectedPods := [] } }

/-- A ZDB whose selector asks for the absence of the label `bad key!`, which
is not a qualified name. -/
def fixtureBadKeyZdb : ZoneDisruptionBudget :=
  { fixtureAbsenceZdb with
    Name := "key-zdb",
    Spec := { Selector := some
                { MatchLabels := [],
                  MatchExpressions :=
                    [{ Key := "bad key!", Operator := LabelSelectorOpDoesNotExist,
                       Values := [] }] },
              MaxUnavailable := some (IntOrString.int 1), DryRun := false } }

/-- An API server that holds one pod on its node and lists the given ZDBs in
every namespace. -/
def fixtureListClient (pod : Pod) (node : Node) (items : List ZoneDisruptionBudget) : Client :=
  { fixtureClient pod node fixtureAbsenceZdb with ListZdb := fun _ => Except.ok items }

/-- The pods of a set with eight replicas: the first eight pods of
`createPods`, three in `us-east-1a`, three in `us-east-1b` and two in
`us-east-1c`, Running and Ready except that pod 0 (in `us-east-1a`) and pod 1
(in `us-east-1b`) are Pending. -/
def eightPods (label : String) : List Pod :=
  (fixturePods label [] ["0", "1"] []).take 8

/-! # Theorems

## Go maps and the retry loop -/

/-- Deleting a key leaves the reads of the other keys unchanged. -/
theorem GoMap.get?_erase_ne {V : Type} (m : GoMap V) (k key : String) (h : key ≠ k) :
    GoMap.get? (GoMap.erase m k) key = GoMap.get? m key := by
  induction m with
  | nil => rfl
  | cons e rest ih =>
      obtain ⟨k1, v1⟩ := e
      by_cases h1 : k1 = k
      · subst h1
        have : k1 ≠ key := fun h2 => h h2.symm
        simp [GoMap.erase, GoMap.get?, this, ih]
      · by_cases h2 : k1 = key
        · subst h2
          simp [GoMap.erase, GoMap.get?, h1]
        · simp [GoMap.erase, GoMap.get?, h1, h2, ih]

/-- Assigning a key leaves the reads of the other keys unchanged. -/
theorem GoMap.get?_set_other {V : Type} (m : GoMap V) (k key : String) (v : V) (h : key ≠ k) :
    GoMap.get? (GoMap.set m k v) key = GoMap.get? m key := by
  have : k ≠ key := fun h2 => h h2.symm
  simp [GoMap.set, GoMap.get?, this, GoMap.get?_erase_ne m k key h]

/-- A deleted key is absent. -/
theorem GoMap.get?_erase_self {V : Type} (m : GoMap V) (k : String) :
    GoMap.get? (GoMap.erase m k) k = none := by
  induction m with
  | nil => rfl
  | cons e rest ih =>
      obtain ⟨k1, v1⟩ := e
      by_cases h1 : k1 = k
      · simp [GoMap.erase, h1, ih]
      · simp [GoMap.erase, GoMap.get?, h1, ih]

/-- Deleting a key lowers `len` by one exactly when the key was present. -/
theorem GoMap.len_erase {V : Type} (m : GoMap V) (k : String) :
    GoMap.len (GoMap.erase m k) + (if GoMap.contains m k then 1 else 0) = GoMap.len m := by
  induction m with
  | nil => rfl
  | cons e rest ih =>
      obtain ⟨k1, v1⟩ := e
      by_cases h1 : k1 = k
      · subst h1
        have hck : GoMap.contains ((k1, v1) :: rest) k1 = true := by
          simp [GoMap.contains, GoMap.get?]
        rw [hck]
        simp only [GoMap.erase, if_true, GoMap.len]
        by_cases hc : GoMap.contains rest k1 = true
        · simp only [hc, if_true] at ih ⊢
          exact ih
        · simp only [hc] at ih ⊢
          simp only [Bool.false_eq_true, if_false] at ih ⊢
          omega
      · have hget : GoMap.contains (GoMap.erase rest k) k1 = GoMap.contains rest k1 := by
          simp [GoMap.contains, GoMap.get?_erase_ne rest k k1 (fun h2 => h1 h2)]
        have hck : GoMap.contains ((k1, v1) :: rest) k = GoMap.contains rest k := by
          simp [GoMap.contains, GoMap.get?, h1]
        rw [hck]
        simp only [GoMap.erase, h1, if_false, GoMap.len, hget]
        by_cases hc1 : GoMap.contains rest k1 = true
        · simp only [hc1, if_true]
          exact ih
        · simp only [hc1]
          simp only [Bool.false_eq_true, if_false]
          omega

/-- The builtin `len` after `m[k] = v`: one more when the key is new. -/
theorem GoMap.len_set {V : Type} (m : GoMap V) (k : String) (v : V) :
    GoMap.len (GoMap.set m k v) = if GoMap.contains m k then GoMap.len m else GoMap.len m + 1 := by
  have h := GoMap.len_erase m k
  have hnot : GoMap.contains (GoMap.erase m k) k = false := by
    simp [GoMap.contains, GoMap.get?_erase_self]
  simp only [GoMap.set, GoMap.len, hnot]
  by_cases hc : GoMap.contains m k = true
  · simp only [hc, if_true] at h ⊢
    simp only [Bool.false_eq_true, if_false]
    omega
  · simp only [hc] at h ⊢
    simp only [Bool.false_eq_true, if_false] at h ⊢
    omega

/-- An assigned key reads as the value assigned. -/
theorem GoMap.get?_set_same {V : Type} (m : GoMap V) (k : String) (v : V) :
    GoMap.get? (GoMap.set m k v) k = some v := by
  simp [GoMap.set, GoMap.get?]

/-- An assigned key is present. -/
theorem GoMap.contains_set_same {V : Type} (m : GoMap V) (k : String) (v : V) :
    GoMap.contains (GoMap.set m k v) k = true := by
  simp [GoMap.contains, GoMap.get?_set_same]

/-- The two ways `checkAndDecrement` can end: without a write (a Forbidden
error, or success in dry-run mode), or with the one status update of the
decremented object. -/
theorem checkAndDecrement_cases (c : Client) (attempt : Nat) (pod : Pod)
    (zdb : ZoneDisruptionBudget) (dryRun : Bool) :
    ((checkAndDecrement c attempt pod zdb dryRun).Write = none ∧
      (checkAndDecrement c attempt pod zdb dryRun).Zdb = zdb ∧
      (((checkAndDecrement c attempt pod zdb dryRun).Err.map ApiError.Reason =
          some StatusReason.Forbidden) ∨
        ((checkAndDecrement c attempt pod zdb dryRun).Err = none ∧ dryRun = true))) ∨
    (dryRun = false ∧ zdb.Generation ≤ zdb.Status.ObservedGeneration ∧
      GoMap.len zdb.Status.DisruptedPods ≤ MaxDisruptedPodSize ∧
      ∃ zone, getZone c attempt pod = Except.ok zone ∧
        0 < getInt zdb.Status.DisruptionsAllowed zone ∧
        checkAndDecrement c attempt pod zdb dryRun =
          { Err := c.StatusUpdate attempt (recordDisruption zdb zone pod.Name (c.Now attempt)),
            Zdb := recordDisruption zdb zone pod.Name (c.Now attempt),
            Write := some
              { Object := recordDisruption zdb zone pod.Name (c.Now attempt),
                Outcome := c.StatusUpdate attempt
                  (recordDisruption zdb zone pod.Name (c.Now attempt)) } }) := by
  unfold checkAndDecrement
  by_cases hgen : zdb.Status.ObservedGeneration < zdb.Generation
  · left
    simp [hgen, NewForbidden]
  · rcases hz : getZone c attempt pod with e | zone
    · left
      simp [hgen, NewForbidden]
    · by_cases hneg : getInt zdb.Status.DisruptionsAllowed zone < 0
      · left
        simp [hgen, hneg, NewForbidden]
      · by_cases hbig : MaxDisruptedPodSize < GoMap.len zdb.Status.DisruptedPods
        · left
          simp [hgen, hneg, hbig, NewForbidden]
        · by_cases hzero : getInt zdb.Status.DisruptionsAllowed zone = 0
          · left
            simp [hgen, hbig, hzero, NewForbidden]
          · cases dryRun with
            | true =>
                left
                simp [hgen, hneg, hbig, hzero]
            | false =>
                right
                refine ⟨rfl, not_lt.mp hgen, not_lt.mp hbig, zone, rfl, ?_, ?_⟩
                · omega
                · simp [hgen, hneg, hbig, hzero]

/-- A first attempt (no refresh) whose `checkAndDecrement` issues no write and
fails, if at all, with an error that is not a conflict ends the retry loop. -/
theorem RetryOnConflict_first_no_write (c : Client) (pod : Pod) (dryRun : Bool) (steps attempt : Nat)
    (zdb : ZoneDisruptionBudget)
    (hw : (checkAndDecrement c attempt pod zdb dryRun).Write = none)
    (he : ∀ e, (checkAndDecrement c attempt pod zdb dryRun).Err = some e → IsConflict e = false) :
    RetryOnConflict c pod dryRun (steps + 1) attempt false zdb =
      { Err := (checkAndDecrement c attempt pod zdb dryRun).Err, Writes := [] } := by
  unfold RetryOnConflict attemptOnce
  rcases herr : (checkAndDecrement c attempt pod zdb dryRun).Err with _ | e
  · simp [herr, hw]
  · have := he e herr
    simp [herr, hw, this]

/-- A Forbidden error is not a conflict, so the retry loop does not retry it. -/
theorem forbidden_not_conflict (o : Option ApiError)
    (h : o.map ApiError.Reason = some StatusReason.Forbidden) :
    ∀ e, o = some e → IsConflict e = false := by
  intro e he
  subst he
  simp at h
  simp [IsConflict, h]

/-- Every object that `checkAndDecrement` sends lists the pod in `DisruptedPods`. -/
theorem checkAndDecrement_write_disrupted (c : Client) (attempt : Nat) (pod : Pod)
    (zdb : ZoneDisruptionBudget) (dryRun : Bool) (w : StatusWrite)
    (hw : (checkAndDecrement c attempt pod zdb dryRun).Write = some w) :
    isDisruptedPod pod.Name w.Object = true := by
  rcases checkAndDecrement_cases c attempt pod zdb dryRun with ⟨hnone, _⟩ | ⟨_, _, _, zone, _, _, heq⟩
  · rw [hnone] at hw
    simp at hw
  · rw [heq] at hw
    simp at hw
    subst hw
    simp [isDisruptedPod, recordDisruption, GoMap.contains_set_same]

/-- Every object that an attempt of the retry loop sends lists the pod. -/
theorem attemptOnce_write_disrupted (c : Client) (pod : Pod) (dryRun : Bool) (attempt : Nat)
    (refresh : Bool) (zdb : ZoneDisruptionBudget) (w : StatusWrite)
    (hw : (attemptOnce c pod dryRun attempt refresh zdb).2.2.2 = some w) :
    isDisruptedPod pod.Name w.Object = true := by
  unfold attemptOnce at hw
  cases refresh with
  | false =>
      rcases herr : (checkAndDecrement c attempt pod zdb dryRun).Err with _ | e
      · simp [herr] at hw
        exact checkAndDecrement_write_disrupted c attempt pod zdb dryRun w hw
      · simp [herr] at hw
        exact checkAndDecrement_write_disrupted c attempt pod zdb dryRun w hw
  | true =>
      rcases hget : c.GetZdb attempt zdb.Namespace zdb.Name with e | cur
      · simp [hget] at hw
      · rcases herr : (checkAndDecrement c attempt pod cur dryRun).Err with _ | e
        · simp [hget, herr] at hw
          exact checkAndDecrement_write_disrupted c attempt pod cur dryRun w hw
        · simp [hget, herr] at hw
          exact checkAndDecrement_write_disrupted c attempt pod cur dryRun w hw

/-- Every object that the retry loop sends lists the pod. -/
theorem RetryOnConflict_writes_disrupted (c : Client) (pod : Pod) (dryRun : Bool) (steps : Nat) :
    ∀ (attempt : Nat) (refresh : Bool) (zdb : ZoneDisruptionBudget) (w : StatusWrite),
      w ∈ (RetryOnConflict c pod dryRun steps attempt refresh zdb).Writes →
      isDisruptedPod pod.Name w.Object = true := by
  induction steps with
  | zero =>
      intro attempt refresh zdb w hw
      simp [RetryOnConflict] at hw
  | succ n ih =>
      intro attempt refresh zdb w hw
      unfold RetryOnConflict at hw
      rcases hat : attemptOnce c pod dryRun attempt refresh zdb with ⟨err, zdb1, refresh1, wr⟩
      have hwr : ∀ x, wr = some x → isDisruptedPod pod.Name x.Object = true := by
        intro x hx
        apply attemptOnce_write_disrupted c pod dryRun attempt refresh zdb x
        rw [hat]
        exact hx
      rw [hat] at hw
      cases err with
      | none =>
          simp at hw
          exact hwr w hw
      | some e =>
          simp only at hw
          split_ifs at hw
          · simp at hw
            exact hwr w hw
          · simp at hw
            rcases hw with hw | hw
            · exact hwr w hw
            · exact ih _ _ _ w hw
          · simp at hw
            exact hwr w hw

/-- The status updates of a handler run are those of its retry loop, when it
gets that far, and none otherwise. -/
theorem handler_writes_cases (c : Client) (req : Request) :
    (handler c req).Writes = [] ∨
    ∃ (pod : Pod) (zdb : ZoneDisruptionBudget) (dry : Bool),
      c.GetPod req.Namespace req.Name = Except.ok pod ∧
      GetZdbForPod c pod = Except.ok (some zdb) ∧
      getDryRunOption req = Except.ok dry ∧
      isDisruptedPod pod.Name zdb = false ∧
      (handler c req).Writes =
        (RetryOnConflict c pod (dry || zdb.Spec.DryRun) EvictionsRetrySteps 0 false zdb).Writes ∧
      ((RetryOnConflict c pod (dry || zdb.Spec.DryRun) EvictionsRetrySteps 0 false zdb).Err = none →
        (handler c req).Reason = "DisruptionAllowed" ∧ (handler c req).Response = Allowed "") := by
  by_cases hop : req.Operation = Operation.Create
  swap
  · left
    simp [handler, hop]
  by_cases hsub : req.SubResource = "eviction"
  swap
  · left
    simp [handler, hop, hsub]
  rcases hdry : getDryRunOption req with e | dry
  · left
    simp [handler, hop, hsub, hdry]
  rcases hpod : c.GetPod req.Namespace req.Name with e | pod
  · left
    cases dry <;> simp [handler, hop, hsub, hdry, hpod]
  by_cases hign : canIgnoreZDB pod = true
  · left
    simp [handler, hop, hsub, hdry, hpod, hign]
  by_cases hready : IsPodReady pod = true
  swap
  · left
    simp [handler, hop, hsub, hdry, hpod, hign, hready]
  rcases hzdb : GetZdbForPod c pod with e | (_ | zdb)
  · left
    cases dry <;> simp [handler, hop, hsub, hdry, hpod, hign, hready, hzdb]
  · left
    simp [handler, hop, hsub, hdry, hpod, hign, hready, hzdb]
  by_cases hdis : isDisruptedPod pod.Name zdb = true
  · left
    simp [handler, hop, hsub, hdry, hpod, hign, hready, hzdb, hdis]
  right
  refine ⟨pod, zdb, dry, rfl, hzdb, rfl, by simpa using hdis, ?_⟩
  cases hb : (dry || zdb.Spec.DryRun)
  · rcases herr : (RetryOnConflict c pod false EvictionsRetrySteps 0 false zdb).Err with _ | e <;>
      simp [handler, hop, hsub, hdry, hpod, hign, hready, hzdb, hdis, hb, herr]
  · rcases herr : (RetryOnConflict c pod true EvictionsRetrySteps 0 false zdb).Err with _ | e <;>
      simp [handler, hop, hsub, hdry, hpod, hign, hready, hzdb, hdis, hb, herr]

/-- Every object that the handler sends lists the pod it fetched. -/
theorem handler_writes_disrupted (c : Client) (req : Request) (pod : Pod)
    (hpod : c.GetPod req.Namespace req.Name = Except.ok pod) (w : StatusWrite)
    (hw : w ∈ (handler c req).Writes) : isDisruptedPod pod.Name w.Object = true := by
  rcases handler_writes_cases c req with hnil | ⟨pod1, zdb, dry, hpod1, _, _, _, heq, _⟩
  · rw [hnil] at hw
    simp at hw
  · rw [hpod] at hpod1
    cases hpod1
    rw [heq] at hw
    exact RetryOnConflict_writes_disrupted _ _ _ _ _ _ _ w hw

/-- A status update issued by `checkAndDecrement` is the update of the object
it read, outside dry-run mode, and its outcome is the error returned. -/
theorem checkAndDecrement_write_shape (c : Client) (attempt : Nat) (pod : Pod)
    (zdb : ZoneDisruptionBudget) (dryRun : Bool) (w : StatusWrite)
    (hw : (checkAndDecrement c attempt pod zdb dryRun).Write = some w) :
    dryRun = false ∧ WriteOf c pod attempt zdb w ∧
      w.Outcome = (checkAndDecrement c attempt pod zdb dryRun).Err := by
  rcases checkAndDecrement_cases c attempt pod zdb dryRun with
    ⟨hnone, _⟩ | ⟨hdry, hgen, hlen, zone, hzone, hpos, heq⟩
  · rw [hnone] at hw
    simp at hw
  · rw [heq] at hw ⊢
    simp only [Option.some.injEq] at hw
    subst hw
    exact ⟨hdry, ⟨zone, hzone, hpos, hlen, hgen, rfl, rfl⟩, rfl⟩

/-- An attempt without refresh runs `checkAndDecrement` on the ZDB at hand. -/
theorem attemptOnce_no_refresh (c : Client) (pod : Pod) (dryRun : Bool) (attempt : Nat)
    (zdb : ZoneDisruptionBudget) :
    attemptOnce c pod dryRun attempt false zdb =
      ((checkAndDecrement c attempt pod zdb dryRun).Err,
        (checkAndDecrement c attempt pod zdb dryRun).Zdb,
        (checkAndDecrement c attempt pod zdb dryRun).Err.isSome,
        (checkAndDecrement c attempt pod zdb dryRun).Write) := by
  simp [attemptOnce]

/-- An attempt with refresh whose read of the ZDB fails issues no update. -/
theorem attemptOnce_refresh_error (c : Client) (pod : Pod) (dryRun : Bool) (attempt : Nat)
    (zdb : ZoneDisruptionBudget) (e : ApiError)
    (hget : c.GetZdb attempt zdb.Namespace zdb.Name = Except.error e) :
    attemptOnce c pod dryRun attempt true zdb = (some e, zdb, true, none) := by
  simp [attemptOnce, hget]

/-- An attempt with refresh runs `checkAndDecrement` on the ZDB it read. -/
theorem attemptOnce_refresh_ok (c : Client) (pod : Pod) (dryRun : Bool) (attempt : Nat)
    (zdb cur : ZoneDisruptionBudget)
    (hget : c.GetZdb attempt zdb.Namespace zdb.Name = Except.ok cur) :
    attemptOnce c pod dryRun attempt true zdb =
      ((checkAndDecrement c attempt pod cur dryRun).Err,
        (checkAndDecrement c attempt pod cur dryRun).Zdb, true,
        (checkAndDecrement c attempt pod cur dryRun).Write) := by
  simp [attemptOnce, hget]

/-- After an attempt that returned an error the next attempt refreshes. -/
theorem attemptOnce_refresh_after_error (c : Client) (pod : Pod) (dryRun : Bool) (attempt : Nat)
    (refresh : Bool) (zdb : ZoneDisruptionBudget) (e : ApiError)
    (herr : (attemptOnce c pod dryRun attempt refresh zdb).1 = some e) :
    (attemptOnce c pod dryRun attempt refresh zdb).2.2.1 = true := by
  cases refresh with
  | false =>
      rw [attemptOnce_no_refresh] at herr ⊢
      simp only at herr ⊢
      rw [herr]
      rfl
  | true =>
      rcases hget : c.GetZdb attempt zdb.Namespace zdb.Name with e1 | cur
      · rw [attemptOnce_refresh_error c pod dryRun attempt zdb e1 hget]
      · rw [attemptOnce_refresh_ok c pod dryRun attempt zdb cur hget]

/-- A status update issued by one attempt of the retry loop: the object read
is the ZDB at hand on an attempt without refresh, and the refreshed ZDB
otherwise; the outcome of the update is the error of the attempt. -/
theorem attemptOnce_write_shape (c : Client) (pod : Pod) (dryRun : Bool) (attempt : Nat)
    (refresh : Bool) (zdb : ZoneDisruptionBudget) (w : StatusWrite)
    (hw : (attemptOnce c pod dryRun attempt refresh zdb).2.2.2 = some w) :
    dryRun = false ∧ w.Outcome = (attemptOnce c pod dryRun attempt refresh zdb).1 ∧
      ∃ cur, WriteOf c pod attempt cur w ∧
        ((refresh = false ∧ cur = zdb) ∨
          c.GetZdb attempt zdb.Namespace zdb.Name = Except.ok cur) := by
  cases refresh with
  | false =>
      rw [attemptOnce_no_refresh] at hw ⊢
      have h := checkAndDecrement_write_shape c attempt pod zdb dryRun w hw
      exact ⟨h.1, h.2.2, zdb, h.2.1, Or.inl ⟨rfl, rfl⟩⟩
  | true =>
      rcases hget : c.GetZdb attempt zdb.Namespace zdb.Name with e | cur
      · rw [attemptOnce_refresh_error c pod dryRun attempt zdb e hget] at hw
        simp at hw
      · rw [attemptOnce_refresh_ok c pod dryRun attempt zdb cur hget] at hw ⊢
        have h := checkAndDecrement_write_shape c attempt pod cur dryRun w hw
        exact ⟨h.1, h.2.2, cur, h.2.1, Or.inr rfl⟩

/-- The status updates persisted among those of one attempt followed by those
of the later attempts. -/
theorem persisted_append (ws vs : List StatusWrite) :
    persisted (ws ++ vs) = persisted ws ++ persisted vs := by
  simp [persisted]

/-- The status updates of the retry loop: each one is the update issued by
some attempt `a` on the ZDB that this attempt read (the ZDB given, when the
loop starts without refresh and `a` is its first attempt, and a refreshed ZDB
otherwise); at most one of them is persisted, and only when the loop ends
without error. -/
theorem RetryOnConflict_writes_shape (c : Client) (pod : Pod) (dryRun : Bool) (steps : Nat) :
    ∀ (attempt : Nat) (refresh : Bool) (zdb : ZoneDisruptionBudget),
      (∀ w ∈ (RetryOnConflict c pod dryRun steps attempt refresh zdb).Writes,
        dryRun = false ∧ ∃ a cur, attempt ≤ a ∧ a < attempt + steps ∧ WriteOf c pod a cur w ∧
          ((a = attempt ∧ refresh = false ∧ cur = zdb) ∨
            ∃ ns nm, c.GetZdb a ns nm = Except.ok cur)) ∧
      (persisted (RetryOnConflict c pod dryRun steps attempt refresh zdb).Writes).length ≤ 1 ∧
      (persisted (RetryOnConflict c pod dryRun steps attempt refresh zdb).Writes ≠ [] →
        (RetryOnConflict c pod dryRun steps attempt refresh zdb).Err = none) := by
  induction steps with
  | zero =>
      intro attempt refresh zdb
      simp [RetryOnConflict, persisted]
  | succ n ih =>
      intro attempt refresh zdb
      have hshape := attemptOnce_write_shape c pod dryRun attempt refresh zdb
      have hrefresh := attemptOnce_refresh_after_error c pod dryRun attempt refresh zdb
      unfold RetryOnConflict
      rcases hat : attemptOnce c pod dryRun attempt refresh zdb with ⟨err, zdb1, refresh1, wr⟩
      rw [hat] at hshape hrefresh
      simp only at hshape hrefresh
      have hone : ∀ w ∈ wr.toList,
          dryRun = false ∧ ∃ a cur, attempt ≤ a ∧ a < attempt + (n + 1) ∧ WriteOf c pod a cur w ∧
            ((a = attempt ∧ refresh = false ∧ cur = zdb) ∨
              ∃ ns nm, c.GetZdb a ns nm = Except.ok cur) := by
        intro w hw
        have hw1 : wr = some w := by
          cases wr with
          | none => simp at hw
          | some y => simp at hw; rw [hw]
        obtain ⟨hd, _, cur, hwo, hor⟩ := hshape w hw1
        refine ⟨hd, attempt, cur, le_refl _, by omega, hwo, ?_⟩
        rcases hor with ⟨h1, h2⟩ | h1
        · exact Or.inl ⟨rfl, h1, h2⟩
        · exact Or.inr ⟨_, _, h1⟩
      have hfail : ∀ e, err = some e → persisted wr.toList = [] := by
        intro e he
        cases wr with
        | none => simp [persisted]
        | some y =>
            have := (hshape y rfl).2.1
            simp [persisted, this, he]
      have hlen : (persisted wr.toList).length ≤ 1 := by
        cases wr with
        | none => simp [persisted]
        | some y =>
            by_cases hy : y.Outcome.isNone = true
            · simp [persisted, hy]
            · simp [persisted, hy]
      cases err with
      | none => exact ⟨hone, hlen, fun _ => rfl⟩
      | some e =>
          simp only
          have hp := hfail e rfl
          have hr : refresh1 = true := hrefresh e rfl
          by_cases hc : IsConflict e = true
          · rw [if_pos hc]
            by_cases hn : n = 0
            · rw [if_pos hn]
              exact ⟨hone, hlen, fun h => absurd hp h⟩
            · rw [if_neg hn]
              obtain ⟨ih1, ih2, ih3⟩ := ih (attempt + 1) refresh1 zdb1
              simp only [persisted_append, hp, List.nil_append]
              refine ⟨?_, ih2, ih3⟩
              intro w hw
              rcases List.mem_append.mp hw with h | h
              · exact hone w h
              · obtain ⟨hd, a, cur, ha1, ha2, hwo, hor⟩ := ih1 w h
                refine ⟨hd, a, cur, by omega, by omega, hwo, Or.inr ?_⟩
                rcases hor with ⟨_, h2, _⟩ | h1
                · rw [hr] at h2
                  exact absurd h2 (by decide)
                · exact h1
          · rw [if_neg hc]
            exact ⟨hone, hlen, fun h => absurd hp h⟩

/-- The in-memory change made before the status update: the counter of the
zone goes down by exactly 1, the pod is listed with the current time, and the
map of disrupted pods grows by one entry exactly when the pod was not yet
listed. -/
theorem recordDisruption_effect (zdb : ZoneDisruptionBudget) (zone podName : String) (now : Nat) :
    getInt (recordDisruption zdb zone podName now).Status.DisruptionsAllowed zone =
        getInt zdb.Status.DisruptionsAllowed zone - 1 ∧
      GoMap.get? (recordDisruption zdb zone podName now).Status.DisruptedPods podName = some now ∧
      GoMap.len (recordDisruption zdb zone podName now).Status.DisruptedPods =
        (if isDisruptedPod podName zdb then GoMap.len zdb.Status.DisruptedPods
         else GoMap.len zdb.Status.DisruptedPods + 1) := by
  refine ⟨?_, ?_, ?_⟩
  · simp [recordDisruption, getInt, GoMap.get?_set_same]
  · simp [recordDisruption, GoMap.get?_set_same]
  · simp only [recordDisruption, isDisruptedPod]
    exact GoMap.len_set _ _ _

/-- What a persisted status update of the handler is: it is the only one, the
eviction is admitted through the budget check, and the object is the ZDB read
by the successful attempt (the ZDB resolved for the pod on the first attempt,
a refreshed one later) with the budget of the zone of the pod decremented by
exactly 1 and the pod listed; the map of disrupted pods has one entry more
whenever the ZDB read did not list the pod, as is the case on the first
attempt. -/
theorem handler_persisted_shape (c : Client) (req : Request) (zdb1 : ZoneDisruptionBudget)
    (h : zdb1 ∈ persisted (handler c req).Writes) :
    persisted (handler c req).Writes = [zdb1] ∧
      (handler c req).Reason = "DisruptionAllowed" ∧
      (handler c req).Response.Allowed = true ∧
      ∃ (pod : Pod) (zdb0 cur : ZoneDisruptionBudget) (a : Nat) (zone : String),
        c.GetPod req.Namespace req.Name = Except.ok pod ∧
        GetZdbForPod c pod = Except.ok (some zdb0) ∧
        isDisruptedPod pod.Name zdb0 = false ∧
        a < EvictionsRetrySteps ∧
        getZone c a pod = Except.ok zone ∧
        ((a = 0 ∧ cur = zdb0) ∨ ∃ ns nm, c.GetZdb a ns nm = Except.ok cur) ∧
        0 < getInt cur.Status.DisruptionsAllowed zone ∧
        zdb1 = recordDisruption cur zone pod.Name (c.Now a) ∧
        getInt zdb1.Status.DisruptionsAllowed zone =
          getInt cur.Status.DisruptionsAllowed zone - 1 ∧
        GoMap.get? zdb1.Status.DisruptedPods pod.Name = some (c.Now a) ∧
        (isDisruptedPod pod.Name cur = false →
          GoMap.len zdb1.Status.DisruptedPods = GoMap.len cur.Status.DisruptedPods + 1) := by
  rcases handler_writes_cases c req with hnil | ⟨pod, zdb0, dry, hpod, hzdb, _, hdis, heq, hres⟩
  · rw [hnil] at h
    simp [persisted] at h
  · obtain ⟨hw, hlen, herr⟩ := RetryOnConflict_writes_shape c pod (dry || zdb0.Spec.DryRun)
      EvictionsRetrySteps 0 false zdb0
    rw [← heq] at hw hlen herr
    have hne : persisted (handler c req).Writes ≠ [] := List.ne_nil_of_mem h
    have hsingle : persisted (handler c req).Writes = [zdb1] := by
      rcases hp : persisted (handler c req).Writes with _ | ⟨x, xs⟩
      · exact absurd hp hne
      · rw [hp] at h hlen
        have hxs : xs = [] := by
          cases xs with
          | nil => rfl
          | cons y ys => simp at hlen
        subst hxs
        simp at h
        rw [h]
    obtain ⟨hreason, hresp⟩ := hres (herr hne)
    refine ⟨hsingle, hreason, by rw [hresp]; rfl, ?_⟩
    unfold persisted at h
    obtain ⟨w, hwmem, rfl⟩ := List.mem_map.mp h
    obtain ⟨_, a, cur, _, ha, ⟨zone, hzone, hpos, _, _, hobj, _⟩, hor⟩ :=
      hw w (List.mem_filter.mp hwmem).1
    have heff := recordDisruption_effect cur zone pod.Name (c.Now a)
    refine ⟨pod, zdb0, cur, a, zone, hpod, hzdb, hdis, by omega, hzone, ?_, hpos, hobj, ?_, ?_, ?_⟩
    · rcases hor with ⟨h1, _, h3⟩ | h1
      · exact Or.inl ⟨h1, h3⟩
      · exact Or.inr h1
    · rw [hobj]
      exact heff.1
    · rw [hobj]
      exact heff.2.1
    · intro hnot
      rw [hobj, heff.2.2, hnot]
      simp

/-! ## The eviction webhook -/

/-- The fields of a validation response: the text is the `Reason` of the
result and the `Message` is empty. -/
theorem ValidationResponse_fields (allowed : Bool) (reason : String) :
    (ValidationResponse allowed reason).Allowed = allowed ∧
      (ValidationResponse allowed reason).Code = (if allowed then 200 else 403) ∧
      (ValidationResponse allowed reason).Reason = reason ∧
      (ValidationResponse allowed reason).Message = "" := by
  refine ⟨rfl, rfl, ?_, rfl⟩
  unfold ValidationResponse
  by_cases h : 0 < reason.length
  · simp [h]
  · simp only [h, if_false]
    apply String.ext
    have h0 : reason.data.length = 0 := Nat.eq_zero_of_not_pos h
    rw [List.length_eq_zero.mp h0]

/-- Claim C1, as amended: a CREATE eviction of a Running, Ready,
non-terminating pod that is not yet listed in `disruptedPods`, governed by a
ZDB that is not in dry-run mode and whose status is not stale, sent without
the dry-run flag, for a pod whose node carries the zone label: when
`disruptionsAllowed` of the zone reads 0 (a missing entry reads 0), the
handler answers with `allowed = false` and the code 403, the text `denying pod
eviction for <pod name>` is the reason of the result of the response and the
message of the result is empty, the handler reports the reason `DeniedByZdb`,
and it issues no status update. -/
theorem handler_denies_exhausted_budget (c : Client) (req : Request) (pod : Pod)
    (zdb : ZoneDisruptionBudget) (node : Node) (zone : String)
    (hop : req.Operation = Operation.Create) (hsub : req.SubResource = "eviction")
    (hdry : getDryRunOption req = Except.ok false)
    (hpod : c.GetPod req.Namespace req.Name = Except.ok pod)
    (hrun : pod.Phase = PodPhase.Running) (hready : IsPodReady pod = true)
    (hterm : pod.DeletionTimestamp = none)
    (hzdb : GetZdbForPod c pod = Except.ok (some zdb))
    (hnew : isDisruptedPod pod.Name zdb = false)
    (hspec : zdb.Spec.DryRun = false)
    (hgen : zdb.Generation ≤ zdb.Status.ObservedGeneration)
    (hnode : c.GetNode 0 pod.NodeName = Except.ok node)
    (hzone : GoMap.get? node.Labels LabelTopologyZone = some zone)
    (hzero : getInt zdb.Status.DisruptionsAllowed zone = 0) :
    (handler c req).Response.Allowed = false ∧
      (handler c req).Response.Code = 403 ∧
      (handler c req).Response.Reason = "denying pod eviction for " ++ pod.Name ∧
      (handler c req).Response.Message = "" ∧
      (handler c req).Reason = "DeniedByZdb" ∧
      (handler c req).Writes = [] := by
  have hz : getZone c 0 pod = Except.ok zone := by
    simp [getZone, hnode, hzone]
  have hcheck : (checkAndDecrement c 0 pod zdb false).Write = none ∧
      (checkAndDecrement c 0 pod zdb false).Err.map ApiError.Reason =
        some StatusReason.Forbidden := by
    unfold checkAndDecrement
    rw [if_neg (not_lt.mpr hgen)]
    simp only [hz, hzero]
    by_cases hbig : MaxDisruptedPodSize < GoMap.len zdb.Status.DisruptedPods
    · simp [hbig, NewForbidden]
    · simp [hbig, NewForbidden]
  have hloop := RetryOnConflict_first_no_write c pod false 19 0 zdb hcheck.1
    (forbidden_not_conflict _ hcheck.2)
  have hign : canIgnoreZDB pod = false := by
    simp [canIgnoreZDB, hrun, hterm]
  have hfields := ValidationResponse_fields false ("denying pod eviction for " ++ pod.Name)
  rcases herr : (checkAndDecrement c 0 pod zdb false).Err with _ | e
  · rw [herr] at hcheck
    simp at hcheck
  · rw [herr] at hloop
    have hres : handler c req =
        { Response := Denied ("denying pod eviction for " ++ pod.Name),
          Reason := "DeniedByZdb", Writes := [] } := by
      simp [handler, hop, hsub, hdry, hpod, hign, hready, hzdb, hnew, hspec,
        EvictionsRetrySteps, hloop]
    rw [hres]
    exact ⟨hfields.1, hfields.2.1, hfields.2.2.1, hfields.2.2.2, rfl, rfl⟩

/-- Claim C4: when the request resolves a governing ZDB and the effective
dry-run flag (the flag of the request or `spec.dryRun` of the ZDB) is set, the
handler answers `allowed = true` whatever the budget check finds, and issues
no status update. -/
theorem handler_dryRun_allows (c : Client) (req : Request) (dry : Bool) (pod : Pod)
    (zdb : ZoneDisruptionBudget)
    (hdry : getDryRunOption req = Except.ok dry)
    (hpod : c.GetPod req.Namespace req.Name = Except.ok pod)
    (hzdb : GetZdbForPod c pod = Except.ok (some zdb))
    (heff : (dry || zdb.Spec.DryRun) = true) :
    (handler c req).Response = Allowed "" ∧
      (handler c req).Response.Allowed = true ∧
      (handler c req).Writes = [] := by
  have hcases := checkAndDecrement_cases c 0 pod zdb true
  have hcheck : (checkAndDecrement c 0 pod zdb true).Write = none ∧
      ∀ e, (checkAndDecrement c 0 pod zdb true).Err = some e → IsConflict e = false := by
    rcases hcases with ⟨hw, _, hf | ⟨hn, _⟩⟩ | ⟨hd, _⟩
    · exact ⟨hw, forbidden_not_conflict _ hf⟩
    · exact ⟨hw, by simp [hn]⟩
    · simp at hd
  have hloop := RetryOnConflict_first_no_write c pod true 19 0 zdb hcheck.1 hcheck.2
  unfold handler
  by_cases hop : req.Operation = Operation.Create
  · by_cases hsub : req.SubResource = "eviction"
    · simp only [hop, hsub, hdry, hpod, hzdb, heff, EvictionsRetrySteps, hloop]
      by_cases hign : canIgnoreZDB pod = true
      · simp [hign, Allowed, ValidationResponse]
      · by_cases hready : IsPodReady pod = true
        · by_cases hdis : isDisruptedPod pod.Name zdb = true
          · simp [hign, hready, hdis, Allowed, ValidationResponse]
          · rcases herr : (checkAndDecrement c 0 pod zdb true).Err with _ | e
            · simp [hign, hready, hdis, herr, Allowed, ValidationResponse]
            · simp [hign, hready, hdis, herr, Allowed, ValidationResponse]
        · simp [hign, hready, Allowed, ValidationResponse]
    · simp [hop, hsub, Allowed, ValidationResponse]
  · simp [hop, Allowed, ValidationResponse]

/-- Claim C5: an eviction request for a Running, Ready, non-terminating pod
whose name is a key of `status.disruptedPods` of the governing ZDB is allowed
(reason `AlreadyDisrupted`) without a status update, whatever the budget; so
a second invocation for a pod that a first invocation admitted, reading the
ZDB that the first one persisted, issues no status update. -/
theorem handler_allows_disrupted_pod :
    (∀ (c : Client) (req : Request) (dry : Bool) (pod : Pod) (zdb : ZoneDisruptionBudget),
      req.Operation = Operation.Create → req.SubResource = "eviction" →
      getDryRunOption req = Except.ok dry →
      c.GetPod req.Namespace req.Name = Except.ok pod →
      pod.Phase = PodPhase.Running → IsPodReady pod = true → pod.DeletionTimestamp = none →
      GetZdbForPod c pod = Except.ok (some zdb) →
      isDisruptedPod pod.Name zdb = true →
      (handler c req).Response.Allowed = true ∧ (handler c req).Reason = "AlreadyDisrupted" ∧
        (handler c req).Writes = []) ∧
    (∀ (c1 c2 : Client) (req1 req2 : Request) (dry : Bool) (pod1 pod2 : Pod)
        (zdb : ZoneDisruptionBudget),
      c1.GetPod req1.Namespace req1.Name = Except.ok pod1 →
      zdb ∈ persisted (handler c1 req1).Writes →
      req2.Operation = Operation.Create → req2.SubResource = "eviction" →
      getDryRunOption req2 = Except.ok dry →
      c2.GetPod req2.Namespace req2.Name = Except.ok pod2 →
      pod2.Name = pod1.Name →
      pod2.Phase = PodPhase.Running → IsPodReady pod2 = true → pod2.DeletionTimestamp = none →
      GetZdbForPod c2 pod2 = Except.ok (some zdb) →
      (handler c2 req2).Response.Allowed = true ∧ (handler c2 req2).Reason = "AlreadyDisrupted" ∧
        (handler c2 req2).Writes = []) := by
  have first : ∀ (c : Client) (req : Request) (dry : Bool) (pod : Pod) (zdb : ZoneDisruptionBudget),
      req.Operation = Operation.Create → req.SubResource = "eviction" →
      getDryRunOption req = Except.ok dry →
      c.GetPod req.Namespace req.Name = Except.ok pod →
      pod.Phase = PodPhase.Running → IsPodReady pod = true → pod.DeletionTimestamp = none →
      GetZdbForPod c pod = Except.ok (some zdb) →
      isDisruptedPod pod.Name zdb = true →
      (handler c req).Response.Allowed = true ∧ (handler c req).Reason = "AlreadyDisrupted" ∧
        (handler c req).Writes = [] := by
    intro c req dry pod zdb hop hsub hdry hpod hrun hready hterm hzdb hdis
    have hign : canIgnoreZDB pod = false := by
      simp [canIgnoreZDB, hrun, hterm]
    simp [handler, hop, hsub, hdry, hpod, hign, hready, hzdb, hdis, Allowed, ValidationResponse]
  refine ⟨first, ?_⟩
  intro c1 c2 req1 req2 dry pod1 pod2 zdb hpod1 hmem hop hsub hdry hpod2 hname hrun hready hterm hzdb
  apply first c2 req2 dry pod2 zdb hop hsub hdry hpod2 hrun hready hterm hzdb
  unfold persisted at hmem
  rw [List.mem_map] at hmem
  obtain ⟨w, hw, rfl⟩ := hmem
  rw [hname]
  exact handler_writes_disrupted c1 req1 pod1 hpod1 w (List.mem_filter.mp hw).1

/-- Witness of claim C1 on the test `Should deny evictions`. -/
theorem handler_denies_exhausted_budget_witness :
    (handler (fixtureClient (fixtureEvictionPod "test-deny" "test2")
        (fixtureEvictionNode "test-deny") (fixtureZdb "test2" 1 false [("az-1", 0)] []))
        (fixtureEviction "test-deny" false)).Response.Allowed = false ∧
      (handler (fixtureClient (fixtureEvictionPod "test-deny" "test2")
        (fixtureEvictionNode "test-deny") (fixtureZdb "test2" 1 false [("az-1", 0)] []))
        (fixtureEviction "test-deny" false)).Response.Code = 403 ∧
      (handler (fixtureClient (fixtureEvictionPod "test-deny" "test2")
        (fixtureEvictionNode "test-deny") (fixtureZdb "test2" 1 false [("az-1", 0)] []))
        (fixtureEviction "test-deny" false)).Response.Reason =
          "denying pod eviction for " ++ (fixtureEvictionPod "test-deny" "test2").Name ∧
      (handler (fixtureClient (fixtureEvictionPod "test-deny" "test2")
        (fixtureEvictionNode "test-deny") (fixtureZdb "test2" 1 false [("az-1", 0)] []))
        (fixtureEviction "test-deny" false)).Response.Message = "" ∧
      (handler (fixtureClient (fixtureEvictionPod "test-deny" "test2")
        (fixtureEvictionNode "test-deny") (fixtureZdb "test2" 1 false [("az-1", 0)] []))
        (fixtureEviction "test-deny" false)).Reason = "DeniedByZdb" ∧
      (handler (fixtureClient (fixtureEvictionPod "test-deny" "test2")
        (fixtureEvictionNode "test-deny") (fixtureZdb "test2" 1 false [("az-1", 0)] []))
        (fixtureEviction "test-deny" false)).Writes = [] :=
  handler_denies_exhausted_budget
    (fixtureClient (fixtureEvictionPod "test-deny" "test2") (fixtureEvictionNode "test-deny")
      (fixtureZdb "test2" 1 false [("az-1", 0)] []))
    (fixtureEviction "test-deny" false) (fixtureEvictionPod "test-deny" "test2")
    (fixtureZdb "test2" 1 false [("az-1", 0)] []) (fixtureEvictionNode "test-deny") "az-1"
    (by decide) (by decide) (by decide) (by decide) (by decide) (by decide) (by decide)
    (by decide) (by decide) (by decide) (by decide) (by decide) (by decide) (by decide)

/-- Counterexample to claim C1 as stated, on the test `Should deny
evictions`: a CREATE eviction without the dry-run flag for the pod
`test-deny`, which is Running, Ready, not terminating and not listed in
`disruptedPods`; its ZDB is observed and not in dry-run mode, its node carries
the zone `az-1` and the budget of that zone is 0.  The handler denies the
eviction, but the message of the result of its response is empty: the text
`denying pod eviction for test-deny` is the reason of the result. -/
theorem handler_denial_message_empty :
    (fixtureEviction "test-deny" false).Operation = Operation.Create ∧
      (fixtureEviction "test-deny" false).SubResource = "eviction" ∧
      getDryRunOption (fixtureEviction "test-deny" false) = Except.ok false ∧
      (fixtureEvictionPod "test-deny" "test2").Phase = PodPhase.Running ∧
      IsPodReady (fixtureEvictionPod "test-deny" "test2") = true ∧
      (fixtureEvictionPod "test-deny" "test2").DeletionTimestamp = none ∧
      GetZdbForPod (fixtureClient (fixtureEvictionPod "test-deny" "test2")
        (fixtureEvictionNode "test-deny") (fixtureZdb "test2" 1 false [("az-1", 0)] []))
        (fixtureEvictionPod "test-deny" "test2") =
          Except.ok (some (fixtureZdb "test2" 1 false [("az-1", 0)] [])) ∧
      isDisruptedPod "test-deny" (fixtureZdb "test2" 1 false [("az-1", 0)] []) = false ∧
      (fixtureZdb "test2" 1 false [("az-1", 0)] []).Spec.DryRun = false ∧
      (fixtureZdb "test2" 1 false [("az-1", 0)] []).Generation ≤
        (fixtureZdb "test2" 1 false [("az-1", 0)] []).Status.ObservedGeneration ∧
      getZone (fixtureClient (fixtureEvictionPod "test-deny" "test2")
        (fixtureEvictionNode "test-deny") (fixtureZdb "test2" 1 false [("az-1", 0)] [])) 0
        (fixtureEvictionPod "test-deny" "test2") = Except.ok "az-1" ∧
      getInt (fixtureZdb "test2" 1 false [("az-1", 0)] []).Status.DisruptionsAllowed "az-1" = 0 ∧
      (handler (fixtureClient (fixtureEvictionPod "test-deny" "test2")
        (fixtureEvictionNode "test-deny") (fixtureZdb "test2" 1 false [("az-1", 0)] []))
        (fixtureEviction "test-deny" false)).Response.Allowed = false ∧
      (handler (fixtureClient (fixtureEvictionPod "test-deny" "test2")
        (fixtureEvictionNode "test-deny") (fixtureZdb "test2" 1 false [("az-1", 0)] []))
        (fixtureEviction "test-deny" false)).Response.Message ≠
          "denying pod eviction for test-deny" ∧
      (handler (fixtureClient (fixtureEvictionPod "test-deny" "test2")
        (fixtureEvictionNode "test-deny") (fixtureZdb "test2" 1 false [("az-1", 0)] []))
        (fixtureEviction "test-deny" false)).Response.Message = "" ∧
      (handler (fixtureClient (fixtureEvictionPod "test-deny" "test2")
        (fixtureEvictionNode "test-deny") (fixtureZdb "test2" 1 false [("az-1", 0)] []))
        (fixtureEviction "test-deny" false)).Response.Reason =
          "denying pod eviction for test-deny" := by
  decide

/-- Witness of claim C4 on the test `Should allow evictions if dryrun option
is passed`: the budget of the zone is 0 and the request carries the flag. -/
theorem handler_dryRun_allows_witness :
    (handler (fixtureClient (fixtureEvictionPod "test-dryrun-option" "test5")
        (fixtureEvictionNode "test-dryrun-option") (fixtureZdb "test5" 1 false [("az-1", 0)] []))
        (fixtureEviction "test-dryrun-option" true)).Response = Allowed "" ∧
      (handler (fixtureClient (fixtureEvictionPod "test-dryrun-option" "test5")
        (fixtureEvictionNode "test-dryrun-option") (fixtureZdb "test5" 1 false [("az-1", 0)] []))
        (fixtureEviction "test-dryrun-option" true)).Response.Allowed = true ∧
      (handler (fixtureClient (fixtureEvictionPod "test-dryrun-option" "test5")
        (fixtureEvictionNode "test-dryrun-option") (fixtureZdb "test5" 1 false [("az-1", 0)] []))
        (fixtureEviction "test-dryrun-option" true)).Writes = [] :=
  handler_dryRun_allows
    (fixtureClient (fixtureEvictionPod "test-dryrun-option" "test5")
      (fixtureEvictionNode "test-dryrun-option") (fixtureZdb "test5" 1 false [("az-1", 0)] []))
    (fixtureEviction "test-dryrun-option" true) true
    (fixtureEvictionPod "test-dryrun-option" "test5")
    (fixtureZdb "test5" 1 false [("az-1", 0)] [])
    (by decide) (by decide) (by decide) (by decide)

/-- Witness of claim C5: the first eviction of `test-allow` is admitted and
persists a ZDB that lists the pod; a second eviction that reads this ZDB is
allowed as `AlreadyDisrupted` and writes nothing, although the budget of the
zone is 0 by then. -/
theorem handler_allows_disrupted_pod_witness :
    persisted (handler (fixtureClient (fixtureEvictionPod "test-allow" "test1")
        (fixtureEvictionNode "test-allow") (fixtureZdb "test1" 1 false [("az-1", 1)] []))
        (fixtureEviction "test-allow" false)).Writes =
          [fixtureZdb "test1" 1 false [("az-1", 0)] [("test-allow", 9)]] ∧
      ((handler (fixtureClient (fixtureEvictionPod "test-allow" "test1")
        (fixtureEvictionNode "test-allow")
        (fixtureZdb "test1" 1 false [("az-1", 0)] [("test-allow", 9)]))
        (fixtureEviction "test-allow" false)).Response.Allowed = true ∧
      (handler (fixtureClient (fixtureEvictionPod "test-allow" "test1")
        (fixtureEvictionNode "test-allow")
        (fixtureZdb "test1" 1 false [("az-1", 0)] [("test-allow", 9)]))
        (fixtureEviction "test-allow" false)).Reason = "AlreadyDisrupted" ∧
      (handler (fixtureClient (fixtureEvictionPod "test-allow" "test1")
        (fixtureEvictionNode "test-allow")
        (fixtureZdb "test1" 1 false [("az-1", 0)] [("test-allow", 9)]))
        (fixtureEviction "test-allow" false)).Writes = []) :=
  ⟨by decide,
    handler_allows_disrupted_pod.2
      (fixtureClient (fixtureEvictionPod "test-allow" "test1") (fixtureEvictionNode "test-allow")
        (fixtureZdb "test1" 1 false [("az-1", 1)] []))
      (fixtureClient (fixtureEvictionPod "test-allow" "test1") (fixtureEvictionNode "test-allow")
        (fixtureZdb "test1" 1 false [("az-1", 0)] [("test-allow", 9)]))
      (fixtureEviction "test-allow" false) (fixtureEviction "test-allow" false) false
      (fixtureEvictionPod "test-allow" "test1") (fixtureEvictionPod "test-allow" "test1")
      (fixtureZdb "test1" 1 false [("az-1", 0)] [("test-allow", 9)])
      (by decide) (by decide) (by decide) (by decide) (by decide) (by decide) (by decide)
      (by decide) (by decide) (by decide) (by decide)⟩

/-- Claim C2, evaluated where the code departs from it: the eviction of
`test-allow` is admitted on its second attempt (reason `DisruptionAllowed`, no
dry-run), after a conflict with a concurrent eviction of the same pod.  The
status read by that attempt already lists the pod, the check for a listed pod
is not repeated after the refresh, and the one persisted status has the budget
of the zone smaller by 1 while `disruptedPods` has as many entries as
before: the entry is overwritten, not added. -/
theorem handler_retry_overwrites_disrupted_entry :
    (handler raceClient (fixtureEviction "test-allow" false)).Reason = "DisruptionAllowed" ∧
      (handler raceClient (fixtureEviction "test-allow" false)).Response.Allowed = true ∧
      raceClient.GetZdb 1 "default" "test1-zdb" = Except.ok raceZdbReread ∧
      isDisruptedPod "test-allow" raceZdbReread = true ∧
      persisted (handler raceClient (fixtureEviction "test-allow" false)).Writes =
        [recordDisruption raceZdbReread "az-1" "test-allow" 9] ∧
      getInt (recordDisruption raceZdbReread "az-1" "test-allow" 9).Status.DisruptionsAllowed
          "az-1" = getInt raceZdbReread.Status.DisruptionsAllowed "az-1" - 1 ∧
      GoMap.len (recordDisruption raceZdbReread "az-1" "test-allow" 9).Status.DisruptedPods =
        GoMap.len raceZdbReread.Status.DisruptedPods := by
  decide

/-! ## The ZDB reconciler -/

/-- A key is present iff it is among the keys of the list. -/
theorem GoMap.contains_iff_mem_keys {V : Type} (m : GoMap V) (k : String) :
    GoMap.contains m k = true ↔ k ∈ GoMap.keys m := by
  induction m with
  | nil => simp [GoMap.contains, GoMap.get?, GoMap.keys]
  | cons e rest ih =>
      obtain ⟨k1, v1⟩ := e
      by_cases h1 : k1 = k
      · simp [GoMap.contains, GoMap.get?, GoMap.keys, h1]
      · have h2 : ¬ k = k1 := fun h => h1 h.symm
        simpa [GoMap.contains, GoMap.get?, GoMap.keys, h1, h2] using ih

/-- A key present after filtering the entries was present before. -/
theorem GoMap.contains_of_filter {V : Type} (m : GoMap V) (f : String × V → Bool) (k : String)
    (h : GoMap.contains (m.filter f) k = true) : GoMap.contains m k = true := by
  rw [GoMap.contains_iff_mem_keys] at h ⊢
  simp only [GoMap.keys, List.mem_map] at h ⊢
  obtain ⟨e, he, rfl⟩ := h
  exact ⟨e, (List.mem_filter.mp he).1, rfl⟩

/-- The distinct keys are the keys. -/
theorem mem_distinctKeys {V : Type} (m : GoMap V) (k : String) :
    k ∈ distinctKeys m ↔ k ∈ GoMap.keys m := by
  induction m with
  | nil => simp [distinctKeys, GoMap.keys]
  | cons e rest ih =>
      obtain ⟨k1, v1⟩ := e
      by_cases h1 : k = k1
      · simp [distinctKeys, GoMap.keys, h1]
      · simp only [GoMap.keys] at ih
        simp [distinctKeys, GoMap.keys, h1, List.mem_filter, ih]

/-- The sorted zones are the keys of the zone map. -/
theorem mem_GetSortedZonesFromMap (m : GoMap (List Pod)) (z : String) :
    z ∈ GetSortedZonesFromMap m ↔ GoMap.contains m z = true := by
  rw [GetSortedZonesFromMap, List.mem_insertionSort, mem_distinctKeys,
    GoMap.contains_iff_mem_keys]

/-- A zone with a pod in its bucket is one of the sorted zones. -/
theorem mem_zones_of_mem_podsOfZone (m : GoMap (List Pod)) (z : String) (p : Pod)
    (hp : p ∈ podsOfZone m z) : z ∈ GetSortedZonesFromMap m := by
  rw [mem_GetSortedZonesFromMap]
  unfold podsOfZone at hp
  cases hg : GoMap.get? m z with
  | none => simp [hg] at hp
  | some ps => simp [GoMap.contains, hg]

/-- The read of a per-zone status map built over the list of zones. -/
theorem getInt_zoneMap (zones : List String) (f : String → Int) (z : String) :
    getInt (zones.map (fun z1 => (z1, f z1))) z = if z ∈ zones then f z else 0 := by
  induction zones with
  | nil => simp [getInt, GoMap.get?]
  | cons a rest ih =>
      by_cases h : a = z
      · simp [getInt, GoMap.get?, h]
      · have h2 : ¬ z = a := fun h3 => h h3.symm
        simp only [getInt, List.map, GoMap.get?, h, if_false, List.mem_cons, h2, false_or] at ih ⊢
        exact ih

/-- An unhealthy or disrupted pod in an observed zone `z1` makes `unhealthyOutside`
positive for every other zone. -/
theorem unhealthyOutside_pos (disrupted : GoMap Nat) (expected : Nat) (m : GoMap (List Pod))
    (zones : List String) (z z1 : String) (hne : z ≠ z1) (hmem : z1 ∈ zones)
    (hpos : 0 < unhealthyCount disrupted expected (podsOfZone m z1) +
      disruptedCount disrupted (podsOfZone m z1)) :
    0 < unhealthyOutside disrupted expected m zones z := by
  unfold unhealthyOutside
  have hin : z1 ∈ zones.filter (fun z2 => !decide (z2 = z)) := by
    have hne1 : ¬ z1 = z := fun h => hne h.symm
    simp [List.mem_filter, hmem, hne1]
  have hle := List.single_le_sum (l := (zones.filter (fun z2 => !decide (z2 = z))).map (fun z2 =>
    unhealthyCount disrupted expected (podsOfZone m z2) +
      disruptedCount disrupted (podsOfZone m z2))) (fun _ _ => Nat.zero_le _)
    (unhealthyCount disrupted expected (podsOfZone m z1) +
      disruptedCount disrupted (podsOfZone m z1))
    (List.mem_map.mpr ⟨z1, hin, rfl⟩)
  omega

/-- A bucket that holds a pod listed in `disruptedPods` has a positive disrupted
count. -/
theorem disruptedCount_pos (disrupted : GoMap Nat) (pods : List Pod) (p : Pod) (hp : p ∈ pods)
    (hd : GoMap.contains disrupted p.Name = true) : 0 < disruptedCount disrupted pods := by
  unfold disruptedCount
  apply List.length_pos_of_mem (a := p)
  exact List.mem_filter.mpr ⟨hp, hd⟩

/-- The blocking rule on the status computed from the zone buckets: an unhealthy
count or a listed pod in zone `z1` leaves no disruption allowed in any other
zone `z`. -/
theorem computeZdbStatus_blocks (zdb : ZoneDisruptionBudget) (m : GoMap (List Pod))
    (pods : List Pod) (totalExpected : Option Nat) (now : Nat) (z z1 : String) (hne : z ≠ z1)
    (hbad : 0 < getInt (computeZdbStatus zdb m pods totalExpected now).CurrentUnhealthy z1 ∨
      ∃ p, p ∈ podsOfZone m z1 ∧
        GoMap.contains (computeZdbStatus zdb m pods totalExpected now).DisruptedPods p.Name = true) :
    getInt (computeZdbStatus zdb m pods totalExpected now).DisruptionsAllowed z = 0 := by
  cases totalExpected with
  | none => simp [computeZdbStatus, getInt, GoMap.get?]
  | some total =>
      simp only [computeZdbStatus] at hbad ⊢
      rw [getInt_zoneMap]
      split_ifs with hz
      swap
      · rfl
      have hout : 0 < unhealthyOutside zdb.Status.DisruptedPods
          (total / (GetSortedZonesFromMap m).length) m (GetSortedZonesFromMap m) z := by
        rcases hbad with hcu | ⟨p, hp, hd⟩
        · rw [getInt_zoneMap] at hcu
          split_ifs at hcu with hz1
          · apply unhealthyOutside_pos _ _ _ _ z z1 hne hz1
            have : 0 < unhealthyCount zdb.Status.DisruptedPods
                (total / (GetSortedZonesFromMap m).length) (podsOfZone m z1) := by
              exact_mod_cast hcu
            omega
          · omega
        · apply unhealthyOutside_pos _ _ _ _ z z1 hne (mem_zones_of_mem_podsOfZone m z1 p hp)
          have := disruptedCount_pos zdb.Status.DisruptedPods (podsOfZone m z1) p hp
            (GoMap.contains_of_filter _ _ _ hd)
          omega
      simp [zoneDisruptionsAllowed, hout]

/-- Claim C3, as amended: after a ZDB reconciliation, for distinct zones `z`
and `z1`, if `currentUnhealthy[z1] > 0` or a pod listed in `disruptedPods` is
in the bucket of `z1`, then `disruptionsAllowed[z] = 0`; in particular, when
two different zones have `currentUnhealthy > 0` (each holds fewer healthy pods
than `expectedPods`), `disruptionsAllowed` is 0 in every zone. -/
theorem reconcileZdb_blocks_other_zones (h : Helper) (zdb : ZoneDisruptionBudget)
    (pods : List Pod) (totalExpected : Option Nat) (now : Nat) :
    (∀ z z1 : String, z ≠ z1 →
      (0 < getInt (reconcileZdb h zdb pods totalExpected now).CurrentUnhealthy z1 ∨
        ∃ p, p ∈ podsOfZone (GetZonePodsMap h pods).1 z1 ∧
          GoMap.contains (reconcileZdb h zdb pods totalExpected now).DisruptedPods p.Name = true) →
      getInt (reconcileZdb h zdb pods totalExpected now).DisruptionsAllowed z = 0) ∧
    (∀ z1 z2 : String, z1 ≠ z2 →
      0 < getInt (reconcileZdb h zdb pods totalExpected now).CurrentUnhealthy z1 →
      0 < getInt (reconcileZdb h zdb pods totalExpected now).CurrentUnhealthy z2 →
      ∀ z : String, getInt (reconcileZdb h zdb pods totalExpected now).DisruptionsAllowed z = 0) := by
  have first : ∀ z z1 : String, z ≠ z1 →
      (0 < getInt (reconcileZdb h zdb pods totalExpected now).CurrentUnhealthy z1 ∨
        ∃ p, p ∈ podsOfZone (GetZonePodsMap h pods).1 z1 ∧
          GoMap.contains (reconcileZdb h zdb pods totalExpected now).DisruptedPods p.Name = true) →
      getInt (reconcileZdb h zdb pods totalExpected now).DisruptionsAllowed z = 0 :=
    fun z z1 hne hbad =>
      computeZdbStatus_blocks zdb (GetZonePodsMap h pods).1 pods totalExpected now z z1 hne hbad
  refine ⟨first, ?_⟩
  intro z1 z2 hne h1 h2 z
  by_cases hz : z = z1
  · exact first z z2 (by rw [hz]; exact hne) (Or.inl h2)
  · exact first z z1 hz (Or.inl h1)

/-- Witness of claim C3 on the test `When there are non active pods in two
zones`: pods 0 and 1 of nine are Pending, so two zones hold fewer healthy pods
than `expectedPods` and no zone allows a disruption. -/
theorem reconcileZdb_blocks_other_zones_witness :
    ∀ z : String,
      getInt (reconcileZdb (fixtureHelper "test3") (fixtureZdb "test3" 1 false [] [])
        (fixturePods "test3" [] ["0", "1"] []) (some 9) 100).DisruptionsAllowed z = 0 :=
  (reconcileZdb_blocks_other_zones (fixtureHelper "test3") (fixtureZdb "test3" 1 false [] [])
    (fixturePods "test3" [] ["0", "1"] []) (some 9) 100).2 "us-east-1a" "us-east-1b"
    (by decide) (by decide) (by decide)

/-- Counterexample to claim C3 as stated: a set of eight replicas over three
zones with one Pending pod in `us-east-1a` and one in `us-east-1b`, no pod
being listed in `disruptedPods`.  Two different zones each have an unhealthy
pod, but each zone still holds two healthy pods, which is `expectedPods`
(8 / 3 rounded down), so `currentUnhealthy` is 0 everywhere and the
reconciliation allows one disruption in every zone. -/
theorem reconcileZdb_unhealthy_pods_below_floor :
    (∃ p ∈ podsOfZone (GetZonePodsMap (fixtureHelper "test6") (eightPods "test6")).1
        "us-east-1a", isHealthy (fixtureZdb "test6" 1 false [] []).Status.DisruptedPods p = false) ∧
      (∃ p ∈ podsOfZone (GetZonePodsMap (fixtureHelper "test6") (eightPods "test6")).1
        "us-east-1b", isHealthy (fixtureZdb "test6" 1 false [] []).Status.DisruptedPods p = false) ∧
      (reconcileZdb (fixtureHelper "test6") (fixtureZdb "test6" 1 false [] [])
        (eightPods "test6") (some 8) 100).ExpectedPods =
        [("us-east-1a", 2), ("us-east-1b", 2), ("us-east-1c", 2)] ∧
      (reconcileZdb (fixtureHelper "test6") (fixtureZdb "test6" 1 false [] [])
        (eightPods "test6") (some 8) 100).CurrentHealthy =
        [("us-east-1a", 2), ("us-east-1b", 2), ("us-east-1c", 2)] ∧
      (reconcileZdb (fixtureHelper "test6") (fixtureZdb "test6" 1 false [] [])
        (eightPods "test6") (some 8) 100).CurrentUnhealthy =
        [("us-east-1a", 0), ("us-east-1b", 0), ("us-east-1c", 0)] ∧
      (reconcileZdb (fixtureHelper "test6") (fixtureZdb "test6" 1 false [] [])
        (eightPods "test6") (some 8) 100).DisruptionsAllowed =
        [("us-east-1a", 1), ("us-east-1b", 1), ("us-east-1c", 1)] ∧
      getInt (reconcileZdb (fixtureHelper "test6") (fixtureZdb "test6" 1 false [] [])
        (eightPods "test6") (some 8) 100).DisruptionsAllowed "us-east-1c" ≠ 0 := by
  decide

/-- The test `When there is a pod getting disrupted/evicted`, replayed: the
zone of the listed pod counts it as unhealthy and every zone is blocked. -/
theorem reconcileZdb_test_disrupted_pod :
    (reconcileZdb (fixtureHelper "test4")
        (fixtureZdb "test4" 1 false [] [("test4-5", 90)])
        (fixturePods "test4" [] [] []) (some 9) 100).CurrentHealthy =
        [("us-east-1a", 3), ("us-east-1b", 3), ("us-east-1c", 2)] ∧
      (reconcileZdb (fixtureHelper "test4")
        (fixtureZdb "test4" 1 false [] [("test4-5", 90)])
        (fixturePods "test4" [] [] []) (some 9) 100).CurrentUnhealthy =
        [("us-east-1a", 0), ("us-east-1b", 0), ("us-east-1c", 1)] ∧
      (reconcileZdb (fixtureHelper "test4")
        (fixtureZdb "test4" 1 false [] [("test4-5", 90)])
        (fixturePods "test4" [] [] []) (some 9) 100).DisruptionsAllowed =
        [("us-east-1a", 0), ("us-east-1b", 0), ("us-east-1c", 0)] ∧
      (reconcileZdb (fixtureHelper "test4")
        (fixtureZdb "test4" 1 false [] [("test4-5", 90)])
        (fixturePods "test4" [] [] []) (some 9) 100).DisruptedPods = [("test4-5", 90)] := by
  decide

/-- The test `When all pods are active`, replayed. -/
theorem reconcileZdb_test_all_active :
    (reconcileZdb (fixtureHelper "test1") (fixtureZdb "test1" 1 false [] [])
        (fixturePods "test1" [] [] []) (some 9) 100).ExpectedPods =
        [("us-east-1a", 3), ("us-east-1b", 3), ("us-east-1c", 3)] ∧
      (reconcileZdb (fixtureHelper "test1") (fixtureZdb "test1" 1 false [] [])
        (fixturePods "test1" [] [] []) (some 9) 100).DesiredHealthy =
        [("us-east-1a", 2), ("us-east-1b", 2), ("us-east-1c", 2)] ∧
      (reconcileZdb (fixtureHelper "test1") (fixtureZdb "test1" 1 false [] [])
        (fixturePods "test1" [] [] []) (some 9) 100).DisruptionsAllowed =
        [("us-east-1a", 1), ("us-east-1b", 1), ("us-east-1c", 1)] := by
  decide

/-- The test `When there is a single non active pod`, replayed with pod 4
Pending: its zone counts one unhealthy pod and no zone allows a disruption. -/
theorem reconcileZdb_test_single_non_active :
    (reconcileZdb (fixtureHelper "test2") (fixtureZdb "test2" 1 false [] [])
        (fixturePods "test2" [] ["4"] []) (some 9) 100).CurrentHealthy =
        [("us-east-1a", 3), ("us-east-1b", 2), ("us-east-1c", 3)] ∧
      (reconcileZdb (fixtureHelper "test2") (fixtureZdb "test2" 1 false [] [])
        (fixturePods "test2" [] ["4"] []) (some 9) 100).CurrentUnhealthy =
        [("us-east-1a", 0), ("us-east-1b", 1), ("us-east-1c", 0)] ∧
      (reconcileZdb (fixtureHelper "test2") (fixtureZdb "test2" 1 false [] [])
        (fixturePods "test2" [] ["4"] []) (some 9) 100).DisruptionsAllowed =
        [("us-east-1a", 0), ("us-east-1b", 0), ("us-east-1c", 0)] := by
  decide

/-- The test `When there are non active pods in two zones`, replayed with pods
0 and 1 Pending. -/
theorem reconcileZdb_test_two_zones :
    (reconcileZdb (fixtureHelper "test3") (fixtureZdb "test3" 1 false [] [])
        (fixturePods "test3" [] ["0", "1"] []) (some 9) 100).CurrentUnhealthy =
        [("us-east-1a", 1), ("us-east-1b", 1), ("us-east-1c", 0)] ∧
      (reconcileZdb (fixtureHelper "test3") (fixtureZdb "test3" 1 false [] [])
        (fixturePods "test3" [] ["0", "1"] []) (some 9) 100).DisruptionsAllowed =
        [("us-east-1a", 0), ("us-east-1b", 0), ("us-east-1c", 0)] := by
  decide

/-! ## The exponential ramp -/

/-- A decimal is 0 iff its numerator is 0. -/
theorem Decimal.toRat_eq_zero (f : Decimal) : f.toRat = 0 ↔ f.Num = 0 := by
  unfold Decimal.toRat
  have h10 : (10 : ℚ) ^ f.Scale ≠ 0 := by positivity
  rw [div_eq_zero_iff]
  simp [h10]

/-- A decimal is 1 iff its numerator is the power of ten of its scale. -/
theorem Decimal.toRat_eq_one (f : Decimal) : f.toRat = 1 ↔ f.Num = 10 ^ f.Scale := by
  unfold Decimal.toRat
  have h10 : (10 : ℚ) ^ f.Scale ≠ 0 := by positivity
  rw [div_eq_one_iff_eq h10]
  constructor
  · intro h
    exact_mod_cast h
  · intro h
    exact_mod_cast h

/-- A decimal is not negative. -/
theorem Decimal.toRat_nonneg (f : Decimal) : 0 ≤ f.toRat := by
  unfold Decimal.toRat
  positivity

/-- The integer part computed on naturals is the floor of the rational power. -/
theorem floorPow_eq_floor (f : Decimal) (k : Nat) : floorPow f k = ⌊f.toRat ^ k⌋₊ := by
  unfold floorPow Decimal.toRat
  rw [div_pow, ← pow_mul]
  have h := Nat.floor_div_eq_div (α := ℚ) (f.Num ^ k) (10 ^ (f.Scale * k))
  push_cast at h
  rw [h]

/-- The result of `maxPodsToDelete` for a factor other than 0 and 1 and a
bound `M` of the `int` type: the saturation agrees with the minimum. -/
theorem maxPodsToDelete_min (M : Int) (k : Nat) (s : String) (f : Decimal) (hM : M ≤ maxInt64)
    (hp : parseFactor s = some f) (h0 : f.Num ≠ 0) (h1 : f.Num ≠ 10 ^ f.Scale) :
    maxPodsToDelete M k s = Except.ok (min M (floorPow f k : Nat)) := by
  unfold maxPodsToDelete
  simp only [hp, h0, h1, if_false]
  by_cases hov : maxInt64 < floorPow f k
  · simp only [hov, if_true]
    congr 1
    have : (maxInt64 : Int) < (floorPow f k : Nat) := by exact_mod_cast hov
    omega
  · simp only [hov, if_false]

/-- Claim C6: for `M >= 1` (an `int`), every step `k` and every parseable
factor `f`, `maxPodsToDelete(M, k, f)` returns without error `M` when `f = 0`,
1 when `f = 1`, and `min(M, floor(f ^ k))` otherwise; at `k = 0` it returns 1
for every factor other than 0. -/
theorem maxPodsToDelete_value (M : Int) (k : Nat) (s : String) (f : Decimal)
    (hM1 : 1 ≤ M) (hM : M ≤ maxInt64) (hp : parseFactor s = some f) :
    maxPodsToDelete M k s =
        Except.ok (if f.toRat = 0 then M else if f.toRat = 1 then 1
          else min M (⌊f.toRat ^ k⌋₊ : Nat)) ∧
      (f.toRat ≠ 0 → maxPodsToDelete M 0 s = Except.ok 1) := by
  constructor
  · by_cases h0 : f.Num = 0
    · have := (Decimal.toRat_eq_zero f).mpr h0
      simp [maxPodsToDelete, hp, h0, this]
    · have hr0 : ¬ f.toRat = 0 := fun h => h0 ((Decimal.toRat_eq_zero f).mp h)
      by_cases h1 : f.Num = 10 ^ f.Scale
      · have := (Decimal.toRat_eq_one f).mpr h1
        simp [maxPodsToDelete, hp, h0, h1, this]
      · have hr1 : ¬ f.toRat = 1 := fun h => h1 ((Decimal.toRat_eq_one f).mp h)
        rw [maxPodsToDelete_min M k s f hM hp h0 h1, floorPow_eq_floor]
        simp [hr0, hr1]
  · intro hne
    have h0 : f.Num ≠ 0 := fun h => hne ((Decimal.toRat_eq_zero f).mpr h)
    by_cases h1 : f.Num = 10 ^ f.Scale
    · simp [maxPodsToDelete, hp, h0, h1]
    · rw [maxPodsToDelete_min M 0 s f hM hp h0 h1]
      simp [floorPow]
      omega

/-- For a factor of at least 1 the integer part of the power does not decrease
with the step. -/
theorem floorPow_mono (f : Decimal) (hf : 1 ≤ f.toRat) (j k : Nat) (hjk : j ≤ k) :
    floorPow f j ≤ floorPow f k := by
  rw [floorPow_eq_floor, floorPow_eq_floor]
  apply Nat.floor_mono
  exact pow_le_pow_right₀ hf hjk

/-- For a factor above 1 the integer part of the power is below a natural
bound exactly during the first `ceil(log_f n)` steps. -/
theorem floorPow_lt_iff (f : Decimal) (hf : 1 < f.toRat) (n k : Nat) (hn : 0 < n) :
    floorPow f k < n ↔ k < ⌈Real.logb (f.toRat : ℝ) (n : ℝ)⌉₊ := by
  have hf1 : (1 : ℝ) < (f.toRat : ℝ) := by exact_mod_cast hf
  have hnpos : (0 : ℝ) < (n : ℝ) := by exact_mod_cast hn
  rw [Nat.lt_ceil, Real.lt_logb_iff_rpow_lt hf1 hnpos, Real.rpow_natCast, floorPow_eq_floor,
    Nat.floor_lt (pow_nonneg (Decimal.toRat_nonneg f) k)]
  constructor
  · intro h
    have : ((f.toRat ^ k : ℚ) : ℝ) < ((n : ℚ) : ℝ) := by exact_mod_cast h
    simpa using this
  · intro h
    have : ((f.toRat ^ k : ℚ) : ℝ) < ((n : ℚ) : ℝ) := by simpa using h
    exact_mod_cast this

/-- Claim C7: for `M >= 1` (an `int`) and a factor `f >= 2`, the value of
`maxPodsToDelete(M, k, f)` exists for every step `k`, never exceeds `M`, is at
least the value of every earlier step, is below `M` when
`k < ceil(log_f M)` and equals `M` when `k >= ceil(log_f M)`, however large
`k` is. -/
theorem maxPodsToDelete_ramp (M : Int) (k : Nat) (s : String) (f : Decimal)
    (hM1 : 1 ≤ M) (hM : M ≤ maxInt64) (hp : parseFactor s = some f) (hf : 2 ≤ f.toRat) :
    ∃ v : Int, maxPodsToDelete M k s = Except.ok v ∧ v ≤ M ∧
      (∀ (j : Nat) (w : Int), j ≤ k → maxPodsToDelete M j s = Except.ok w → w ≤ v) ∧
      (k < ⌈Real.logb (f.toRat : ℝ) (M : ℝ)⌉₊ → v < M) ∧
      (⌈Real.logb (f.toRat : ℝ) (M : ℝ)⌉₊ ≤ k → v = M) := by
  have h0 : f.Num ≠ 0 := by
    intro h
    have := (Decimal.toRat_eq_zero f).mpr h
    linarith
  have h1 : f.Num ≠ 10 ^ f.Scale := by
    intro h
    have := (Decimal.toRat_eq_one f).mpr h
    linarith
  have hval : ∀ j, maxPodsToDelete M j s = Except.ok (min M (floorPow f j : Nat)) :=
    fun j => maxPodsToDelete_min M j s f hM hp h0 h1
  obtain ⟨n, rfl⟩ : ∃ n : Nat, M = (n : Int) := ⟨M.toNat, by omega⟩
  have hn : 0 < n := by omega
  have hiff := floorPow_lt_iff f (by linarith) n k hn
  have hcast : ((n : Int) : ℝ) = (n : ℝ) := by norm_cast
  rw [hcast]
  refine ⟨min (n : Int) (floorPow f k : Nat), hval k, min_le_left _ _, ?_, ?_, ?_⟩
  · intro j w hjk hw
    rw [hval j] at hw
    cases hw
    have := floorPow_mono f (by linarith) j k hjk
    omega
  · intro hk
    have := hiff.mpr hk
    omega
  · intro hk
    have : ¬ floorPow f k < n := fun h => absurd (hiff.mp h) (by omega)
    omega

/-- Claim C8: for `M >= 1` and a factor `f > 1`, when the integer part of
`f ^ k` does not fit the 64-bit integer type, `maxPodsToDelete` returns `M`
itself, a positive value, and no error; for `f = 2` this is the case at every
step `k >= 63`. -/
theorem maxPodsToDelete_saturates (M : Int) (k : Nat) (s : String) (f : Decimal)
    (hM1 : 1 ≤ M) (hp : parseFactor s = some f) (hf : 1 < f.toRat) :
    0 < M ∧ (maxInt64 < ⌊f.toRat ^ k⌋₊ → maxPodsToDelete M k s = Except.ok M) ∧
      (f.toRat = 2 → 63 ≤ k → maxPodsToDelete M k s = Except.ok M) := by
  have h0 : f.Num ≠ 0 := by
    intro h
    have := (Decimal.toRat_eq_zero f).mpr h
    linarith
  have h1 : f.Num ≠ 10 ^ f.Scale := by
    intro h
    have := (Decimal.toRat_eq_one f).mpr h
    linarith
  have hsat : maxInt64 < floorPow f k → maxPodsToDelete M k s = Except.ok M := by
    intro hov
    simp [maxPodsToDelete, hp, h0, h1, hov]
  refine ⟨by omega, ?_, ?_⟩
  · intro hov
    apply hsat
    rw [floorPow_eq_floor]
    exact hov
  · intro h2 hk
    apply hsat
    rw [floorPow_eq_floor, h2]
    have hfl : ⌊((2 : ℚ)) ^ k⌋₊ = 2 ^ k := by
      have := Nat.floor_natCast (α := ℚ) (2 ^ k)
      push_cast at this
      exact this
    rw [hfl]
    have : 2 ^ 63 ≤ 2 ^ k := Nat.pow_le_pow_right (by norm_num) hk
    have h63 : maxInt64 < 2 ^ 63 := by decide
    omega

/-! ## The ZAU reconciler -/

/-- The comparison `lexLe` is total. -/
theorem lexLe_total (a : List Char) : ∀ b : List Char, lexLe a b = true ∨ lexLe b a = true := by
  induction a with
  | nil => intro b; left; simp [lexLe]
  | cons x xs ih =>
      intro b
      cases b with
      | nil => right; simp [lexLe]
      | cons y ys =>
          by_cases h1 : x.toNat < y.toNat
          · left; simp [lexLe, h1]
          · by_cases h2 : y.toNat < x.toNat
            · right; simp [lexLe, h2]
            · simpa [lexLe, h1, h2] using ih ys

/-- The comparison `lexLe` is transitive. -/
theorem lexLe_trans (a : List Char) :
    ∀ b c : List Char, lexLe a b = true → lexLe b c = true → lexLe a c = true := by
  induction a with
  | nil => intro b c _ _; simp [lexLe]
  | cons x xs ih =>
      intro b c hab hbc
      cases b with
      | nil => simp [lexLe] at hab
      | cons y ys =>
          cases c with
          | nil => simp [lexLe] at hbc
          | cons w ws =>
              by_cases hxy : x.toNat < y.toNat
              · by_cases hyw : y.toNat < w.toNat
                · have : x.toNat < w.toNat := by omega
                  simp [lexLe, this]
                · by_cases hwy : w.toNat < y.toNat
                  · simp [lexLe, hyw, hwy] at hbc
                  · have : x.toNat < w.toNat := by omega
                    simp [lexLe, this]
              · by_cases hyx : y.toNat < x.toNat
                · simp [lexLe, hxy, hyx] at hab
                · simp only [lexLe, hxy, hyx, if_false] at hab
                  by_cases hyw : y.toNat < w.toNat
                  · have : x.toNat < w.toNat := by omega
                    simp [lexLe, this]
                  · by_cases hwy : w.toNat < y.toNat
                    · simp [lexLe, hyw, hwy] at hbc
                    · simp only [lexLe, hyw, hwy, if_false] at hbc
                      have h1 : ¬ x.toNat < w.toNat := by omega
                      have h2 : ¬ w.toNat < x.toNat := by omega
                      simp only [lexLe, h1, h2, if_false]
                      exact ih ys ws hab hbc

/-- The order of characters is the order of their code points. -/
theorem char_lt_iff (a b : Char) : a < b ↔ a.toNat < b.toNat := by
  rfl

/-- Characters with the same code point are equal. -/
theorem char_eq_of_toNat (a b : Char) (h : a.toNat = b.toNat) : a = b :=
  Char.ext (UInt32.toNat.inj h)

/-- The boolean comparison `lexLe` decides the lexicographic order of lists of
characters. -/
theorem lexLe_iff_not_lt (as : List Char) : ∀ bs : List Char, lexLe as bs = true ↔ ¬ bs < as := by
  induction as with
  | nil =>
      intro bs
      simp only [lexLe, true_iff]
      intro h
      cases h
  | cons a as ih =>
      intro bs
      cases bs with
      | nil =>
          simp only [lexLe, Bool.false_eq_true, false_iff, not_not]
          exact List.Lex.nil
      | cons b bs =>
          by_cases h1 : a.toNat < b.toNat
          · have hba : ¬ b < a := fun h => by
              have := (char_lt_iff b a).mp h
              omega
            simp only [lexLe, h1, if_true, true_iff]
            intro hlt
            cases hlt with
            | cons _ => omega
            | rel h => exact hba h
          · by_cases h2 : b.toNat < a.toNat
            · have hba : b < a := (char_lt_iff b a).mpr h2
              simp only [lexLe, h1, h2, if_false, if_true, Bool.false_eq_true, false_iff, not_not]
              exact List.Lex.rel hba
            · have hEq : a = b := char_eq_of_toNat a b (by omega)
              subst hEq
              have haa : ¬ a < a := fun h => h1 ((char_lt_iff a a).mp h)
              simp only [lexLe, h1, if_false]
              rw [ih bs]
              constructor
              · intro hn hlt
                cases hlt with
                | cons h => exact hn h
                | rel h => exact haa h
              · intro hn hlt
                exact hn (List.Lex.cons hlt)

/-- The order `zoneLe` is the order of strings. -/
theorem zoneLe_iff_le (a b : String) : zoneLe a b ↔ a ≤ b := by
  unfold zoneLe
  rw [lexLe_iff_not_lt, ← String.lt_iff_toList_lt, not_lt]

/-- The zones sorted by `GetSortedZonesFromMap` are in ascending order. -/
theorem sorted_GetSortedZonesFromMap (m : GoMap (List Pod)) :
    List.Sorted zoneLe (GetSortedZonesFromMap m) := by
  haveI : IsTotal String zoneLe := ⟨fun a b => lexLe_total a.toList b.toList⟩
  haveI : IsTrans String zoneLe := ⟨fun a b c => lexLe_trans a.toList b.toList c.toList⟩
  exact List.sorted_insertionSort zoneLe _

/-- The bucket read after a bucket is assigned. -/
theorem podsOfZone_set (m : GoMap (List Pod)) (zone z : String) (ps : List Pod) :
    podsOfZone (GoMap.set m zone ps) z = if z = zone then ps else podsOfZone m z := by
  unfold podsOfZone
  by_cases h : z = zone
  · subst h
    simp [GoMap.get?_set_same]
  · simp [GoMap.get?_set_other m zone z ps h, h]

/-- Claim C10, as amended: in a reconcile in which some new-revision pod is
not Ready, or some zone other than the active zone holds an old-revision pod
that is not Ready, `updateStatefulSet` deletes no pod; when an old-revision
pod remains in some zone (the rollout is not complete) it leaves `updateStep`
and `deletedReplicas` unchanged; and when none remains and the reconcile is
not skipped for the update strategy, it sets both to 0. -/
theorem updateStatefulSet_health_gate (r : ZoneAwareUpdateReconciler) (zau : ZoneAwareUpdate)
    (ss : StatefulSet)
    (hbad : (∃ p ∈ r.Pods, isNewRevision ss p = true ∧ IsPodReady p = false) ∨
      (∃ active z, activeZone ss (GetZonePodsMap r.PodZoneHelper r.Pods).1
          (GetSortedZonesFromMap (GetZonePodsMap r.PodZoneHelper r.Pods).1) = some active ∧
        z ≠ active ∧
        ∃ p ∈ oldPods ss (podsOfZone (GetZonePodsMap r.PodZoneHelper r.Pods).1 z),
          IsPodReady p = false)) :
    (updateStatefulSet r zau ss).Deleted = [] ∧
      ((activeZone ss (GetZonePodsMap r.PodZoneHelper r.Pods).1
          (GetSortedZonesFromMap (GetZonePodsMap r.PodZoneHelper r.Pods).1)).isSome = true →
        (updateStatefulSet r zau ss).Status.UpdateStep = zau.Status.UpdateStep ∧
        (updateStatefulSet r zau ss).Status.DeletedReplicas = zau.Status.DeletedReplicas) ∧
      (activeZone ss (GetZonePodsMap r.PodZoneHelper r.Pods).1
          (GetSortedZonesFromMap (GetZonePodsMap r.PodZoneHelper r.Pods).1) = none →
        (ss.UpdateStrategy = UpdateStrategyType.OnDelete ∨ zau.Spec.DryRun = true) →
        (updateStatefulSet r zau ss).Status.UpdateStep = 0 ∧
        (updateStatefulSet r zau ss).Status.DeletedReplicas = 0) := by
  unfold updateStatefulSet
  by_cases hgate : ss.UpdateStrategy ≠ UpdateStrategyType.OnDelete ∧ zau.Spec.DryRun = false
  · rw [if_pos hgate]
    refine ⟨rfl, fun _ => ⟨rfl, rfl⟩, fun _ hor => ?_⟩
    rcases hor with h1 | h1
    · exact absurd h1 hgate.1
    · rw [hgate.2] at h1
      exact absurd h1 (by decide)
  · rw [if_neg hgate]
    rcases hact : activeZone ss (GetZonePodsMap r.PodZoneHelper r.Pods).1
      (GetSortedZonesFromMap (GetZonePodsMap r.PodZoneHelper r.Pods).1) with _ | active
    · simp only [hact]
      simp [updateZauStatus]
    · simp only [hact, Option.isSome_some, forall_true_left]
      refine (fun h : _ ∧ _ ∧ _ => ⟨h.1, h.2, fun hn => absurd hn (by simp)⟩) ?_
      rcases halarm : alarmGate r zau with _ | _ | e
      · simp only [halarm]
        by_cases hT : r.Pods.any IsTerminating = true
        · rw [if_pos hT]
          exact ⟨rfl, rfl, rfl⟩
        · rw [if_neg hT]
          by_cases hN : r.Pods.any (fun p => isNewRevision ss p && !IsPodReady p) = true
          · rw [if_pos hN]
            exact ⟨rfl, rfl, rfl⟩
          · rw [if_neg hN]
            by_cases hO : (GetSortedZonesFromMap (GetZonePodsMap r.PodZoneHelper r.Pods).1).any
                (fun z => !decide (z = active) &&
                  (oldPods ss (podsOfZone (GetZonePodsMap r.PodZoneHelper r.Pods).1 z)).any
                    (fun p => !IsPodReady p)) = true
            · rw [if_pos hO]
              exact ⟨rfl, rfl, rfl⟩
            · exfalso
              rcases hbad with ⟨p, hp, hnew, hnr⟩ | ⟨a, z, ha, hne, p, hp, hnr⟩
              · apply hN
                rw [List.any_eq_true]
                exact ⟨p, hp, by simp [hnew, hnr]⟩
              · rw [hact] at ha
                cases ha
                apply hO
                rw [List.any_eq_true]
                refine ⟨z, mem_zones_of_mem_podsOfZone _ z p (List.mem_filter.mp hp).1, ?_⟩
                have hany : (oldPods ss (podsOfZone (GetZonePodsMap r.PodZoneHelper r.Pods).1
                    z)).any (fun p => !IsPodReady p) = true := by
                  rw [List.any_eq_true]
                  exact ⟨p, hp, by simp [hnr]⟩
                simp [hne, hany]
      · simp [halarm]
      · simp [halarm]

/-- Witness of claim C6 on the test `step 4`: `maxUnavailable = 10`, factor
`2.0`. -/
theorem maxPodsToDelete_value_witness :
    maxPodsToDelete 10 4 "2.0" =
        Except.ok (if ({ Num := 20, Scale := 1 } : Decimal).toRat = 0 then (10 : Int)
          else if ({ Num := 20, Scale := 1 } : Decimal).toRat = 1 then (1 : Int)
          else min (10 : Int) ((⌊({ Num := 20, Scale := 1 } : Decimal).toRat ^ 4⌋₊ : Nat) : Int)) ∧
      (({ Num := 20, Scale := 1 } : Decimal).toRat ≠ 0 →
        maxPodsToDelete 10 0 "2.0" = Except.ok 1) :=
  maxPodsToDelete_value 10 4 "2.0" { Num := 20, Scale := 1 } (by decide) (by decide) (by decide)

/-- Witness of claim C7 at step 4 of the ramp with `M = 10` and factor `2.0`. -/
theorem maxPodsToDelete_ramp_witness :
    ∃ v : Int, maxPodsToDelete 10 4 "2.0" = Except.ok v ∧ v ≤ 10 ∧
      (∀ (j : Nat) (w : Int), j ≤ 4 → maxPodsToDelete 10 j "2.0" = Except.ok w → w ≤ v) ∧
      (4 < ⌈Real.logb ((({ Num := 20, Scale := 1 } : Decimal).toRat : ℚ) : ℝ)
        (((10 : Int) : ℝ))⌉₊ → v < 10) ∧
      (⌈Real.logb ((({ Num := 20, Scale := 1 } : Decimal).toRat : ℚ) : ℝ)
        (((10 : Int) : ℝ))⌉₊ ≤ 4 → v = 10) :=
  maxPodsToDelete_ramp 10 4 "2.0" { Num := 20, Scale := 1 } (by decide) (by decide) (by decide)
    (by norm_num [Decimal.toRat])

/-- Witness of claim C8 on the test `step 63 - overflow`. -/
theorem maxPodsToDelete_saturates_witness :
    (0 : Int) < 10 ∧
      (maxInt64 < ⌊({ Num := 20, Scale := 1 } : Decimal).toRat ^ 63⌋₊ →
        maxPodsToDelete 10 63 "2.0" = Except.ok 10) ∧
      (({ Num := 20, Scale := 1 } : Decimal).toRat = 2 → 63 ≤ 63 →
        maxPodsToDelete 10 63 "2.0" = Except.ok 10) :=
  maxPodsToDelete_saturates 10 63 "2.0" { Num := 20, Scale := 1 } (by decide) (by decide)
    (by norm_num [Decimal.toRat])

/-- The table of the test `maxPodsToDelete`, replayed. -/
theorem maxPodsToDelete_test_table :
    maxPodsToDelete 10 0 "2.0" = Except.ok 1 ∧ maxPodsToDelete 10 1 "2.0" = Except.ok 2 ∧
      maxPodsToDelete 10 2 "2.0" = Except.ok 4 ∧ maxPodsToDelete 10 4 "2.0" = Except.ok 10 ∧
      maxPodsToDelete 10 62 "2.0" = Except.ok 10 ∧ maxPodsToDelete 10 63 "2.0" = Except.ok 10 ∧
      maxPodsToDelete 10 2 "1.0" = Except.ok 1 ∧ maxPodsToDelete 10 8 "0" = Except.ok 10 := by
  decide

/-- Witness of claim C10 on the test `When there is non ready pods in the new
revision`: pod 4 is on the new revision and not Ready. -/
theorem updateStatefulSet_health_gate_witness :
    (updateStatefulSet (fixtureReconciler "zau-test5" (fixturePods "zau-test5" ["4"] ["4"] [])
        (Except.ok "OK")) (fixtureZau "zau-test5" 0 0 "" "" false)
        (fixtureSet "zau-test5" UpdateStrategyType.OnDelete)).Deleted = [] ∧
      ((activeZone (fixtureSet "zau-test5" UpdateStrategyType.OnDelete)
          (GetZonePodsMap (fixtureHelper "zau-test5")
            (fixturePods "zau-test5" ["4"] ["4"] [])).1
          (GetSortedZonesFromMap (GetZonePodsMap (fixtureHelper "zau-test5")
            (fixturePods "zau-test5" ["4"] ["4"] [])).1)).isSome = true →
        (updateStatefulSet (fixtureReconciler "zau-test5"
          (fixturePods "zau-test5" ["4"] ["4"] []) (Except.ok "OK"))
          (fixtureZau "zau-test5" 0 0 "" "" false)
          (fixtureSet "zau-test5" UpdateStrategyType.OnDelete)).Status.UpdateStep =
          (fixtureZau "zau-test5" 0 0 "" "" false).Status.UpdateStep ∧
        (updateStatefulSet (fixtureReconciler "zau-test5"
          (fixturePods "zau-test5" ["4"] ["4"] []) (Except.ok "OK"))
          (fixtureZau "zau-test5" 0 0 "" "" false)
          (fixtureSet "zau-test5" UpdateStrategyType.OnDelete)).Status.DeletedReplicas =
          (fixtureZau "zau-test5" 0 0 "" "" false).Status.DeletedReplicas) :=
  ⟨(updateStatefulSet_health_gate
      (fixtureReconciler "zau-test5" (fixturePods "zau-test5" ["4"] ["4"] []) (Except.ok "OK"))
      (fixtureZau "zau-test5" 0 0 "" "" false)
      (fixtureSet "zau-test5" UpdateStrategyType.OnDelete)
      (Or.inl (by decide))).1,
    (updateStatefulSet_health_gate
      (fixtureReconciler "zau-test5" (fixturePods "zau-test5" ["4"] ["4"] []) (Except.ok "OK"))
      (fixtureZau "zau-test5" 0 0 "" "" false)
      (fixtureSet "zau-test5" UpdateStrategyType.OnDelete)
      (Or.inl (by decide))).2.1⟩

/-- Counterexample to claim C10 as stated: every pod is on the new revision,
pod 4 is not Ready, and the stored status has `updateStep = 2` and
`deletedReplicas = 2`.  The rollout is complete, so the reconcile clears both
to 0 instead of leaving them unchanged. -/
theorem updateStatefulSet_complete_clears_status :
    (∃ p ∈ fixturePods "zau-done" ["0", "1", "2", "3", "4", "5", "6", "7", "8"] ["4"] [],
        isNewRevision (fixtureSet "zau-done" UpdateStrategyType.OnDelete) p = true ∧
          IsPodReady p = false) ∧
      (fixtureZau "zau-done" 2 2 "update" "" false).Status.UpdateStep = 2 ∧
      (fixtureZau "zau-done" 2 2 "update" "" false).Status.DeletedReplicas = 2 ∧
      (updateStatefulSet (fixtureReconciler "zau-done"
        (fixturePods "zau-done" ["0", "1", "2", "3", "4", "5", "6", "7", "8"] ["4"] [])
        (Except.ok "OK")) (fixtureZau "zau-done" 2 2 "update" "" false)
        (fixtureSet "zau-done" UpdateStrategyType.OnDelete)).Deleted = [] ∧
      (updateStatefulSet (fixtureReconciler "zau-done"
        (fixturePods "zau-done" ["0", "1", "2", "3", "4", "5", "6", "7", "8"] ["4"] [])
        (Except.ok "OK")) (fixtureZau "zau-done" 2 2 "update" "" false)
        (fixtureSet "zau-done" UpdateStrategyType.OnDelete)).Status.UpdateStep = 0 ∧
      (updateStatefulSet (fixtureReconciler "zau-done"
        (fixturePods "zau-done" ["0", "1", "2", "3", "4", "5", "6", "7", "8"] ["4"] [])
        (Except.ok "OK")) (fixtureZau "zau-done" 2 2 "update" "" false)
        (fixtureSet "zau-done" UpdateStrategyType.OnDelete)).Status.DeletedReplicas = 0 := by
  decide

/-- The controller tests of `updateStatefulSet` on the nine-pod fixture,
replayed: the first step deletes pod 6; with the first zone updated the
second zone loses pods 7 and 4; an unready pod of the first zone is the sole
target; unready pods in two zones, or in a zone other than the active one,
stop the rollout; a terminating pod stops it; a dry run of a set that is not
OnDelete counts a step without deleting. -/
theorem updateStatefulSet_test_scenarios :
    (updateStatefulSet (fixtureReconciler "t" (fixturePods "t" [] [] []) (Except.ok "OK"))
        (fixtureZau "t" 0 0 "" "" false) (fixtureSet "t" UpdateStrategyType.OnDelete)).Deleted.map
        (fun p => p.Name) = ["t-6"] ∧
      (updateStatefulSet (fixtureReconciler "t" (fixturePods "t" ["6", "3", "0"] [] [])
        (Except.ok "OK")) (fixtureZau "t" 2 0 "update" "" false)
        (fixtureSet "t" UpdateStrategyType.OnDelete)).Deleted.map (fun p => p.Name) =
        ["t-7", "t-4"] ∧
      (updateStatefulSet (fixtureReconciler "t" (fixturePods "t" [] ["0"] []) (Except.ok "OK"))
        (fixtureZau "t" 0 0 "" "" false) (fixtureSet "t" UpdateStrategyType.OnDelete)).Deleted.map
        (fun p => p.Name) = ["t-0"] ∧
      (updateStatefulSet (fixtureReconciler "t" (fixturePods "t" [] ["4", "2"] [])
        (Except.ok "OK")) (fixtureZau "t" 0 0 "" "" false)
        (fixtureSet "t" UpdateStrategyType.OnDelete)).Deleted = [] ∧
      (updateStatefulSet (fixtureReconciler "t" (fixturePods "t" [] ["4", "7"] [])
        (Except.ok "OK")) (fixtureZau "t" 0 0 "" "" false)
        (fixtureSet "t" UpdateStrategyType.OnDelete)).Deleted = [] ∧
      (updateStatefulSet (fixtureReconciler "t" (fixturePods "t" [] [] ["8"]) (Except.ok "OK"))
        (fixtureZau "t" 0 0 "" "" false) (fixtureSet "t" UpdateStrategyType.OnDelete)).Deleted =
        [] ∧
      (updateStatefulSet (fixtureReconciler "t" (fixturePods "t" [] [] []) (Except.ok "OK"))
        (fixtureZau "t" 0 0 "" "" true)
        (fixtureSet "t" UpdateStrategyType.RollingUpdate)).Deleted = [] ∧
      (updateStatefulSet (fixtureReconciler "t" (fixturePods "t" [] [] []) (Except.ok "OK"))
        (fixtureZau "t" 0 0 "" "" true)
        (fixtureSet "t" UpdateStrategyType.RollingUpdate)).Status.UpdateStep = 1 := by
  decide

/-! ## The alarm gate and the strategy gate of the ZAU reconciler -/

/-- A dry-run reconcile deletes no pod. -/
theorem updateStatefulSet_dryRun_no_deletion (r : ZoneAwareUpdateReconciler)
    (zau : ZoneAwareUpdate) (ss : StatefulSet) (hdry : zau.Spec.DryRun = true) :
    (updateStatefulSet r zau ss).Deleted = [] := by
  unfold updateStatefulSet
  by_cases hgate : ss.UpdateStrategy ≠ UpdateStrategyType.OnDelete ∧ zau.Spec.DryRun = false
  · rw [if_pos hgate]
  · rw [if_neg hgate]
    rcases hact : activeZone ss (GetZonePodsMap r.PodZoneHelper r.Pods).1
      (GetSortedZonesFromMap (GetZonePodsMap r.PodZoneHelper r.Pods).1) with _ | active
    · simp only [hact]
    · simp only [hact]
      rcases halarm : alarmGate r zau with _ | _ | e
      · simp only [halarm]
        by_cases hT : r.Pods.any IsTerminating = true
        · rw [if_pos hT]
        · rw [if_neg hT]
          by_cases hN : r.Pods.any (fun p => isNewRevision ss p && !IsPodReady p) = true
          · rw [if_pos hN]
          · rw [if_neg hN]
            by_cases hO : (GetSortedZonesFromMap (GetZonePodsMap r.PodZoneHelper r.Pods).1).any
                (fun z => !decide (z = active) &&
                  (oldPods ss (podsOfZone (GetZonePodsMap r.PodZoneHelper r.Pods).1 z)).any
                    (fun p => !IsPodReady p)) = true
            · rw [if_pos hO]
            · rw [if_neg hO]
              rcases hb : maxPodsToDelete
                  (effectiveMaxUnavailable zau.Spec.MaxUnavailable ss.Replicas)
                  (effectiveUpdateStep zau ss).toNat zau.Spec.ExponentialFactor with e | batch
              · simp only [hb]
              · simp only [hb]
                rw [if_pos hdry]
      · simp only [halarm]
      · simp only [halarm]

/-- Claim C12, as amended: for a ZAU whose set has an update strategy other
than `OnDelete`, `updateStatefulSet` deletes no pod whatever the other fields
are; and when `dryRun` is false the call is a no-op: the status is unchanged,
no re-check is asked for and no error is returned. -/
theorem updateStatefulSet_strategy_gate (r : ZoneAwareUpdateReconciler) (zau : ZoneAwareUpdate)
    (ss : StatefulSet) (hstrat : ss.UpdateStrategy ≠ UpdateStrategyType.OnDelete) :
    (updateStatefulSet r zau ss).Deleted = [] ∧
      (zau.Spec.DryRun = false →
        (updateStatefulSet r zau ss).Status = zau.Status ∧
          (updateStatefulSet r zau ss).Recheck = false ∧
          (updateStatefulSet r zau ss).Err = none) := by
  constructor
  · by_cases hdry : zau.Spec.DryRun = true
    · exact updateStatefulSet_dryRun_no_deletion r zau ss hdry
    · have hdry1 : zau.Spec.DryRun = false := by simpa using hdry
      unfold updateStatefulSet
      rw [if_pos ⟨hstrat, hdry1⟩]
  · intro hdry
    unfold updateStatefulSet
    rw [if_pos ⟨hstrat, hdry⟩]
    exact ⟨rfl, rfl, rfl⟩

/-- Witness of claim C12 on the test `When statefulset strategy is not
OnDelete`. -/
theorem updateStatefulSet_strategy_gate_witness :
    (updateStatefulSet (fixtureReconciler "zau-test1" (fixturePods "zau-test1" [] [] [])
        (Except.ok "OK")) (fixtureZau "zau-test1" 0 0 "" "" false)
        (fixtureSet "zau-test1" UpdateStrategyType.RollingUpdate)).Deleted = [] ∧
      ((fixtureZau "zau-test1" 0 0 "" "" false).Spec.DryRun = false →
        (updateStatefulSet (fixtureReconciler "zau-test1" (fixturePods "zau-test1" [] [] [])
          (Except.ok "OK")) (fixtureZau "zau-test1" 0 0 "" "" false)
          (fixtureSet "zau-test1" UpdateStrategyType.RollingUpdate)).Status =
            (fixtureZau "zau-test1" 0 0 "" "" false).Status ∧
        (updateStatefulSet (fixtureReconciler "zau-test1" (fixturePods "zau-test1" [] [] [])
          (Except.ok "OK")) (fixtureZau "zau-test1" 0 0 "" "" false)
          (fixtureSet "zau-test1" UpdateStrategyType.RollingUpdate)).Recheck = false ∧
        (updateStatefulSet (fixtureReconciler "zau-test1" (fixturePods "zau-test1" [] [] [])
          (Except.ok "OK")) (fixtureZau "zau-test1" 0 0 "" "" false)
          (fixtureSet "zau-test1" UpdateStrategyType.RollingUpdate)).Err = none) :=
  updateStatefulSet_strategy_gate
    (fixtureReconciler "zau-test1" (fixturePods "zau-test1" [] [] []) (Except.ok "OK"))
    (fixtureZau "zau-test1" 0 0 "" "" false)
    (fixtureSet "zau-test1" UpdateStrategyType.RollingUpdate) (by decide)

/-- Counterexample to claim C12 as stated, on the test `When dryRun is
enabled`: the set keeps the strategy `RollingUpdate`, the ZAU is in dry-run,
and the reconcile moves `updateStep` and `deletedReplicas` from 0 to 1. -/
theorem updateStatefulSet_dryRun_ignores_strategy :
    (fixtureSet "zau-test9" UpdateStrategyType.RollingUpdate).UpdateStrategy ≠
        UpdateStrategyType.OnDelete ∧
      (fixtureZau "zau-test9" 0 0 "" "" true).Status.UpdateStep = 0 ∧
      (fixtureZau "zau-test9" 0 0 "" "" true).Status.DeletedReplicas = 0 ∧
      (updateStatefulSet (fixtureReconciler "zau-test9" (fixturePods "zau-test9" [] [] [])
        (Except.ok "OK")) (fixtureZau "zau-test9" 0 0 "" "" true)
        (fixtureSet "zau-test9" UpdateStrategyType.RollingUpdate)).Deleted = [] ∧
      (updateStatefulSet (fixtureReconciler "zau-test9" (fixturePods "zau-test9" [] [] [])
        (Except.ok "OK")) (fixtureZau "zau-test9" 0 0 "" "" true)
        (fixtureSet "zau-test9" UpdateStrategyType.RollingUpdate)).Status.UpdateStep = 1 ∧
      (updateStatefulSet (fixtureReconciler "zau-test9" (fixturePods "zau-test9" [] [] [])
        (Except.ok "OK")) (fixtureZau "zau-test9" 0 0 "" "" true)
        (fixtureSet "zau-test9" UpdateStrategyType.RollingUpdate)).Status.DeletedReplicas = 1 := by
  decide

/-! ## The per-zone accounting of the ZDB reconciler -/

/-- Claim C13, as amended: after a reconciliation of a ZDB whose owner
declares `total` replicas, the observed generation is the generation, and for
every observed zone `z`: `expectedPods[z]` is `total` divided by the number
of observed zones, rounded down; `currentHealthy[z]` is the number of healthy
pods of the zone; `currentUnhealthy[z]` is `expectedPods[z] -
currentHealthy[z]`, and 0 when that is negative; so `currentHealthy[z] +
currentUnhealthy[z]` is the larger of `expectedPods[z]` and
`currentHealthy[z]`, and it is `expectedPods[z]` whenever the zone holds at
most `expectedPods[z]` healthy pods. -/
theorem reconcileZdb_zone_accounting (h : Helper) (zdb : ZoneDisruptionBudget)
    (pods : List Pod) (total : Nat) (now : Nat) (z : String)
    (hz : z ∈ GetSortedZonesFromMap (GetZonePodsMap h pods).1) :
    (reconcileZdb h zdb pods (some total) now).ObservedGeneration = zdb.Generation ∧
      getInt (reconcileZdb h zdb pods (some total) now).ExpectedPods z =
        ((total / (GetSortedZonesFromMap (GetZonePodsMap h pods).1).length : Nat) : Int) ∧
      getInt (reconcileZdb h zdb pods (some total) now).CurrentHealthy z =
        (healthyCount zdb.Status.DisruptedPods (podsOfZone (GetZonePodsMap h pods).1 z) : Nat) ∧
      getInt (reconcileZdb h zdb pods (some total) now).CurrentUnhealthy z =
        max 0 (getInt (reconcileZdb h zdb pods (some total) now).ExpectedPods z -
          getInt (reconcileZdb h zdb pods (some total) now).CurrentHealthy z) ∧
      getInt (reconcileZdb h zdb pods (some total) now).CurrentHealthy z +
          getInt (reconcileZdb h zdb pods (some total) now).CurrentUnhealthy z =
        max (getInt (reconcileZdb h zdb pods (some total) now).ExpectedPods z)
          (getInt (reconcileZdb h zdb pods (some total) now).CurrentHealthy z) ∧
      (getInt (reconcileZdb h zdb pods (some total) now).CurrentHealthy z ≤
          getInt (reconcileZdb h zdb pods (some total) now).ExpectedPods z →
        getInt (reconcileZdb h zdb pods (some total) now).CurrentHealthy z +
            getInt (reconcileZdb h zdb pods (some total) now).CurrentUnhealthy z =
          getInt (reconcileZdb h zdb pods (some total) now).ExpectedPods z) := by
  unfold reconcileZdb computeZdbStatus
  simp only [getInt_zoneMap, if_pos hz, unhealthyCount]
  refine ⟨trivial, trivial, trivial, ?_, ?_, ?_⟩ <;> omega

/-- Witness of claim C13 on the test `When there is a single non active
pod`, in the zone of the pod that is not active. -/
theorem reconcileZdb_zone_accounting_witness :
    getInt (reconcileZdb (fixtureHelper "test2") (fixtureZdb "test2" 1 false [] [])
        (fixturePods "test2" [] ["4"] []) (some 9) 100).CurrentHealthy "us-east-1b" +
      getInt (reconcileZdb (fixtureHelper "test2") (fixtureZdb "test2" 1 false [] [])
        (fixturePods "test2" [] ["4"] []) (some 9) 100).CurrentUnhealthy "us-east-1b" =
      getInt (reconcileZdb (fixtureHelper "test2") (fixtureZdb "test2" 1 false [] [])
        (fixturePods "test2" [] ["4"] []) (some 9) 100).ExpectedPods "us-east-1b" :=
  (reconcileZdb_zone_accounting (fixtureHelper "test2") (fixtureZdb "test2" 1 false [] [])
    (fixturePods "test2" [] ["4"] []) 9 100 "us-east-1b" (by decide)).2.2.2.2.2 (by decide)

/-- Counterexample to claim C13 as stated: a set of ten replicas over three
zones, all pods Running and Ready, four of them in `us-east-1a`.  The
reconciliation observes the generation and reports for that zone
`expectedPods` 3, `currentHealthy` 4 and `currentUnhealthy` 0: the sum is 4,
not 3. -/
theorem reconcileZdb_uneven_zone_exceeds_expected :
    (reconcileZdb (unevenHelper "test5") (fixtureZdb "test5" 1 false [] [])
        (unevenPods "test5") (some 10) 100).ObservedGeneration =
        (fixtureZdb "test5" 1 false [] []).Generation ∧
      "us-east-1a" ∈ GetSortedZonesFromMap
        (GetZonePodsMap (unevenHelper "test5") (unevenPods "test5")).1 ∧
      (reconcileZdb (unevenHelper "test5") (fixtureZdb "test5" 1 false [] [])
        (unevenPods "test5") (some 10) 100).ExpectedPods =
        [("us-east-1a", 3), ("us-east-1b", 3), ("us-east-1c", 3)] ∧
      (reconcileZdb (unevenHelper "test5") (fixtureZdb "test5" 1 false [] [])
        (unevenPods "test5") (some 10) 100).CurrentHealthy =
        [("us-east-1a", 4), ("us-east-1b", 3), ("us-east-1c", 3)] ∧
      (reconcileZdb (unevenHelper "test5") (fixtureZdb "test5" 1 false [] [])
        (unevenPods "test5") (some 10) 100).CurrentUnhealthy =
        [("us-east-1a", 0), ("us-east-1b", 0), ("us-east-1c", 0)] ∧
      getInt (reconcileZdb (unevenHelper "test5") (fixtureZdb "test5" 1 false [] [])
          (unevenPods "test5") (some 10) 100).CurrentHealthy "us-east-1a" +
        getInt (reconcileZdb (unevenHelper "test5") (fixtureZdb "test5" 1 false [] [])
          (unevenPods "test5") (some 10) 100).CurrentUnhealthy "us-east-1a" ≠
        getInt (reconcileZdb (unevenHelper "test5") (fixtureZdb "test5" 1 false [] [])
          (unevenPods "test5") (some 10) 100).ExpectedPods "us-east-1a" := by
  decide

/-! ## The eviction webhook: the checks before the budget is spent -/

/-- A request that gets as far as the retry loop: what the handler answers,
given the result of the loop. -/
theorem handler_budget_checked (c : Client) (req : Request) (dry : Bool) (pod : Pod)
    (zdb : ZoneDisruptionBudget)
    (hop : req.Operation = Operation.Create) (hsub : req.SubResource = "eviction")
    (hdry : getDryRunOption req = Except.ok dry)
    (hpod : c.GetPod req.Namespace req.Name = Except.ok pod)
    (hign : canIgnoreZDB pod = false) (hready : IsPodReady pod = true)
    (hzdb : GetZdbForPod c pod = Except.ok (some zdb))
    (hnew : isDisruptedPod pod.Name zdb = false) :
    (handler c req).Writes =
        (RetryOnConflict c pod (dry || zdb.Spec.DryRun) EvictionsRetrySteps 0 false zdb).Writes ∧
      ((RetryOnConflict c pod (dry || zdb.Spec.DryRun) EvictionsRetrySteps 0 false zdb).Err = none →
        (handler c req).Response = Allowed "" ∧ (handler c req).Reason = "DisruptionAllowed") ∧
      ((RetryOnConflict c pod (dry || zdb.Spec.DryRun) EvictionsRetrySteps 0 false zdb).Err ≠ none →
        ((dry || zdb.Spec.DryRun) = true →
          (handler c req).Response = Allowed "" ∧ (handler c req).Reason = "DryRun") ∧
        ((dry || zdb.Spec.DryRun) = false →
          (handler c req).Response = Denied ("denying pod eviction for " ++ pod.Name) ∧
            (handler c req).Reason = "DeniedByZdb")) := by
  cases hb : (dry || zdb.Spec.DryRun)
  · rcases herr : (RetryOnConflict c pod false EvictionsRetrySteps 0 false zdb).Err with _ | e <;>
      simp [handler, hop, hsub, hdry, hpod, hign, hready, hzdb, hnew, hb, herr]
  · rcases herr : (RetryOnConflict c pod true EvictionsRetrySteps 0 false zdb).Err with _ | e <;>
      simp [handler, hop, hsub, hdry, hpod, hign, hready, hzdb, hnew, hb, herr]

/-- A request whose first budget check is refused as Forbidden: the handler
issues no status update, denies the eviction outside dry-run mode and allows
it in dry-run mode. -/
theorem handler_first_forbidden (c : Client) (req : Request) (dry : Bool) (pod : Pod)
    (zdb : ZoneDisruptionBudget)
    (hop : req.Operation = Operation.Create) (hsub : req.SubResource = "eviction")
    (hdry : getDryRunOption req = Except.ok dry)
    (hpod : c.GetPod req.Namespace req.Name = Except.ok pod)
    (hign : canIgnoreZDB pod = false) (hready : IsPodReady pod = true)
    (hzdb : GetZdbForPod c pod = Except.ok (some zdb))
    (hnew : isDisruptedPod pod.Name zdb = false)
    (hw : (checkAndDecrement c 0 pod zdb (dry || zdb.Spec.DryRun)).Write = none)
    (hf : (checkAndDecrement c 0 pod zdb (dry || zdb.Spec.DryRun)).Err.map ApiError.Reason =
      some StatusReason.Forbidden) :
    (handler c req).Writes = [] ∧
      ((dry || zdb.Spec.DryRun) = false →
        (handler c req).Response = Denied ("denying pod eviction for " ++ pod.Name) ∧
          (handler c req).Response.Allowed = false ∧
          (handler c req).Reason = "DeniedByZdb") ∧
      ((dry || zdb.Spec.DryRun) = true →
        (handler c req).Response = Allowed "" ∧ (handler c req).Response.Allowed = true ∧
          (handler c req).Reason = "DryRun") := by
  have hloop := RetryOnConflict_first_no_write c pod (dry || zdb.Spec.DryRun) 19 0 zdb hw
    (forbidden_not_conflict _ hf)
  have hb := handler_budget_checked c req dry pod zdb hop hsub hdry hpod hign hready hzdb hnew
  have h20 : EvictionsRetrySteps = 19 + 1 := rfl
  rw [h20, hloop] at hb
  have hne : (checkAndDecrement c 0 pod zdb (dry || zdb.Spec.DryRun)).Err ≠ none := by
    intro hnone
    rw [hnone] at hf
    simp at hf
  obtain ⟨hwr, _, hden⟩ := hb
  refine ⟨hwr, fun hfalse => ?_, fun htrue => ?_⟩
  · have := (hden hne).2 hfalse
    exact ⟨this.1, by rw [this.1]; rfl, this.2⟩
  · have := (hden hne).1 htrue
    exact ⟨this.1, by rw [this.1]; rfl, this.2⟩

/-- A Running pod without a deletion timestamp is not skipped by
`canIgnoreZDB`. -/
theorem canIgnoreZDB_running (pod : Pod) (hrun : pod.Phase = PodPhase.Running)
    (hterm : pod.DeletionTimestamp = none) : canIgnoreZDB pod = false := by
  simp [canIgnoreZDB, hrun, hterm]

/-- Claim C15: every status update that the handler issues sends a
`disruptionsAllowed` of the zone of the pod that is exactly one below a
positive counter it read, hence not negative; `checkAndDecrement` refuses a
ZDB whose counter for the zone of the pod is negative as Forbidden, without a
write and without changing the object; and the handler then issues no status
update and, outside dry-run mode, denies the eviction. -/
theorem handler_never_writes_negative_budget :
    (∀ (c : Client) (req : Request) (pod : Pod) (w : StatusWrite),
      c.GetPod req.Namespace req.Name = Except.ok pod →
      w ∈ (handler c req).Writes →
      ∃ (a : Nat) (zone : String) (cur : ZoneDisruptionBudget),
        getZone c a pod = Except.ok zone ∧
        0 < getInt cur.Status.DisruptionsAllowed zone ∧
        w.Object = recordDisruption cur zone pod.Name (c.Now a) ∧
        getInt w.Object.Status.DisruptionsAllowed zone =
          getInt cur.Status.DisruptionsAllowed zone - 1 ∧
        0 ≤ getInt w.Object.Status.DisruptionsAllowed zone) ∧
    (∀ (c : Client) (attempt : Nat) (pod : Pod) (zdb : ZoneDisruptionBudget) (dryRun : Bool)
        (zone : String),
      getZone c attempt pod = Except.ok zone →
      getInt zdb.Status.DisruptionsAllowed zone < 0 →
      (checkAndDecrement c attempt pod zdb dryRun).Err.map ApiError.Reason =
          some StatusReason.Forbidden ∧
        (checkAndDecrement c attempt pod zdb dryRun).Write = none ∧
        (checkAndDecrement c attempt pod zdb dryRun).Zdb = zdb ∧
        (zdb.Generation ≤ zdb.Status.ObservedGeneration →
          (checkAndDecrement c attempt pod zdb dryRun).Err =
            some (NewForbidden zdb.Name "zdb disruptions allowed is negative"))) ∧
    (∀ (c : Client) (req : Request) (dry : Bool) (pod : Pod) (zdb : ZoneDisruptionBudget)
        (zone : String),
      req.Operation = Operation.Create → req.SubResource = "eviction" →
      getDryRunOption req = Except.ok dry →
      c.GetPod req.Namespace req.Name = Except.ok pod →
      pod.Phase = PodPhase.Running → IsPodReady pod = true → pod.DeletionTimestamp = none →
      GetZdbForPod c pod = Except.ok (some zdb) →
      isDisruptedPod pod.Name zdb = false →
      getZone c 0 pod = Except.ok zone →
      getInt zdb.Status.DisruptionsAllowed zone < 0 →
      (handler c req).Writes = [] ∧
        ((dry || zdb.Spec.DryRun) = false →
          (handler c req).Response = Denied ("denying pod eviction for " ++ pod.Name) ∧
            (handler c req).Response.Allowed = false ∧
            (handler c req).Reason = "DeniedByZdb")) := by
  have hcheck : ∀ (c : Client) (attempt : Nat) (pod : Pod) (zdb : ZoneDisruptionBudget)
      (dryRun : Bool) (zone : String),
      getZone c attempt pod = Except.ok zone →
      getInt zdb.Status.DisruptionsAllowed zone < 0 →
      (checkAndDecrement c attempt pod zdb dryRun).Err.map ApiError.Reason =
          some StatusReason.Forbidden ∧
        (checkAndDecrement c attempt pod zdb dryRun).Write = none ∧
        (checkAndDecrement c attempt pod zdb dryRun).Zdb = zdb ∧
        (zdb.Generation ≤ zdb.Status.ObservedGeneration →
          (checkAndDecrement c attempt pod zdb dryRun).Err =
            some (NewForbidden zdb.Name "zdb disruptions allowed is negative")) := by
    intro c attempt pod zdb dryRun zone hz hneg
    unfold checkAndDecrement
    by_cases hgen : zdb.Status.ObservedGeneration < zdb.Generation
    · rw [if_pos hgen]
      exact ⟨rfl, rfl, rfl, fun h => absurd hgen (not_lt.mpr h)⟩
    · rw [if_neg hgen]
      simp only [hz]
      rw [if_pos hneg]
      exact ⟨rfl, rfl, rfl, fun _ => rfl⟩
  refine ⟨?_, hcheck, ?_⟩
  · intro c req pod w hpod hw
    rcases handler_writes_cases c req with hnil | ⟨pod1, zdb, dry, hpod1, _, _, _, heq, _⟩
    · rw [hnil] at hw
      simp at hw
    · rw [hpod] at hpod1
      cases hpod1
      rw [heq] at hw
      obtain ⟨_, a, cur, _, _, ⟨zone, hz, hpos, _, _, hobj, _⟩, _⟩ :=
        (RetryOnConflict_writes_shape c pod (dry || zdb.Spec.DryRun) EvictionsRetrySteps
          0 false zdb).1 w hw
      have heff := (recordDisruption_effect cur zone pod.Name (c.Now a)).1
      rw [← hobj] at heff
      exact ⟨a, zone, cur, hz, hpos, hobj, heff, by omega⟩
  · intro c req dry pod zdb zone hop hsub hdry hpod hrun hready hterm hzdb hnew hz hneg
    have hc := hcheck c 0 pod zdb (dry || zdb.Spec.DryRun) zone hz hneg
    have hfirst := handler_first_forbidden c req dry pod zdb hop hsub hdry hpod
      (canIgnoreZDB_running pod hrun hterm) hready hzdb hnew hc.2.1 hc.1
    exact ⟨hfirst.1, hfirst.2.1⟩

/-- Witness of claim C15: a ZDB whose counter for `az-1` reads -1. -/
theorem handler_never_writes_negative_budget_witness :
    (handler (fixtureClient (fixtureEvictionPod "test-negative" "test7")
        (fixtureEvictionNode "test-negative") (fixtureZdb "test7" 1 false [("az-1", -1)] []))
        (fixtureEviction "test-negative" false)).Writes = [] ∧
      (handler (fixtureClient (fixtureEvictionPod "test-negative" "test7")
        (fixtureEvictionNode "test-negative") (fixtureZdb "test7" 1 false [("az-1", -1)] []))
        (fixtureEviction "test-negative" false)).Response.Allowed = false :=
  have h := handler_never_writes_negative_budget.2.2
    (fixtureClient (fixtureEvictionPod "test-negative" "test7")
      (fixtureEvictionNode "test-negative") (fixtureZdb "test7" 1 false [("az-1", -1)] []))
    (fixtureEviction "test-negative" false) false (fixtureEvictionPod "test-negative" "test7")
    (fixtureZdb "test7" 1 false [("az-1", -1)] []) "az-1"
    rfl rfl rfl rfl rfl (by decide) rfl (by decide) (by decide) (by decide) (by decide)
  ⟨h.1, (h.2 rfl).2.1⟩

/-- Claim C16: `checkAndDecrement` answers a ZDB whose observed generation is
below its generation with the Forbidden error of the stale status, whatever
the client, the pod, the budget and the dry-run flag are, without a write and
without changing the object; and the handler then issues no status update,
denies the eviction when the effective dry-run flag is false and allows it
when the flag is true. -/
theorem checkAndDecrement_stale_generation :
    (∀ (c : Client) (attempt : Nat) (pod : Pod) (zdb : ZoneDisruptionBudget) (dryRun : Bool),
      zdb.Status.ObservedGeneration < zdb.Generation →
      checkAndDecrement c attempt pod zdb dryRun =
        { Err := some (NewForbidden zdb.Name
            "observed generation is not equals to zdb generation"),
          Zdb := zdb, Write := none }) ∧
    (∀ (c : Client) (req : Request) (dry : Bool) (pod : Pod) (zdb : ZoneDisruptionBudget),
      req.Operation = Operation.Create → req.SubResource = "eviction" →
      getDryRunOption req = Except.ok dry →
      c.GetPod req.Namespace req.Name = Except.ok pod →
      pod.Phase = PodPhase.Running → IsPodReady pod = true → pod.DeletionTimestamp = none →
      GetZdbForPod c pod = Except.ok (some zdb) →
      isDisruptedPod pod.Name zdb = false →
      zdb.Status.ObservedGeneration < zdb.Generation →
      (handler c req).Writes = [] ∧
        ((dry || zdb.Spec.DryRun) = false →
          (handler c req).Response = Denied ("denying pod eviction for " ++ pod.Name) ∧
            (handler c req).Response.Allowed = false ∧
            (handler c req).Reason = "DeniedByZdb") ∧
        ((dry || zdb.Spec.DryRun) = true →
          (handler c req).Response = Allowed "" ∧ (handler c req).Response.Allowed = true ∧
            (handler c req).Reason = "DryRun")) := by
  have hcheck : ∀ (c : Client) (attempt : Nat) (pod : Pod) (zdb : ZoneDisruptionBudget)
      (dryRun : Bool), zdb.Status.ObservedGeneration < zdb.Generation →
      checkAndDecrement c attempt pod zdb dryRun =
        { Err := some (NewForbidden zdb.Name
            "observed generation is not equals to zdb generation"),
          Zdb := zdb, Write := none } := by
    intro c attempt pod zdb dryRun hstale
    unfold checkAndDecrement
    rw [if_pos hstale]
  refine ⟨hcheck, ?_⟩
  intro c req dry pod zdb hop hsub hdry hpod hrun hready hterm hzdb hnew hstale
  have hc := hcheck c 0 pod zdb (dry || zdb.Spec.DryRun) hstale
  exact handler_first_forbidden c req dry pod zdb hop hsub hdry hpod
    (canIgnoreZDB_running pod hrun hterm) hready hzdb hnew (by rw [hc]) (by rw [hc]; rfl)

/-- Witness of claim C16: a stale ZDB with a budget of 1 in `az-1`. -/
theorem checkAndDecrement_stale_generation_witness :
    (handler (fixtureClient (fixtureEvictionPod "test-stale" "test8")
        (fixtureEvictionNode "test-stale") (fixtureStaleZdb "test8" [("az-1", 1)]))
        (fixtureEviction "test-stale" false)).Writes = [] ∧
      (handler (fixtureClient (fixtureEvictionPod "test-stale" "test8")
        (fixtureEvictionNode "test-stale") (fixtureStaleZdb "test8" [("az-1", 1)]))
        (fixtureEviction "test-stale" false)).Response.Allowed = false :=
  have h := checkAndDecrement_stale_generation.2
    (fixtureClient (fixtureEvictionPod "test-stale" "test8")
      (fixtureEvictionNode "test-stale") (fixtureStaleZdb "test8" [("az-1", 1)]))
    (fixtureEviction "test-stale" false) false (fixtureEvictionPod "test-stale" "test8")
    (fixtureStaleZdb "test8" [("az-1", 1)])
    rfl rfl rfl rfl rfl (by decide) rfl (by decide) (by decide) (by decide)
  ⟨h.1, (h.2.1 rfl).2.1⟩

/-- Claim C17: a CREATE eviction request, with a decodable payload, for a pod
whose phase is Succeeded, Failed or Pending, or that carries a deletion
timestamp, or that is not Ready, is allowed without a status update, and the
answer is the same whatever the client holds besides the pod: no ZDB is
looked up. -/
theorem handler_allows_unaccounted_pod (c : Client) (req : Request) (dry : Bool) (pod : Pod)
    (hop : req.Operation = Operation.Create) (hsub : req.SubResource = "eviction")
    (hdry : getDryRunOption req = Except.ok dry)
    (hpod : c.GetPod req.Namespace req.Name = Except.ok pod)
    (hbad : pod.Phase = PodPhase.Succeeded ∨ pod.Phase = PodPhase.Failed ∨
      pod.Phase = PodPhase.Pending ∨ pod.DeletionTimestamp ≠ none ∨ IsPodReady pod = false) :
    (handler c req).Response = Allowed "" ∧
      (handler c req).Response.Allowed = true ∧
      (handler c req).Writes = [] ∧
      ((handler c req).Reason = "canIgnoreZdb" ∨ (handler c req).Reason = "NotReadyPod") ∧
      (∀ c2 : Client, c2.GetPod req.Namespace req.Name = Except.ok pod →
        handler c2 req = handler c req) := by
  have hskip : canIgnoreZDB pod = true ∨ (canIgnoreZDB pod = false ∧ IsPodReady pod = false) := by
    by_cases hign : canIgnoreZDB pod = true
    · exact Or.inl hign
    · right
      refine ⟨by simpa using hign, ?_⟩
      rcases hbad with h | h | h | h | h
      · exact absurd (by simp [canIgnoreZDB, h]) hign
      · exact absurd (by simp [canIgnoreZDB, h]) hign
      · exact absurd (by simp [canIgnoreZDB, h]) hign
      · refine absurd ?_ hign
        rcases hd : pod.DeletionTimestamp with _ | t
        · exact absurd hd h
        · simp [canIgnoreZDB, hd]
      · exact h
  rcases hskip with hign | ⟨hign, hnr⟩
  · refine ⟨?_, ?_, ?_, ?_, ?_⟩
    · simp [handler, hop, hsub, hdry, hpod, hign]
    · simp [handler, hop, hsub, hdry, hpod, hign, Allowed, ValidationResponse]
    · simp [handler, hop, hsub, hdry, hpod, hign]
    · left
      simp [handler, hop, hsub, hdry, hpod, hign]
    · intro c2 hpod2
      simp [handler, hop, hsub, hdry, hpod, hpod2, hign]
  · refine ⟨?_, ?_, ?_, ?_, ?_⟩
    · simp [handler, hop, hsub, hdry, hpod, hign, hnr]
    · simp [handler, hop, hsub, hdry, hpod, hign, hnr, Allowed, ValidationResponse]
    · simp [handler, hop, hsub, hdry, hpod, hign, hnr]
    · right
      simp [handler, hop, hsub, hdry, hpod, hign, hnr]
    · intro c2 hpod2
      simp [handler, hop, hsub, hdry, hpod, hpod2, hign, hnr]

/-- Witness of claim C17 on the test `Should allow evictions if the pod is
not running`: a Pending pod under a ZDB with a budget of 0. -/
theorem handler_allows_unaccounted_pod_witness :
    (handler (fixtureClient (fixturePodInPhase "test-not-running" "test3" PodPhase.Pending
        "PodScheduled") (fixtureEvictionNode "test-not-running")
        (fixtureZdb "test3" 1 false [("az-1", 0)] []))
        (fixtureEviction "test-not-running" false)).Response.Allowed = true ∧
      (handler (fixtureClient (fixturePodInPhase "test-not-running" "test3" PodPhase.Pending
        "PodScheduled") (fixtureEvictionNode "test-not-running")
        (fixtureZdb "test3" 1 false [("az-1", 0)] []))
        (fixtureEviction "test-not-running" false)).Writes = [] :=
  have h := handler_allows_unaccounted_pod
    (fixtureClient (fixturePodInPhase "test-not-running" "test3" PodPhase.Pending
      "PodScheduled") (fixtureEvictionNode "test-not-running")
      (fixtureZdb "test3" 1 false [("az-1", 0)] []))
    (fixtureEviction "test-not-running" false) false
    (fixturePodInPhase "test-not-running" "test3" PodPhase.Pending "PodScheduled")
    rfl rfl rfl rfl (Or.inr (Or.inr (Or.inl rfl)))
  ⟨h.2.1, h.2.2.1⟩

/-- No ZDB of a list is matched when none of their selectors matches the
labels of the pod. -/
theorem matchedZdbs_eq_nil (pod : Pod) (items : List ZoneDisruptionBudget)
    (hno : ∀ zdb ∈ items, ∀ sel, LabelSelectorAsSelector zdb.Spec.Selector = Except.ok sel →
      sel.Matches pod.Labels = false) :
    matchedZdbs pod items = [] := by
  unfold matchedZdbs
  rw [List.filter_eq_nil_iff]
  intro zdb hmem
  rcases hsel : LabelSelectorAsSelector zdb.Spec.Selector with e | sel
  · simp
  · have := hno zdb hmem sel hsel
    simp [this]

/-- Claim C18: a CREATE eviction request, with a decodable payload, for a
Running, Ready, non-terminating pod is allowed with the reason `NoZdb` and
without a status update when the pod carries no label, or when the ZDBs of
its namespace are listed and none of their selectors matches the labels of
the pod. -/
theorem handler_allows_without_zdb (c : Client) (req : Request) (dry : Bool) (pod : Pod)
    (hop : req.Operation = Operation.Create) (hsub : req.SubResource = "eviction")
    (hdry : getDryRunOption req = Except.ok dry)
    (hpod : c.GetPod req.Namespace req.Name = Except.ok pod)
    (hrun : pod.Phase = PodPhase.Running) (hready : IsPodReady pod = true)
    (hterm : pod.DeletionTimestamp = none)
    (hno : GoMap.len pod.Labels = 0 ∨
      ∃ items, c.ListZdb pod.Namespace = Except.ok items ∧
        ∀ zdb ∈ items, ∀ sel, LabelSelectorAsSelector zdb.Spec.Selector = Except.ok sel →
          sel.Matches pod.Labels = false) :
    (handler c req).Response = Allowed "" ∧
      (handler c req).Response.Allowed = true ∧
      (handler c req).Reason = "NoZdb" ∧
      (handler c req).Writes = [] := by
  have hign := canIgnoreZDB_running pod hrun hterm
  have hzdb : GetZdbForPod c pod = Except.ok none := by
    unfold GetZdbForPod
    by_cases hlen : GoMap.len pod.Labels = 0
    · rw [if_pos hlen]
    · rw [if_neg hlen]
      rcases hno with h0 | ⟨items, hlist, hnone⟩
      · exact absurd h0 hlen
      · rw [hlist]
        simp [matchedZdbs_eq_nil pod items hnone]
  simp [handler, hop, hsub, hdry, hpod, hign, hready, hzdb, Allowed, ValidationResponse]

/-- Witness of claim C18 on the test `When there is no zdb associated to the
pod`: the pod carries the label `any`, the only ZDB selects `test1`. -/
theorem handler_allows_without_zdb_witness :
    (handler (fixtureClient (fixtureEvictionPod "test-no-zdb" "any")
        (fixtureEvictionNode "test-no-zdb") (fixtureZdb "test1" 1 false [("az-1", 0)] []))
        (fixtureEviction "test-no-zdb" false)).Response = Allowed "" ∧
      (handler (fixtureClient (fixtureEvictionPod "test-no-zdb" "any")
        (fixtureEvictionNode "test-no-zdb") (fixtureZdb "test1" 1 false [("az-1", 0)] []))
        (fixtureEviction "test-no-zdb" false)).Response.Allowed = true ∧
      (handler (fixtureClient (fixtureEvictionPod "test-no-zdb" "any")
        (fixtureEvictionNode "test-no-zdb") (fixtureZdb "test1" 1 false [("az-1", 0)] []))
        (fixtureEviction "test-no-zdb" false)).Reason = "NoZdb" ∧
      (handler (fixtureClient (fixtureEvictionPod "test-no-zdb" "any")
        (fixtureEvictionNode "test-no-zdb") (fixtureZdb "test1" 1 false [("az-1", 0)] []))
        (fixtureEviction "test-no-zdb" false)).Writes = [] :=
  handler_allows_without_zdb
    (fixtureClient (fixtureEvictionPod "test-no-zdb" "any")
      (fixtureEvictionNode "test-no-zdb") (fixtureZdb "test1" 1 false [("az-1", 0)] []))
    (fixtureEviction "test-no-zdb" false) false (fixtureEvictionPod "test-no-zdb" "any")
    rfl rfl rfl rfl rfl (by decide) rfl
    (Or.inr ⟨[fixtureZdb "test1" 1 false [("az-1", 0)] []], rfl, fun zdb hz sel hsel => by
      rw [List.mem_singleton] at hz
      subst hz
      cases hsel
      rfl⟩)

/-- The zone lookup fails when the node of the pod cannot be read or carries
no zone label. -/
theorem getZone_error (c : Client) (attempt : Nat) (pod : Pod)
    (hnode : (∃ e, c.GetNode attempt pod.NodeName = Except.error e) ∨
      ∃ node, c.GetNode attempt pod.NodeName = Except.ok node ∧
        GoMap.get? node.Labels LabelTopologyZone = none) :
    ∃ e, getZone c attempt pod = Except.error e := by
  unfold getZone
  rcases hnode with ⟨e, he⟩ | ⟨node, hn, hl⟩
  · exact ⟨e, by rw [he]⟩
  · rw [hn]
    simp only [hl]
    exact ⟨_, rfl⟩

/-- Claim C19: for an eviction that reaches the budget check and whose pod
sits on a node that cannot be read or that carries no zone label,
`checkAndDecrement` returns a Forbidden error without a write and without
changing the ZDB object, in whatever attempt the lookup fails; when it fails
in the first attempt the handler issues no status update, denies the eviction
when the effective dry-run flag is false and allows it when the flag is
true. -/
theorem handler_denies_unknown_zone :
    (∀ (c : Client) (attempt : Nat) (pod : Pod) (zdb : ZoneDisruptionBudget) (dryRun : Bool),
      ((∃ e, c.GetNode attempt pod.NodeName = Except.error e) ∨
        ∃ node, c.GetNode attempt pod.NodeName = Except.ok node ∧
          GoMap.get? node.Labels LabelTopologyZone = none) →
      (checkAndDecrement c attempt pod zdb dryRun).Err.map ApiError.Reason =
          some StatusReason.Forbidden ∧
        (checkAndDecrement c attempt pod zdb dryRun).Write = none ∧
        (checkAndDecrement c attempt pod zdb dryRun).Zdb = zdb) ∧
    (∀ (c : Client) (req : Request) (dry : Bool) (pod : Pod) (zdb : ZoneDisruptionBudget),
      req.Operation = Operation.Create → req.SubResource = "eviction" →
      getDryRunOption req = Except.ok dry →
      c.GetPod req.Namespace req.Name = Except.ok pod →
      pod.Phase = PodPhase.Running → IsPodReady pod = true → pod.DeletionTimestamp = none →
      GetZdbForPod c pod = Except.ok (some zdb) →
      isDisruptedPod pod.Name zdb = false →
      ((∃ e, c.GetNode 0 pod.NodeName = Except.error e) ∨
        ∃ node, c.GetNode 0 pod.NodeName = Except.ok node ∧
          GoMap.get? node.Labels LabelTopologyZone = none) →
      (handler c req).Writes = [] ∧
        ((dry || zdb.Spec.DryRun) = false →
          (handler c req).Response = Denied ("denying pod eviction for " ++ pod.Name) ∧
            (handler c req).Response.Allowed = false ∧
            (handler c req).Reason = "DeniedByZdb") ∧
        ((dry || zdb.Spec.DryRun) = true →
          (handler c req).Response = Allowed "" ∧ (handler c req).Response.Allowed = true ∧
            (handler c req).Reason = "DryRun")) := by
  have hcheck : ∀ (c : Client) (attempt : Nat) (pod : Pod) (zdb : ZoneDisruptionBudget)
      (dryRun : Bool),
      ((∃ e, c.GetNode attempt pod.NodeName = Except.error e) ∨
        ∃ node, c.GetNode attempt pod.NodeName = Except.ok node ∧
          GoMap.get? node.Labels LabelTopologyZone = none) →
      (checkAndDecrement c attempt pod zdb dryRun).Err.map ApiError.Reason =
          some StatusReason.Forbidden ∧
        (checkAndDecrement c attempt pod zdb dryRun).Write = none ∧
        (checkAndDecrement c attempt pod zdb dryRun).Zdb = zdb := by
    intro c attempt pod zdb dryRun hnode
    obtain ⟨e, he⟩ := getZone_error c attempt pod hnode
    unfold checkAndDecrement
    by_cases hgen : zdb.Status.ObservedGeneration < zdb.Generation
    · rw [if_pos hgen]
      exact ⟨rfl, rfl, rfl⟩
    · rw [if_neg hgen]
      simp [he, NewForbidden]
  refine ⟨hcheck, ?_⟩
  intro c req dry pod zdb hop hsub hdry hpod hrun hready hterm hzdb hnew hnode
  have hc := hcheck c 0 pod zdb (dry || zdb.Spec.DryRun) hnode
  exact handler_first_forbidden c req dry pod zdb hop hsub hdry hpod
    (canIgnoreZDB_running pod hrun hterm) hready hzdb hnew hc.2.1 hc.1

/-- Witness of claim C19: the node of the pod carries no zone label, the
budget of `az-1` is 1. -/
theorem handler_denies_unknown_zone_witness :
    (handler (fixtureClient (fixtureEvictionPod "test-no-zone" "test9")
        (fixtureUnlabelledNode "test-no-zone") (fixtureZdb "test9" 1 false [("az-1", 1)] []))
        (fixtureEviction "test-no-zone" false)).Writes = [] ∧
      (handler (fixtureClient (fixtureEvictionPod "test-no-zone" "test9")
        (fixtureUnlabelledNode "test-no-zone") (fixtureZdb "test9" 1 false [("az-1", 1)] []))
        (fixtureEviction "test-no-zone" false)).Response.Allowed = false :=
  have h := handler_denies_unknown_zone.2
    (fixtureClient (fixtureEvictionPod "test-no-zone" "test9")
      (fixtureUnlabelledNode "test-no-zone") (fixtureZdb "test9" 1 false [("az-1", 1)] []))
    (fixtureEviction "test-no-zone" false) false (fixtureEvictionPod "test-no-zone" "test9")
    (fixtureZdb "test9" 1 false [("az-1", 1)] [])
    rfl rfl rfl rfl rfl (by decide) rfl (by decide) (by decide)
    (Or.inr ⟨fixtureUnlabelledNode "test-no-zone", by decide, by decide⟩)
  ⟨h.1, (h.2.1 rfl).2.1⟩

/-! ## The retry loop of the eviction webhook -/

/-- Outside dry-run mode an attempt that returns no error has issued a status
update that was persisted. -/
theorem attemptOnce_success_writes (c : Client) (pod : Pod) (attempt : Nat) (refresh : Bool)
    (zdb : ZoneDisruptionBudget)
    (herr : (attemptOnce c pod false attempt refresh zdb).1 = none) :
    ∃ w, (attemptOnce c pod false attempt refresh zdb).2.2.2 = some w ∧ w.Outcome = none := by
  have key : ∀ cur, (checkAndDecrement c attempt pod cur false).Err = none →
      ∃ w, (checkAndDecrement c attempt pod cur false).Write = some w ∧ w.Outcome = none := by
    intro cur hnone
    rcases checkAndDecrement_cases c attempt pod cur false with
      ⟨_, _, hf | ⟨_, hd⟩⟩ | ⟨_, _, _, zone, _, _, heq⟩
    · rw [hnone] at hf
      simp at hf
    · exact absurd hd (by decide)
    · rw [heq] at hnone ⊢
      exact ⟨_, rfl, hnone⟩
  cases refresh with
  | false =>
      rw [attemptOnce_no_refresh] at herr ⊢
      exact key zdb herr
  | true =>
      rcases hget : c.GetZdb attempt zdb.Namespace zdb.Name with e | cur
      · rw [attemptOnce_refresh_error c pod false attempt zdb e hget] at herr
        simp at herr
      · rw [attemptOnce_refresh_ok c pod false attempt zdb cur hget] at herr ⊢
        exact key cur herr

/-- The retry loop with `steps` steps: it issues at most `steps` status
updates; every update that is followed by another one failed with a conflict;
and outside dry-run mode a loop with at least one step that ends without
error has persisted an update. -/
theorem RetryOnConflict_loop_shape (c : Client) (pod : Pod) (dryRun : Bool) (steps : Nat) :
    ∀ (attempt : Nat) (refresh : Bool) (zdb : ZoneDisruptionBudget),
      (RetryOnConflict c pod dryRun steps attempt refresh zdb).Writes.length ≤ steps ∧
      (∀ ws w vs, (RetryOnConflict c pod dryRun steps attempt refresh zdb).Writes = ws ++ w :: vs →
        vs ≠ [] → ∃ e, w.Outcome = some e ∧ IsConflict e = true) ∧
      (dryRun = false → steps ≠ 0 →
        (RetryOnConflict c pod dryRun steps attempt refresh zdb).Err = none →
        persisted (RetryOnConflict c pod dryRun steps attempt refresh zdb).Writes ≠ []) := by
  induction steps with
  | zero =>
      intro attempt refresh zdb
      simp [RetryOnConflict]
  | succ n ih =>
      intro attempt refresh zdb
      have hshape := attemptOnce_write_shape c pod dryRun attempt refresh zdb
      have hsucc : dryRun = false → (attemptOnce c pod dryRun attempt refresh zdb).1 = none →
          ∃ w, (attemptOnce c pod dryRun attempt refresh zdb).2.2.2 = some w ∧
            w.Outcome = none := by
        intro hd
        subst hd
        exact attemptOnce_success_writes c pod attempt refresh zdb
      unfold RetryOnConflict
      rcases hat : attemptOnce c pod dryRun attempt refresh zdb with ⟨err, zdb1, refresh1, wr⟩
      rw [hat] at hshape hsucc
      simp only at hshape hsucc
      have hlen : wr.toList.length ≤ 1 := by
        cases wr <;> simp
      have hsingle : ∀ ws w vs, wr.toList = ws ++ w :: vs → vs ≠ [] →
          ∃ e, w.Outcome = some e ∧ IsConflict e = true := by
        intro ws w vs heq hvs
        have := congrArg List.length heq
        simp at this
        cases vs with
        | nil => exact absurd rfl hvs
        | cons v vs1 =>
            simp at this
            omega
      cases err with
      | none =>
          refine ⟨by simp only; omega, hsingle, ?_⟩
          intro hd _ _
          obtain ⟨w, hw, hout⟩ := hsucc hd rfl
          simp [hw, persisted, hout]
      | some e =>
          simp only
          by_cases hc : IsConflict e = true
          · rw [if_pos hc]
            by_cases hn : n = 0
            · rw [if_pos hn]
              refine ⟨by simp only; omega, hsingle, ?_⟩
              intro _ _ h
              simp at h
            · rw [if_neg hn]
              obtain ⟨ih1, ih2, ih3⟩ := ih (attempt + 1) refresh1 zdb1
              refine ⟨?_, ?_, ?_⟩
              · simp only [List.length_append]
                omega
              · intro ws w vs heq hvs
                cases wr with
                | none =>
                    simp only [Option.toList, List.nil_append] at heq
                    exact ih2 ws w vs heq hvs
                | some y =>
                    simp only [Option.toList, List.singleton_append] at heq
                    cases ws with
                    | nil =>
                        simp only [List.nil_append, List.cons.injEq] at heq
                        obtain ⟨hy, _⟩ := heq
                        subst hy
                        exact ⟨e, (hshape y rfl).2.1, hc⟩
                    | cons x ws1 =>
                        simp only [List.cons_append, List.cons.injEq] at heq
                        exact ih2 ws1 w vs heq.2 hvs
              · intro hd _ herr
                have := ih3 hd hn herr
                intro hnil
                apply this
                rw [persisted_append] at hnil
                exact (List.append_eq_nil.mp hnil).2
          · rw [if_neg hc]
            refine ⟨by simp only; omega, hsingle, ?_⟩
            intro _ _ h
            simp at h

/-- The status updates of the retry loop after the one of its first attempt:
each was issued by a later attempt on a ZDB that this attempt had read from
the API server. -/
theorem RetryOnConflict_writes_tail (c : Client) (pod : Pod) (dryRun : Bool)
    (steps attempt : Nat) (refresh : Bool) (zdb : ZoneDisruptionBudget) :
    ∀ ws w vs, (RetryOnConflict c pod dryRun steps attempt refresh zdb).Writes = ws ++ w :: vs →
      ws ≠ [] →
      ∃ (a : Nat) (cur : ZoneDisruptionBudget) (ns nm : String),
        attempt < a ∧ a < attempt + steps ∧ c.GetZdb a ns nm = Except.ok cur ∧
          WriteOf c pod a cur w := by
  cases steps with
  | zero =>
      intro ws w vs heq
      simp [RetryOnConflict] at heq
  | succ n =>
      intro ws w vs heq hws
      have hrefresh := attemptOnce_refresh_after_error c pod dryRun attempt refresh zdb
      unfold RetryOnConflict at heq
      rcases hat : attemptOnce c pod dryRun attempt refresh zdb with ⟨err, zdb1, refresh1, wr⟩
      rw [hat] at heq hrefresh
      simp only at heq hrefresh
      have hshort : ∀ l : List StatusWrite, l.length ≤ 1 → l = ws ++ w :: vs → False := by
        intro l hl hl2
        have := congrArg List.length hl2
        cases ws with
        | nil => exact hws rfl
        | cons x ws1 =>
            simp at this
            omega
      have hlen : wr.toList.length ≤ 1 := by
        cases wr <;> simp
      cases err with
      | none => exact absurd heq (fun h => hshort _ hlen h)
      | some e =>
          simp only at heq
          by_cases hc : IsConflict e = true
          · rw [if_pos hc] at heq
            by_cases hn : n = 0
            · rw [if_pos hn] at heq
              exact absurd heq (fun h => hshort _ hlen h)
            · rw [if_neg hn] at heq
              simp only at heq
              have hr : refresh1 = true := hrefresh e rfl
              have hmem : w ∈ (RetryOnConflict c pod dryRun n (attempt + 1) refresh1 zdb1).Writes := by
                cases wr with
                | none =>
                    simp only [Option.toList, List.nil_append] at heq
                    rw [heq]
                    simp
                | some y =>
                    simp only [Option.toList, List.singleton_append] at heq
                    cases ws with
                    | nil => exact absurd rfl hws
                    | cons x ws1 =>
                        simp only [List.cons_append, List.cons.injEq] at heq
                        rw [heq.2]
                        simp
              obtain ⟨_, a, cur, ha1, ha2, hwo, hor⟩ :=
                (RetryOnConflict_writes_shape c pod dryRun n (attempt + 1) refresh1 zdb1).1 w hmem
              rcases hor with ⟨_, h2, _⟩ | ⟨ns, nm, h1⟩
              · rw [hr] at h2
                exact absurd h2 (by decide)
              · exact ⟨a, cur, ns, nm, by omega, by omega, h1, hwo⟩
          · rw [if_neg hc] at heq
            exact absurd heq (fun h => hshort _ hlen h)

/-- The status updates of a list of `checkAndDecrement` calls. -/
theorem filterMap_call_append (c : Client) (pod : Pod) (dryRun : Bool)
    (xs ys : List (Nat × ZoneDisruptionBudget)) :
    (xs ++ ys).filterMap (fun ac => (checkAndDecrement c ac.1 pod ac.2 dryRun).Write) =
      xs.filterMap (fun ac => (checkAndDecrement c ac.1 pod ac.2 dryRun).Write) ++
        ys.filterMap (fun ac => (checkAndDecrement c ac.1 pod ac.2 dryRun).Write) := by
  simp

/-- The calls of `checkAndDecrement` made by the retry loop with `steps`
steps: there are at most `steps` of them, in attempts numbered from `attempt`
on; the status updates of the loop are exactly the updates that these calls
issue; and each call is passed the ZDB given to the loop, when the loop starts
without refresh and the call is made by its first attempt, or a ZDB that the
attempt has read from the API server. -/
theorem checkCalls_shape (c : Client) (pod : Pod) (dryRun : Bool) (steps : Nat) :
    ∀ (attempt : Nat) (refresh : Bool) (zdb : ZoneDisruptionBudget),
      (checkCalls c pod dryRun steps attempt refresh zdb).length ≤ steps ∧
      (RetryOnConflict c pod dryRun steps attempt refresh zdb).Writes =
        (checkCalls c pod dryRun steps attempt refresh zdb).filterMap
          (fun ac => (checkAndDecrement c ac.1 pod ac.2 dryRun).Write) ∧
      (∀ ac ∈ checkCalls c pod dryRun steps attempt refresh zdb,
        attempt ≤ ac.1 ∧ ac.1 < attempt + steps ∧
          ((ac.1 = attempt ∧ refresh = false ∧ ac.2 = zdb) ∨
            ∃ ns nm, c.GetZdb ac.1 ns nm = Except.ok ac.2)) := by
  induction steps with
  | zero =>
      intro attempt refresh zdb
      simp [RetryOnConflict, checkCalls]
  | succ n ih =>
      intro attempt refresh zdb
      -- the call of this attempt and the update it issues
      have hcall : ∃ call : List (Nat × ZoneDisruptionBudget),
          (match (if refresh then c.GetZdb attempt zdb.Namespace zdb.Name else Except.ok zdb) with
            | Except.error _ => []
            | Except.ok cur => [(attempt, cur)]) = call ∧
          call.length ≤ 1 ∧
          (attemptOnce c pod dryRun attempt refresh zdb).2.2.2.toList =
            call.filterMap (fun ac => (checkAndDecrement c ac.1 pod ac.2 dryRun).Write) ∧
          (∀ ac ∈ call, ac.1 = attempt ∧
            ((refresh = false ∧ ac.2 = zdb) ∨
              ∃ ns nm, c.GetZdb ac.1 ns nm = Except.ok ac.2)) := by
        cases refresh with
        | false =>
            refine ⟨[(attempt, zdb)], by simp, by simp, ?_, ?_⟩
            · rw [attemptOnce_no_refresh]
              rcases hw : (checkAndDecrement c attempt pod zdb dryRun).Write with _ | w <;> simp [hw]
            · intro ac hac
              simp at hac
              subst hac
              exact ⟨rfl, Or.inl ⟨rfl, rfl⟩⟩
        | true =>
            rcases hget : c.GetZdb attempt zdb.Namespace zdb.Name with e | cur
            · refine ⟨[], by simp, by simp, ?_, by simp⟩
              rw [attemptOnce_refresh_error c pod dryRun attempt zdb e hget]
              simp
            · refine ⟨[(attempt, cur)], by simp, by simp, ?_, ?_⟩
              · rw [attemptOnce_refresh_ok c pod dryRun attempt zdb cur hget]
                rcases hw : (checkAndDecrement c attempt pod cur dryRun).Write with _ | w <;> simp [hw]
              · intro ac hac
                simp at hac
                subst hac
                exact ⟨rfl, Or.inr ⟨_, _, hget⟩⟩
      obtain ⟨call, hdef, hlen, hwr, hfrom⟩ := hcall
      have hrefresh := attemptOnce_refresh_after_error c pod dryRun attempt refresh zdb
      have hone : ∀ ac ∈ call, attempt ≤ ac.1 ∧ ac.1 < attempt + (n + 1) ∧
          ((ac.1 = attempt ∧ refresh = false ∧ ac.2 = zdb) ∨
            ∃ ns nm, c.GetZdb ac.1 ns nm = Except.ok ac.2) := by
        intro ac hac
        obtain ⟨h1, h2⟩ := hfrom ac hac
        refine ⟨by omega, by omega, ?_⟩
        rcases h2 with ⟨h3, h4⟩ | h3
        · exact Or.inl ⟨h1, h3, h4⟩
        · exact Or.inr h3
      unfold RetryOnConflict checkCalls
      simp only [hdef]
      rcases hat : attemptOnce c pod dryRun attempt refresh zdb with ⟨err, zdb1, refresh1, wr⟩
      rw [hat] at hwr hrefresh
      simp only at hwr hrefresh
      cases err with
      | none =>
          simp only
          exact ⟨by omega, hwr, hone⟩
      | some e =>
          simp only
          by_cases hc : IsConflict e = true
          · rw [if_pos hc, if_pos hc]
            by_cases hn : n = 0
            · rw [if_pos hn, if_pos hn]
              exact ⟨by omega, hwr, hone⟩
            · rw [if_neg hn, if_neg hn]
              obtain ⟨ih1, ih2, ih3⟩ := ih (attempt + 1) refresh1 zdb1
              have hr : refresh1 = true := hrefresh e rfl
              refine ⟨?_, ?_, ?_⟩
              · simp only [List.length_append]
                omega
              · rw [filterMap_call_append, ← hwr, ← ih2]
              · intro ac hac
                rcases List.mem_append.mp hac with h | h
                · exact hone ac h
                · obtain ⟨h1, h2, h3⟩ := ih3 ac h
                  refine ⟨by omega, by omega, Or.inr ?_⟩
                  rcases h3 with ⟨_, h4, _⟩ | h4
                  · rw [hr] at h4
                    exact absurd h4 (by decide)
                  · exact h4
          · rw [if_neg hc, if_neg hc]
            exact ⟨by omega, hwr, hone⟩

/-- The requests that reach the retry loop: a handler run that issues a
status update answers a CREATE eviction, with a decodable payload, of a pod
that is not skipped, is Ready, has a governing ZDB and is not yet listed in
its `disruptedPods`. -/
theorem handler_loop_cases (c : Client) (req : Request) :
    (handler c req).Writes = [] ∨
    ∃ (pod : Pod) (zdb : ZoneDisruptionBudget) (dry : Bool),
      req.Operation = Operation.Create ∧ req.SubResource = "eviction" ∧
      getDryRunOption req = Except.ok dry ∧
      c.GetPod req.Namespace req.Name = Except.ok pod ∧
      canIgnoreZDB pod = false ∧ IsPodReady pod = true ∧
      GetZdbForPod c pod = Except.ok (some zdb) ∧
      isDisruptedPod pod.Name zdb = false := by
  by_cases hop : req.Operation = Operation.Create
  swap
  · left
    simp [handler, hop]
  by_cases hsub : req.SubResource = "eviction"
  swap
  · left
    simp [handler, hop, hsub]
  rcases hdry : getDryRunOption req with e | dry
  · left
    simp [handler, hop, hsub, hdry]
  rcases hpod : c.GetPod req.Namespace req.Name with e | pod
  · left
    cases dry <;> simp [handler, hop, hsub, hdry, hpod]
  by_cases hign : canIgnoreZDB pod = true
  · left
    simp [handler, hop, hsub, hdry, hpod, hign]
  by_cases hready : IsPodReady pod = true
  swap
  · left
    simp [handler, hop, hsub, hdry, hpod, hign, hready]
  rcases hzdb : GetZdbForPod c pod with e | (_ | zdb)
  · left
    cases dry <;> simp [handler, hop, hsub, hdry, hpod, hign, hready, hzdb]
  · left
    simp [handler, hop, hsub, hdry, hpod, hign, hready, hzdb]
  by_cases hdis : isDisruptedPod pod.Name zdb = true
  · left
    simp [handler, hop, hsub, hdry, hpod, hign, hready, hzdb, hdis]
  right
  exact ⟨pod, zdb, dry, hop, hsub, rfl, rfl, by simpa using hign, hready, hzdb,
    by simpa using hdis⟩

/-- Claim C20: in every run of the handler, whatever the API server answers,
at most one status update is persisted and at most 20 are issued; an update
that is followed by another one failed with a conflict, so a persisted update
is the last one; every update after the first is the decrement by 1 of a ZDB
that its attempt read back from the API server; a run that issued updates
admits the eviction when one was persisted and denies it otherwise, in
particular when 20 updates were issued and all of them conflicted; and
`checkAndDecrement` is called at most 20 times, on the ZDB resolved for the
pod in the first attempt and on a ZDB read back from the API server in every
later one, these calls issuing all the updates of the run. -/
theorem handler_retry_loop (c : Client) (req : Request) :
    (persisted (handler c req).Writes).length ≤ 1 ∧
    (handler c req).Writes.length ≤ EvictionsRetrySteps ∧
    (∀ ws w vs, (handler c req).Writes = ws ++ w :: vs →
      (vs ≠ [] → ∃ e, w.Outcome = some e ∧ IsConflict e = true) ∧
      (w.Outcome = none → vs = []) ∧
      (ws ≠ [] →
        ∃ (pod : Pod) (a : Nat) (cur : ZoneDisruptionBudget) (ns nm zone : String),
          c.GetPod req.Namespace req.Name = Except.ok pod ∧
          0 < a ∧ a < EvictionsRetrySteps ∧
          c.GetZdb a ns nm = Except.ok cur ∧
          getZone c a pod = Except.ok zone ∧
          w.Object = recordDisruption cur zone pod.Name (c.Now a) ∧
          getInt w.Object.Status.DisruptionsAllowed zone =
            getInt cur.Status.DisruptionsAllowed zone - 1)) ∧
    ((handler c req).Writes ≠ [] →
      (persisted (handler c req).Writes ≠ [] →
        (handler c req).Response = Allowed "" ∧ (handler c req).Reason = "DisruptionAllowed") ∧
      (persisted (handler c req).Writes = [] →
        (handler c req).Response.Allowed = false ∧ (handler c req).Reason = "DeniedByZdb") ∧
      ((handler c req).Writes.length = EvictionsRetrySteps →
        (∀ w ∈ (handler c req).Writes, ∃ e, w.Outcome = some e ∧ IsConflict e = true) →
        (handler c req).Response.Allowed = false ∧ (handler c req).Reason = "DeniedByZdb")) ∧
    (∀ (dry : Bool) (pod : Pod) (zdb : ZoneDisruptionBudget),
      req.Operation = Operation.Create → req.SubResource = "eviction" →
      getDryRunOption req = Except.ok dry →
      c.GetPod req.Namespace req.Name = Except.ok pod →
      canIgnoreZDB pod = false → IsPodReady pod = true →
      GetZdbForPod c pod = Except.ok (some zdb) →
      isDisruptedPod pod.Name zdb = false →
      (checkCalls c pod (dry || zdb.Spec.DryRun) EvictionsRetrySteps 0 false zdb).length ≤
          EvictionsRetrySteps ∧
        (handler c req).Writes =
          (checkCalls c pod (dry || zdb.Spec.DryRun) EvictionsRetrySteps 0 false zdb).filterMap
            (fun ac => (checkAndDecrement c ac.1 pod ac.2 (dry || zdb.Spec.DryRun)).Write) ∧
        (∀ ac ∈ checkCalls c pod (dry || zdb.Spec.DryRun) EvictionsRetrySteps 0 false zdb,
          ac.1 < EvictionsRetrySteps ∧
            ((ac.1 = 0 ∧ ac.2 = zdb) ∨ ∃ ns nm, c.GetZdb ac.1 ns nm = Except.ok ac.2))) := by
  have hcalls : ∀ (dry : Bool) (pod : Pod) (zdb : ZoneDisruptionBudget),
      req.Operation = Operation.Create → req.SubResource = "eviction" →
      getDryRunOption req = Except.ok dry →
      c.GetPod req.Namespace req.Name = Except.ok pod →
      canIgnoreZDB pod = false → IsPodReady pod = true →
      GetZdbForPod c pod = Except.ok (some zdb) →
      isDisruptedPod pod.Name zdb = false →
      (checkCalls c pod (dry || zdb.Spec.DryRun) EvictionsRetrySteps 0 false zdb).length ≤
          EvictionsRetrySteps ∧
        (handler c req).Writes =
          (checkCalls c pod (dry || zdb.Spec.DryRun) EvictionsRetrySteps 0 false zdb).filterMap
            (fun ac => (checkAndDecrement c ac.1 pod ac.2 (dry || zdb.Spec.DryRun)).Write) ∧
        (∀ ac ∈ checkCalls c pod (dry || zdb.Spec.DryRun) EvictionsRetrySteps 0 false zdb,
          ac.1 < EvictionsRetrySteps ∧
            ((ac.1 = 0 ∧ ac.2 = zdb) ∨ ∃ ns nm, c.GetZdb ac.1 ns nm = Except.ok ac.2)) := by
    intro dry pod zdb hop hsub hdry hpod hign hready hzdb hnew
    have hb := handler_budget_checked c req dry pod zdb hop hsub hdry hpod hign hready hzdb hnew
    obtain ⟨h1, h2, h3⟩ :=
      checkCalls_shape c pod (dry || zdb.Spec.DryRun) EvictionsRetrySteps 0 false zdb
    refine ⟨h1, by rw [hb.1, h2], ?_⟩
    intro ac hac
    obtain ⟨_, hlt, hor⟩ := h3 ac hac
    refine ⟨by omega, ?_⟩
    rcases hor with ⟨ha, _, hz⟩ | hre
    · exact Or.inl ⟨ha, hz⟩
    · exact Or.inr hre
  rcases handler_loop_cases c req with hnil |
    ⟨pod, zdb, dry, hop, hsub, hdry, hpod, hign, hready, hzdb, hnew⟩
  · refine ⟨?_, ?_, ?_, fun h => absurd hnil h, hcalls⟩
    · rw [hnil]
      simp [persisted]
    · rw [hnil]
      simp
    · intro ws w vs heq
      rw [hnil] at heq
      simp at heq
  · have hb := handler_budget_checked c req dry pod zdb hop hsub hdry hpod hign hready hzdb hnew
    obtain ⟨hwr, hok, hden⟩ := hb
    obtain ⟨s1, s2, s3⟩ :=
      RetryOnConflict_writes_shape c pod (dry || zdb.Spec.DryRun) EvictionsRetrySteps 0 false zdb
    obtain ⟨l1, l2, l3⟩ :=
      RetryOnConflict_loop_shape c pod (dry || zdb.Spec.DryRun) EvictionsRetrySteps 0 false zdb
    have htail :=
      RetryOnConflict_writes_tail c pod (dry || zdb.Spec.DryRun) EvictionsRetrySteps 0 false zdb
    rw [← hwr] at s1 s2 s3 l1 l2 l3 htail
    have hverdict : (handler c req).Writes ≠ [] →
        (persisted (handler c req).Writes ≠ [] →
          (handler c req).Response = Allowed "" ∧ (handler c req).Reason = "DisruptionAllowed") ∧
        (persisted (handler c req).Writes = [] →
          (handler c req).Response.Allowed = false ∧ (handler c req).Reason = "DeniedByZdb") := by
      intro hne
      obtain ⟨w0, hw0⟩ := List.exists_mem_of_ne_nil _ hne
      have hdryF : (dry || zdb.Spec.DryRun) = false := (s1 w0 hw0).1
      refine ⟨fun hp => hok (s3 hp), fun hp => ?_⟩
      have herr : (RetryOnConflict c pod (dry || zdb.Spec.DryRun) EvictionsRetrySteps 0 false
          zdb).Err ≠ none := fun hnone => l3 hdryF (by decide) hnone hp
      have := (hden herr).2 hdryF
      exact ⟨by rw [this.1]; rfl, this.2⟩
    refine ⟨s2, l1, ?_, ?_, hcalls⟩
    · intro ws w vs heq
      refine ⟨l2 ws w vs heq, ?_, ?_⟩
      · intro hout
        by_contra hvs
        obtain ⟨e, he, _⟩ := l2 ws w vs heq hvs
        rw [hout] at he
        cases he
      · intro hws
        obtain ⟨a, cur, ns, nm, ha1, ha2, hget, zone, hz, _, _, _, hobj, _⟩ :=
          htail ws w vs heq hws
        have heff := (recordDisruption_effect cur zone pod.Name (c.Now a)).1
        rw [← hobj] at heff
        exact ⟨pod, a, cur, ns, nm, zone, hpod, ha1, by omega, hget, hz, hobj, heff⟩
    · intro hne
      refine ⟨(hverdict hne).1, (hverdict hne).2, ?_⟩
      intro _ hall
      apply (hverdict hne).2
      unfold persisted
      rw [List.map_eq_nil_iff, List.filter_eq_nil_iff]
      intro w hw
      obtain ⟨e, he, _⟩ := hall w hw
      simp [he]

/-! ## The size of the map of disrupted pods -/

/-- A request that reaches the budget check outside dry-run mode, finds a
fresh status, the zone of the pod, a positive budget and a map of disrupted
pods that is not over the limit, and whose first status update is persisted:
the handler issues that one update, of the ZDB with the disruption recorded,
and admits the eviction. -/
theorem handler_first_attempt_admits (c : Client) (req : Request) (dry : Bool) (pod : Pod)
    (zdb : ZoneDisruptionBudget) (zone : String)
    (hop : req.Operation = Operation.Create) (hsub : req.SubResource = "eviction")
    (hdry : getDryRunOption req = Except.ok dry)
    (hpod : c.GetPod req.Namespace req.Name = Except.ok pod)
    (hign : canIgnoreZDB pod = false) (hready : IsPodReady pod = true)
    (hzdb : GetZdbForPod c pod = Except.ok (some zdb))
    (hnew : isDisruptedPod pod.Name zdb = false)
    (heff : (dry || zdb.Spec.DryRun) = false)
    (hgen : zdb.Generation ≤ zdb.Status.ObservedGeneration)
    (hz : getZone c 0 pod = Except.ok zone)
    (hpos : 0 < getInt zdb.Status.DisruptionsAllowed zone)
    (hlen : GoMap.len zdb.Status.DisruptedPods ≤ MaxDisruptedPodSize)
    (hupd : c.StatusUpdate 0 (recordDisruption zdb zone pod.Name (c.Now 0)) = none) :
    (handler c req).Writes =
        [{ Object := recordDisruption zdb zone pod.Name (c.Now 0), Outcome := none }] ∧
      (handler c req).Response = Allowed "" ∧
      (handler c req).Reason = "DisruptionAllowed" := by
  have hcheck : checkAndDecrement c 0 pod zdb false =
      { Err := none, Zdb := recordDisruption zdb zone pod.Name (c.Now 0),
        Write := some { Object := recordDisruption zdb zone pod.Name (c.Now 0),
                        Outcome := none } } := by
    unfold checkAndDecrement
    rw [if_neg (not_lt.mpr hgen)]
    simp only [hz]
    rw [if_neg (not_lt.mpr (le_of_lt hpos)), if_neg (not_lt.mpr hlen),
      if_neg (ne_of_gt hpos)]
    simp [hupd]
  have hloop : RetryOnConflict c pod false EvictionsRetrySteps 0 false zdb =
      { Err := none,
        Writes := [{ Object := recordDisruption zdb zone pod.Name (c.Now 0),
                     Outcome := none }] } := by
    have h20 : EvictionsRetrySteps = 19 + 1 := rfl
    rw [h20]
    unfold RetryOnConflict
    rw [attemptOnce_no_refresh, hcheck]
    rfl
  have hb := handler_budget_checked c req dry pod zdb hop hsub hdry hpod hign hready hzdb hnew
  rw [heff, hloop] at hb
  exact ⟨hb.1, (hb.2.1 rfl).1, (hb.2.1 rfl).2⟩

/-- Two decimal digits with the same character are equal. -/
theorem digitChar_injective :
    ∀ a < 10, ∀ b < 10, Char.ofNat (48 + a) = Char.ofNat (48 + b) → a = b := by
  decide

/-- Two numbers below 10000 with the same four-digit name are equal. -/
theorem fixtureNumberedName_injective (i j : Nat) (hi : i < 10000) (hj : j < 10000)
    (h : fixtureNumberedName i = fixtureNumberedName j) : i = j := by
  have hd := congrArg String.data h
  simp only [fixtureNumberedName, List.cons.injEq, true_and, and_true] at hd
  obtain ⟨h3, h2, h1, h0⟩ := hd
  have e3 := digitChar_injective (i / 1000 % 10) (Nat.mod_lt _ (by decide))
    (j / 1000 % 10) (Nat.mod_lt _ (by decide)) h3
  have e2 := digitChar_injective (i / 100 % 10) (Nat.mod_lt _ (by decide))
    (j / 100 % 10) (Nat.mod_lt _ (by decide)) h2
  have e1 := digitChar_injective (i / 10 % 10) (Nat.mod_lt _ (by decide))
    (j / 10 % 10) (Nat.mod_lt _ (by decide)) h1
  have e0 := digitChar_injective (i % 10) (Nat.mod_lt _ (by decide))
    (j % 10) (Nat.mod_lt _ (by decide)) h0
  omega

/-- The keys of `fixtureDisruptedPods n` are the names of the numbers below
`n`. -/
theorem mem_keys_fixtureDisruptedPods (n : Nat) (k : String)
    (h : k ∈ GoMap.keys (fixtureDisruptedPods n)) : ∃ i, i < n ∧ k = fixtureNumberedName i := by
  induction n with
  | zero => simp [fixtureDisruptedPods, GoMap.keys] at h
  | succ m ih =>
      simp only [fixtureDisruptedPods, GoMap.keys, List.map_cons, List.mem_cons] at h
      rcases h with h | h
      · exact ⟨m, by omega, h⟩
      · obtain ⟨i, hi, hk⟩ := ih h
        exact ⟨i, by omega, hk⟩

/-- The map `fixtureDisruptedPods n` has `n` distinct keys. -/
theorem len_fixtureDisruptedPods (n : Nat) (hn : n ≤ 10000) :
    GoMap.len (fixtureDisruptedPods n) = n := by
  induction n with
  | zero => rfl
  | succ m ih =>
      have hnot : GoMap.contains (fixtureDisruptedPods m) (fixtureNumberedName m) = false := by
        rcases hc : GoMap.contains (fixtureDisruptedPods m) (fixtureNumberedName m) with _ | _
        · rfl
        · obtain ⟨i, hi, hk⟩ := mem_keys_fixtureDisruptedPods m _
            ((GoMap.contains_iff_mem_keys _ _).mp hc)
          have := fixtureNumberedName_injective m i (by omega) (by omega) hk
          omega
      simp only [fixtureDisruptedPods, GoMap.len, hnot]
      rw [ih (by omega)]
      simp

/-- The pod `test-allow` is not listed in `fixtureDisruptedPods n`. -/
theorem not_contains_fixtureDisruptedPods (n : Nat) :
    GoMap.contains (fixtureDisruptedPods n) "test-allow" = false := by
  rcases hc : GoMap.contains (fixtureDisruptedPods n) "test-allow" with _ | _
  · rfl
  · obtain ⟨i, _, hk⟩ := mem_keys_fixtureDisruptedPods n _
      ((GoMap.contains_iff_mem_keys _ _).mp hc)
    have := congrArg String.length hk
    simp [fixtureNumberedName, String.length] at this

/-- Every status update that the handler issues sends a map of disrupted pods
with at most one entry more than `MaxDisruptedPodSize`. -/
theorem handler_writes_len_bound (c : Client) (req : Request) (w : StatusWrite)
    (hw : w ∈ (handler c req).Writes) :
    GoMap.len w.Object.Status.DisruptedPods ≤ MaxDisruptedPodSize + 1 := by
  rcases handler_writes_cases c req with hnil | ⟨pod, zdb, dry, _, _, _, _, heq, _⟩
  · rw [hnil] at hw
    simp at hw
  · rw [heq] at hw
    obtain ⟨_, a, cur, _, _, ⟨zone, _, _, hlen, _, hobj, _⟩, _⟩ :=
      (RetryOnConflict_writes_shape c pod (dry || zdb.Spec.DryRun) EvictionsRetrySteps
        0 false zdb).1 w hw
    have hgrow := (recordDisruption_effect cur zone pod.Name (c.Now a)).2.2
    rw [← hobj] at hgrow
    rw [hgrow]
    split <;> omega

/-- Claim C14 fails on the code.  The ZDB `fullZdb` lists 2000 disrupted pods,
which is `MaxDisruptedPodSize`, and leaves a budget of 1 in `az-1`.  The
eviction of the Running and Ready pod `test-allow`, which is not among them,
passes the size check (the map is not larger than the limit), is admitted,
and the one status update that the handler persists lists 2001 pods. -/
theorem handler_persists_oversized_map :
    MaxDisruptedPodSize = 2000 ∧
      GoMap.len fullZdb.Status.DisruptedPods = 2000 ∧
      isDisruptedPod "test-allow" fullZdb = false ∧
      (handler fullClient (fixtureEviction "test-allow" false)).Response.Allowed = true ∧
      (handler fullClient (fixtureEviction "test-allow" false)).Reason = "DisruptionAllowed" ∧
      persisted (handler fullClient (fixtureEviction "test-allow" false)).Writes =
        [recordDisruption fullZdb "az-1" "test-allow" 9] ∧
      GoMap.len (recordDisruption fullZdb "az-1" "test-allow" 9).Status.DisruptedPods =
        2001 := by
  have hlen : GoMap.len fullZdb.Status.DisruptedPods = 2000 :=
    len_fixtureDisruptedPods 2000 (by decide)
  have hnew : isDisruptedPod "test-allow" fullZdb = false :=
    not_contains_fixtureDisruptedPods 2000
  have hrun := handler_first_attempt_admits fullClient (fixtureEviction "test-allow" false) false
    (fixtureEvictionPod "test-allow" "test1") fullZdb "az-1" rfl rfl rfl rfl (by decide)
    (by decide) rfl hnew rfl (by decide) (by decide) (by decide)
    (by rw [hlen]; decide) rfl
  have hgrow := (recordDisruption_effect fullZdb "az-1" "test-allow" 9).2.2
  rw [hnew, hlen] at hgrow
  refine ⟨rfl, hlen, hnew, ?_, hrun.2.2, ?_, ?_⟩
  · rw [hrun.2.1]
    rfl
  · rw [hrun.1]
    rfl
  · simpa using hgrow

/-- Witness of claim C20: on an API server where every status update
conflicts, the handler issues 20 updates, none is persisted, and the eviction
is denied. -/
theorem handler_retry_loop_witness :
    (handler conflictClient (fixtureEviction "test-conflict" false)).Writes.length = 20 ∧
      (handler conflictClient (fixtureEviction "test-conflict" false)).Response.Allowed = false ∧
      (handler conflictClient (fixtureEviction "test-conflict" false)).Reason = "DeniedByZdb" :=
  ⟨by decide,
    ((handler_retry_loop conflictClient (fixtureEviction "test-conflict" false)).2.2.2.1
      (by decide)).2.1 (by decide)⟩

/-- The retry loop on the racing eviction: the first update conflicts, the ZDB
is read again, and the second update, the decrement of the ZDB read back, is
persisted and ends the loop. -/
theorem handler_test_conflict_then_success :
    (handler raceClient (fixtureEviction "test-allow" false)).Writes =
        [{ Object := recordDisruption raceZdbFirst "az-1" "test-allow" 9,
           Outcome := some { Reason := StatusReason.Conflict,
                             Message := "the object has been modified" } },
         { Object := recordDisruption raceZdbReread "az-1" "test-allow" 9, Outcome := none }] ∧
      checkCalls raceClient (fixtureEvictionPod "test-allow" "test1") false EvictionsRetrySteps 0
        false raceZdbFirst = [(0, raceZdbFirst), (1, raceZdbReread)] := by
  decide

/-! ## The pod-zone helper -/

/-- A lookup that reads the zone from the node label returns it and stores it
in the cache under the name of the pod. -/
theorem getPodZone_labelled (h : Helper) (pod : Pod) (node : Node) (z : String)
    (hnode : h.GetNode pod.NodeName = Except.ok node)
    (hlabel : GoMap.get? node.Labels LabelTopologyZone = some z) :
    getPodZone h pod = ((z, true), { h with Cache := GoMap.set h.Cache pod.Name z }) := by
  simp [getPodZone, hnode, hlabel]

/-- A lookup for a pod whose node cannot be read or carries no zone label is
answered from the cache, which it leaves as it is. -/
theorem getPodZone_unlabelled (h : Helper) (pod : Pod)
    (hbad : (∃ e, h.GetNode pod.NodeName = Except.error e) ∨
      ∃ node, h.GetNode pod.NodeName = Except.ok node ∧
        GoMap.get? node.Labels LabelTopologyZone = none) :
    getPodZone h pod = (getZoneFromCache h pod.Name, h) := by
  rcases hbad with ⟨e, he⟩ | ⟨node, hn, hl⟩
  · simp [getPodZone, he]
  · simp [getPodZone, hn, hl]

/-- A lookup changes the cache at most under the name of its pod. -/
theorem getPodZone_cache_other (h : Helper) (pod : Pod) (name : String)
    (hne : name ≠ pod.Name) :
    GoMap.get? (getPodZone h pod).2.Cache name = GoMap.get? h.Cache name := by
  rcases hn : h.GetNode pod.NodeName with e | node
  · rw [getPodZone_unlabelled h pod (Or.inl ⟨e, hn⟩)]
  · rcases hl : GoMap.get? node.Labels LabelTopologyZone with _ | z
    · rw [getPodZone_unlabelled h pod (Or.inr ⟨node, hn, hl⟩)]
    · rw [getPodZone_labelled h pod node z hn hl]
      exact GoMap.get?_set_other h.Cache pod.Name name z hne

/-- Claim C21: when the node of the pod is read and carries the zone label
with value `z`, `getPodZone` returns `(z, true)` and leaves a cache that maps
the name of the pod to `z`; a lookup for a pod of another name keeps that
entry; and a later lookup for the same pod name on a helper with that cache
returns `(z, true)` when the node cannot be read or carries no zone label. -/
theorem getPodZone_caches_zone :
    (∀ (h : Helper) (pod : Pod) (node : Node) (z : String),
      h.GetNode pod.NodeName = Except.ok node →
      GoMap.get? node.Labels LabelTopologyZone = some z →
      (getPodZone h pod).1 = (z, true) ∧
        GoMap.get? (getPodZone h pod).2.Cache pod.Name = some z ∧
        (getPodZone h pod).2.GetNode = h.GetNode) ∧
    (∀ (h : Helper) (other : Pod) (name : String) (z : String),
      GoMap.get? h.Cache name = some z → other.Name ≠ name →
      GoMap.get? (getPodZone h other).2.Cache name = some z) ∧
    (∀ (h later : Helper) (pod again : Pod) (node : Node) (z : String),
      h.GetNode pod.NodeName = Except.ok node →
      GoMap.get? node.Labels LabelTopologyZone = some z →
      again.Name = pod.Name →
      GoMap.get? later.Cache pod.Name = GoMap.get? (getPodZone h pod).2.Cache pod.Name →
      ((∃ e, later.GetNode again.NodeName = Except.error e) ∨
        ∃ node2, later.GetNode again.NodeName = Except.ok node2 ∧
          GoMap.get? node2.Labels LabelTopologyZone = none) →
      (getPodZone later again).1 = (z, true)) := by
  refine ⟨?_, ?_, ?_⟩
  · intro h pod node z hnode hlabel
    rw [getPodZone_labelled h pod node z hnode hlabel]
    exact ⟨rfl, GoMap.get?_set_same h.Cache pod.Name z, rfl⟩
  · intro h other name z hc hne
    rw [getPodZone_cache_other h other name (fun e => hne e.symm)]
    exact hc
  · intro h later pod again node z hnode hlabel hname hcache hbad
    rw [getPodZone_unlabelled later again hbad]
    rw [getPodZone_labelled h pod node z hnode hlabel] at hcache
    simp only at hcache
    rw [GoMap.get?_set_same] at hcache
    simp [getZoneFromCache, hname, hcache]

/-- Claim C22: for a pod whose node cannot be read or carries no zone label,
`getPodZone` returns the cached zone with `found = true` when the cache holds
an entry for the name of the pod, and `("", false)` otherwise, and leaves the
cache as it is; and whenever `getPodZone` returns `found = true`, the zone is
the zone label of the node of the pod or the zone cached for its name. -/
theorem getPodZone_falls_back_to_cache :
    (∀ (h : Helper) (pod : Pod),
      ((∃ e, h.GetNode pod.NodeName = Except.error e) ∨
        ∃ node, h.GetNode pod.NodeName = Except.ok node ∧
          GoMap.get? node.Labels LabelTopologyZone = none) →
      (∀ z, GoMap.get? h.Cache pod.Name = some z → (getPodZone h pod).1 = (z, true)) ∧
        (GoMap.get? h.Cache pod.Name = none → (getPodZone h pod).1 = ("", false)) ∧
        (getPodZone h pod).2 = h) ∧
    (∀ (h : Helper) (pod : Pod) (z : String),
      (getPodZone h pod).1 = (z, true) →
      (∃ node, h.GetNode pod.NodeName = Except.ok node ∧
          GoMap.get? node.Labels LabelTopologyZone = some z) ∨
        GoMap.get? h.Cache pod.Name = some z) := by
  refine ⟨?_, ?_⟩
  · intro h pod hbad
    rw [getPodZone_unlabelled h pod hbad]
    refine ⟨fun z hz => ?_, fun hz => ?_, rfl⟩
    · simp [getZoneFromCache, hz]
    · simp [getZoneFromCache, hz]
  · intro h pod z hres
    have hcache : (getZoneFromCache h pod.Name) = (z, true) →
        GoMap.get? h.Cache pod.Name = some z := by
      intro hc
      unfold getZoneFromCache at hc
      rcases hg : GoMap.get? h.Cache pod.Name with _ | z1
      · rw [hg] at hc
        simp at hc
      · rw [hg] at hc
        simp at hc
        rw [hc]
    rcases hn : h.GetNode pod.NodeName with e | node
    · rw [getPodZone_unlabelled h pod (Or.inl ⟨e, hn⟩)] at hres
      exact Or.inr (hcache hres)
    · rcases hl : GoMap.get? node.Labels LabelTopologyZone with _ | z1
      · rw [getPodZone_unlabelled h pod (Or.inr ⟨node, hn, hl⟩)] at hres
        exact Or.inr (hcache hres)
      · rw [getPodZone_labelled h pod node z1 hn hl] at hres
        simp only [Prod.mk.injEq, and_true] at hres
        left
        exact ⟨node, rfl, by rw [hl, hres]⟩

/-- The distinct keys of a map are pairwise different. -/
theorem nodup_distinctKeys {V : Type} (m : GoMap V) : (distinctKeys m).Nodup := by
  induction m with
  | nil => simp [distinctKeys]
  | cons e rest ih =>
      obtain ⟨k, v⟩ := e
      simp only [distinctKeys]
      rw [List.nodup_cons]
      refine ⟨?_, ih.filter _⟩
      intro hmem
      have := (List.mem_filter.mp hmem).2
      simp at this

/-- Dropping a member of a list without repetitions shortens it by one. -/
theorem length_filter_ne_of_mem (l : List String) (k : String) (hn : l.Nodup) (hk : k ∈ l) :
    (l.filter (fun x => !decide (x = k))).length + 1 = l.length := by
  induction l with
  | nil => simp at hk
  | cons a t ih =>
      rw [List.nodup_cons] at hn
      by_cases ha : a = k
      · subst ha
        have hself : t.filter (fun x => !decide (x = a)) = t := by
          rw [List.filter_eq_self]
          intro x hx
          have : x ≠ a := fun hxa => hn.1 (hxa ▸ hx)
          simp [this]
        simp [hself]
      · have hkt : k ∈ t := by
          rcases List.mem_cons.mp hk with h | h
          · exact absurd h.symm ha
          · exact h
        have := ih hn.2 hkt
        simp [ha]
        omega

/-- The sorted zones of a map are pairwise different. -/
theorem nodup_GetSortedZonesFromMap (m : GoMap (List Pod)) :
    (GetSortedZonesFromMap m).Nodup :=
  (List.perm_insertionSort zoneLe (distinctKeys m)).nodup_iff.mpr (nodup_distinctKeys m)

/-- The sorted zones of a map are in strictly ascending order. -/
theorem strictSorted_GetSortedZonesFromMap (m : GoMap (List Pod)) :
    List.Sorted (fun a b : String => a < b) (GetSortedZonesFromMap m) := by
  have hs := sorted_GetSortedZonesFromMap m
  have hn := nodup_GetSortedZonesFromMap m
  unfold List.Sorted at hs ⊢
  unfold List.Nodup at hn
  refine (hs.and hn).imp ?_
  intro a b hab
  exact lt_of_le_of_ne ((zoneLe_iff_le a b).mp hab.1) hab.2

/-- Claim C23: the list that `GetSortedZonesFromMap` returns holds exactly the
keys of the map, each of them once, in strictly ascending lexicographic
order; so two maps with the same keys, such as two iteration orders of one
map, give the same list. -/
theorem GetSortedZonesFromMap_sorted_keys :
    (∀ (m : GoMap (List Pod)) (z : String),
      (z ∈ GetSortedZonesFromMap m ↔ GoMap.contains m z = true) ∧
        (GoMap.contains m z = true → (GetSortedZonesFromMap m).count z = 1)) ∧
    (∀ m : GoMap (List Pod), (GetSortedZonesFromMap m).length = GoMap.len m) ∧
    (∀ m : GoMap (List Pod),
      List.Sorted (fun a b : String => a < b) (GetSortedZonesFromMap m)) ∧
    (∀ m1 m2 : GoMap (List Pod),
      (∀ z, GoMap.contains m1 z = GoMap.contains m2 z) →
      GetSortedZonesFromMap m1 = GetSortedZonesFromMap m2) ∧
    (∀ m1 m2 : GoMap (List Pod), m1.Perm m2 →
      GetSortedZonesFromMap m1 = GetSortedZonesFromMap m2) := by
  have hsame : ∀ m1 m2 : GoMap (List Pod),
      (∀ z, GoMap.contains m1 z = GoMap.contains m2 z) →
      GetSortedZonesFromMap m1 = GetSortedZonesFromMap m2 := by
    intro m1 m2 hkeys
    apply List.eq_of_perm_of_sorted _ (strictSorted_GetSortedZonesFromMap m1)
      (strictSorted_GetSortedZonesFromMap m2)
    rw [List.perm_ext_iff_of_nodup (nodup_GetSortedZonesFromMap m1)
      (nodup_GetSortedZonesFromMap m2)]
    intro z
    rw [mem_GetSortedZonesFromMap, mem_GetSortedZonesFromMap, hkeys z]
  refine ⟨?_, ?_, strictSorted_GetSortedZonesFromMap, hsame, ?_⟩
  · intro m z
    refine ⟨mem_GetSortedZonesFromMap m z, fun hc => ?_⟩
    exact List.count_eq_one_of_mem (nodup_GetSortedZonesFromMap m)
      ((mem_GetSortedZonesFromMap m z).mpr hc)
  · intro m
    unfold GetSortedZonesFromMap
    rw [List.length_insertionSort]
    induction m with
    | nil => rfl
    | cons e rest ih =>
        obtain ⟨k, v⟩ := e
        simp only [distinctKeys, GoMap.len, List.length_cons]
        by_cases hc : GoMap.contains rest k = true
        · rw [if_pos hc, ← ih]
          have hk : k ∈ distinctKeys rest :=
            (mem_distinctKeys rest k).mpr ((GoMap.contains_iff_mem_keys rest k).mp hc)
          exact length_filter_ne_of_mem (distinctKeys rest) k (nodup_distinctKeys rest) hk
        · rw [if_neg hc, ← ih]
          congr 1
          apply congrArg
          rw [List.filter_eq_self]
          intro x hx
          have : x ≠ k := by
            intro hxk
            subst hxk
            exact hc ((GoMap.contains_iff_mem_keys rest x).mpr
              ((mem_distinctKeys rest x).mp hx))
          simp [this]
  · intro m1 m2 hperm
    apply hsame
    intro z
    have h1 := GoMap.contains_iff_mem_keys m1 z
    have h2 := GoMap.contains_iff_mem_keys m2 z
    have hk : z ∈ GoMap.keys m1 ↔ z ∈ GoMap.keys m2 := (hperm.map Prod.fst).mem_iff
    rcases hc1 : GoMap.contains m1 z with _ | _ <;> rcases hc2 : GoMap.contains m2 z with _ | _
    · rfl
    · exact absurd (h1.mpr (hk.mpr (h2.mp hc2))) (by simp [hc1])
    · exact absurd (h2.mpr (hk.mp (h1.mp hc1))) (by simp [hc2])
    · rfl

/-- Witness of claim C21 on the test `Should update cache`. -/
theorem getPodZone_caches_zone_witness :
    (getPodZone (fixtureCacheHelper "test-cache1" "ca-central-1a" [])
        (fixtureSimplePod "test-cache1" (fixtureNodeName "ca-central-1a" "test-cache1"))).1 =
        ("ca-central-1a", true) ∧
      GoMap.get? (getPodZone (fixtureCacheHelper "test-cache1" "ca-central-1a" [])
        (fixtureSimplePod "test-cache1"
          (fixtureNodeName "ca-central-1a" "test-cache1"))).2.Cache
        (fixtureSimplePod "test-cache1" (fixtureNodeName "ca-central-1a" "test-cache1")).Name =
        some "ca-central-1a" ∧
      (getPodZone (fixtureCacheHelper "test-cache1" "ca-central-1a" [])
        (fixtureSimplePod "test-cache1" (fixtureNodeName "ca-central-1a" "test-cache1"))).2.GetNode =
        (fixtureCacheHelper "test-cache1" "ca-central-1a" []).GetNode :=
  getPodZone_caches_zone.1 (fixtureCacheHelper "test-cache1" "ca-central-1a" [])
    (fixtureSimplePod "test-cache1" (fixtureNodeName "ca-central-1a" "test-cache1"))
    { Name := fixtureNodeName "ca-central-1a" "test-cache1",
      Labels := [(LabelTopologyZone, "ca-central-1a")] }
    "ca-central-1a" (by decide) (by decide)

/-- Witness of claim C22 on the test `Should get zone from cache`: the pod has
no node, the cache holds its zone. -/
theorem getPodZone_falls_back_to_cache_witness :
    (getPodZone (fixtureCacheHelper "other" "ca-central-1a" [("test-cache2", "ca-central-1a")])
        (fixtureSimplePod "test-cache2" "")).1 = ("ca-central-1a", true) :=
  (getPodZone_falls_back_to_cache.1
    (fixtureCacheHelper "other" "ca-central-1a" [("test-cache2", "ca-central-1a")])
    (fixtureSimplePod "test-cache2" "")
    (Or.inl ⟨{ Reason := StatusReason.NotFound, Message := "node not found" }, by decide⟩)).1
    "ca-central-1a" (by decide)

/-- The helper tests: a pod on a labelled node is resolved and cached, a pod
without node is resolved from the cache, and is not resolved when the cache
does not hold it. -/
theorem getPodZone_test_table :
    (getPodZone (fixtureCacheHelper "test-cache1" "ca-central-1a" [])
        (fixtureSimplePod "test-cache1" (fixtureNodeName "ca-central-1a" "test-cache1"))).2.Cache =
        [("test-cache1", "ca-central-1a")] ∧
      (getPodZone (fixtureCacheHelper "other" "ca-central-1a" [("test-cache2", "ca-central-1a")])
        (fixtureSimplePod "test-cache2" "")).1 = ("ca-central-1a", true) ∧
      (getPodZone (fixtureCacheHelper "other" "ca-central-1a" [])
        (fixtureSimplePod "test-cache3" "")).1 = ("", false) := by
  decide

/-- Witness of claim C23: two listings of the same three zones. -/
theorem GetSortedZonesFromMap_sorted_keys_witness :
    GetSortedZonesFromMap [("us-east-1c", []), ("us-east-1a", []), ("us-east-1b", [])] =
      GetSortedZonesFromMap [("us-east-1b", []), ("us-east-1c", []), ("us-east-1a", [])] :=
  GetSortedZonesFromMap_sorted_keys.2.2.2.1
    [("us-east-1c", []), ("us-east-1a", []), ("us-east-1b", [])]
    [("us-east-1b", []), ("us-east-1c", []), ("us-east-1a", [])]
    (fun z => by
      simp only [GoMap.contains, GoMap.get?]
      by_cases h1 : "us-east-1c" = z <;> by_cases h2 : "us-east-1a" = z <;>
        by_cases h3 : "us-east-1b" = z <;> simp [h1, h2, h3])

/-- The sorted zones of the three-zone map. -/
theorem GetSortedZonesFromMap_test :
    GetSortedZonesFromMap [("us-east-1c", []), ("us-east-1a", []), ("us-east-1b", []),
      ("us-east-1a", [])] = ["us-east-1a", "us-east-1b", "us-east-1c"] := by
  decide

/-! ## The alarm state provider -/

/-- Claim C24: `AlarmState` returns the state value of the alarm with the nil
error when `DescribeAlarms` succeeds with exactly one composite alarm, and
only then; when the call fails, or returns no composite alarm or more than
one, it returns the empty state value with an error. -/
theorem AlarmState_single_alarm (p : CloudWatchAlarmStateProvider) (alarmName : String) :
    (∀ alarm, p.Client.DescribeAlarms [alarmName] =
        Except.ok { CompositeAlarms := [alarm] } →
      p.AlarmState alarmName = (alarm.StateValue, none)) ∧
    ((p.AlarmState alarmName).2 = none ↔
      ∃ alarm, p.Client.DescribeAlarms [alarmName] =
        Except.ok { CompositeAlarms := [alarm] }) ∧
    (((∃ err, p.Client.DescribeAlarms [alarmName] = Except.error err) ∨
        ∃ output, p.Client.DescribeAlarms [alarmName] = Except.ok output ∧
          output.CompositeAlarms.length ≠ 1) →
      (p.AlarmState alarmName).1 = "" ∧ (p.AlarmState alarmName).2 ≠ none) := by
  unfold CloudWatchAlarmStateProvider.AlarmState
  rcases hcall : p.Client.DescribeAlarms [alarmName] with err | output
  · simp
  · obtain ⟨alarms⟩ := output
    cases alarms with
    | nil => simp
    | cons a rest =>
        cases rest with
        | nil => simp
        | cons b rest2 => simp

/-- Witness of claim C24 on the test `return ok state`. -/
theorem AlarmState_single_alarm_witness :
    (fixtureCloudWatch [fixtureOkAlarm]).AlarmState "anyAlarmName" =
      (fixtureOkAlarm.StateValue, none) :=
  (AlarmState_single_alarm (fixtureCloudWatch [fixtureOkAlarm]) "anyAlarmName").1
    fixtureOkAlarm rfl

/-- The provider tests: one alarm gives its state, no alarm and two alarms
give the empty state and an error. -/
theorem AlarmState_test_table :
    (fixtureCloudWatch [fixtureOkAlarm]).AlarmState "anyAlarmName" = ("OK", none) ∧
      (fixtureCloudWatch []).AlarmState "anyAlarmName" =
        ("", some (AlarmError.notFound "anyAlarmName")) ∧
      (fixtureCloudWatch [fixtureOkAlarm, fixtureOkAlarm]).AlarmState "anyAlarmName" =
        ("", some (AlarmError.multiple [fixtureOkAlarm, fixtureOkAlarm])) := by
  decide

/-! ## The controller finder -/

/-- The answer of `verifyGroupKind` for a parsed group and version. -/
theorem verifyGroupKind_parsed (ref : OwnerReference) (gv : GroupVersion)
    (hp : ParseGroupVersion ref.APIVersion = Except.ok gv) :
    verifyGroupKind ref ControllerKindSS ["apps"] =
      (decide (ref.Kind = "StatefulSet") && decide (gv.Group = "apps"), none) := by
  unfold verifyGroupKind
  rw [hp]
  by_cases hk : ref.Kind = "StatefulSet"
  · by_cases hg : gv.Group = "apps"
    · simp [ControllerKindSS, hk, hg]
    · have hg2 : ¬ "apps" = gv.Group := fun h => hg h.symm
      simp [ControllerKindSS, hk, hg, hg2]
  · simp [ControllerKindSS, hk]

/-- Claim C25, as amended: `getPodStatefulSet` returns a pair iff the
`apiVersion` of the owner reference parses, its kind is `StatefulSet` and its
group is `apps`, the read of the StatefulSet of the referenced name in the
namespace succeeds, and its UID is the UID of the reference; the pair then
carries that UID and the replicas of the set, with no error.  For a reference
whose `apiVersion` parses: another kind or group, a StatefulSet that is not
found, or another UID give no pair and no error.  An `apiVersion` that does
not parse gives no pair and the error of the parse, whatever the kind. -/
theorem getPodStatefulSet_pair (getSet : String → String → Except ApiError OwnerStatefulSet)
    (ref : OwnerReference) (ns : String) :
    (∀ pair, (getPodStatefulSet getSet ref ns).1 = some pair ↔
      ∃ gv ss, ParseGroupVersion ref.APIVersion = Except.ok gv ∧
        ref.Kind = "StatefulSet" ∧ gv.Group = "apps" ∧
        getSet ns ref.Name = Except.ok ss ∧ ss.UID = ref.UID ∧
        pair = { UID := ss.UID, Scale := ss.Replicas }) ∧
    ((getPodStatefulSet getSet ref ns).1 ≠ none → (getPodStatefulSet getSet ref ns).2 = none) ∧
    (∀ gv, ParseGroupVersion ref.APIVersion = Except.ok gv →
      (ref.Kind ≠ "StatefulSet" ∨ gv.Group ≠ "apps" ∨
        (∃ err, getSet ns ref.Name = Except.error err ∧ err.Reason = StatusReason.NotFound) ∨
        (∃ ss, getSet ns ref.Name = Except.ok ss ∧ ss.UID ≠ ref.UID)) →
      getPodStatefulSet getSet ref ns = (none, none)) ∧
    (∀ err, ParseGroupVersion ref.APIVersion = Except.error err →
      getPodStatefulSet getSet ref ns =
        (none, some { Reason := StatusReason.Other, Message := err })) := by
  unfold getPodStatefulSet
  rcases hp : ParseGroupVersion ref.APIVersion with err | gv
  · have hv : verifyGroupKind ref ControllerKindSS ["apps"] = (false, some err) := by
      unfold verifyGroupKind
      rw [hp]
    rw [hv]
    simp
  · rw [verifyGroupKind_parsed ref gv hp]
    by_cases hk : ref.Kind = "StatefulSet"
    · by_cases hg : gv.Group = "apps"
      · simp only [hk, hg, decide_True, Bool.and_self]
        rcases hget : getSet ns ref.Name with e | ss
        · by_cases hnf : e.Reason = StatusReason.NotFound
          · simp [hnf, hg]
          · simp [hnf, hg]
        · by_cases hu : ss.UID = ref.UID
          · simp [hu, hg]
            intro pair
            exact eq_comm
          · simp [hu, hg]
      · simp [hk, hg]
    · simp [hk]

/-- Witness of claim C25 on the test `Should return the correct controller and
scale`. -/
theorem getPodStatefulSet_pair_witness :
    (getPodStatefulSet fixtureGetSet
        { APIVersion := "apps/v1", Kind := "StatefulSet", Name := "foobar",
          UID := "uid-foobar" } "default").1 = some { UID := "uid-foobar", Scale := 10 } :=
  ((getPodStatefulSet_pair fixtureGetSet
    { APIVersion := "apps/v1", Kind := "StatefulSet", Name := "foobar", UID := "uid-foobar" }
    "default").1 { UID := "uid-foobar", Scale := 10 }).mpr
    ⟨{ Group := "apps", Version := "v1" }, { UID := "uid-foobar", Replicas := 10 },
      by decide, rfl, rfl, by decide, rfl, rfl⟩

/-- Counterexample to claim C25 as stated: an owner reference of the kind
`Deployment`, another kind than `StatefulSet`, whose `apiVersion` has two
slashes.  `getPodStatefulSet` returns no pair together with an error. -/
theorem getPodStatefulSet_unparsed_apiVersion :
    ({ APIVersion := "apps/v1/beta1", Kind := "Deployment", Name := "foobar",
       UID := "uid-foobar" } : OwnerReference).Kind ≠ "StatefulSet" ∧
      (getPodStatefulSet fixtureGetSet
        { APIVersion := "apps/v1/beta1", Kind := "Deployment", Name := "foobar",
          UID := "uid-foobar" } "default").1 = none ∧
      (getPodStatefulSet fixtureGetSet
        { APIVersion := "apps/v1/beta1", Kind := "Deployment", Name := "foobar",
          UID := "uid-foobar" } "default").2 ≠ none := by
  decide

/-- The finder tests and the parse of the group and version. -/
theorem getPodStatefulSet_test_table :
    getPodStatefulSet fixtureGetSet
        { APIVersion := "apps/v1", Kind := "StatefulSet", Name := "foobar",
          UID := "uid-foobar" } "default" = (some { UID := "uid-foobar", Scale := 10 }, none) ∧
      getPodStatefulSet fixtureGetSet
        { APIVersion := "apps/v1", Kind := "StatefulSet", Name := "Some statefulset",
          UID := "uid-other" } "default" = (none, none) ∧
      ParseGroupVersion "apps/v1" = Except.ok { Group := "apps", Version := "v1" } ∧
      ParseGroupVersion "v1" = Except.ok { Group := "", Version := "v1" } ∧
      ParseGroupVersion "" = Except.ok { Group := "", Version := "" } ∧
      ParseGroupVersion "/" = Except.ok { Group := "", Version := "" } ∧
      ParseGroupVersion "a/b/c" = Except.error "unexpected GroupVersion string: a/b/c" := by
  decide

/-! ## The choice of the controllers to start, and pod readiness -/

/-- A split text has at least one piece. -/
theorem splitOnChar_ne_nil (sep : Char) (cs : List Char) : splitOnChar sep cs ≠ [] := by
  induction cs with
  | nil => simp [splitOnChar]
  | cons c rest ih =>
      unfold splitOnChar
      rcases hs : splitOnChar sep rest with _ | ⟨piece, more⟩
      · simp
      · by_cases hc : c = sep
        · simp [hc]
        · simp [hc]

/-- The pieces of a split text, joined again with the separator, give the
text, and no piece holds the separator. -/
theorem splitOnChar_pieces (sep : Char) (cs : List Char) :
    [sep].intercalate (splitOnChar sep cs) = cs ∧ ∀ piece ∈ splitOnChar sep cs, sep ∉ piece := by
  induction cs with
  | nil => simp [splitOnChar, List.intercalate]
  | cons c rest ih =>
      unfold splitOnChar
      rcases hs : splitOnChar sep rest with _ | ⟨piece, more⟩
      · exact absurd hs (splitOnChar_ne_nil sep rest)
      · rw [hs] at ih
        obtain ⟨hjoin, hfree⟩ := ih
        by_cases hc : c = sep
        · subst hc
          simp only [if_true]
          constructor
          · rw [← hjoin]
            simp [List.intercalate, List.intersperse]
          · intro p hp
            rcases List.mem_cons.mp hp with h | h
            · subst h
              simp
            · exact hfree p h
        · simp only [if_neg hc]
          constructor
          · rw [← hjoin]
            cases more with
            | nil => simp [List.intercalate, List.intersperse]
            | cons q more2 => simp [List.intercalate, List.intersperse]
          · intro p hp
            rcases List.mem_cons.mp hp with h | h
            · subst h
              intro hmem
              rcases List.mem_cons.mp hmem with h1 | h1
              · exact hc h1.symm
              · exact hfree piece (List.mem_cons_self _ _) h1
            · exact hfree p (List.mem_cons_of_mem _ h)

/-- A text without the separator is its own and only piece. -/
theorem splitOnChar_of_not_mem (sep : Char) (cs : List Char) (h : sep ∉ cs) :
    splitOnChar sep cs = [cs] := by
  induction cs with
  | nil => rfl
  | cons c rest ih =>
      have hc : ¬ c = sep := fun e => h (by simp [e])
      have hr : sep ∉ rest := fun e => h (List.mem_cons_of_mem _ e)
      simp [splitOnChar, ih hr, hc]

/-- A text that starts with a piece free of the separator, followed by the
separator, splits into that piece and the pieces of the rest. -/
theorem splitOnChar_append (sep : Char) (piece rest : List Char) (h : sep ∉ piece) :
    splitOnChar sep (piece ++ sep :: rest) = piece :: splitOnChar sep rest := by
  induction piece with
  | nil =>
      rcases hs : splitOnChar sep rest with _ | ⟨p, more⟩
      · exact absurd hs (splitOnChar_ne_nil sep rest)
      · simp [splitOnChar, hs]
  | cons c cs ih =>
      have hc : ¬ c = sep := fun e => h (by simp [e])
      have hr : sep ∉ cs := fun e => h (List.mem_cons_of_mem _ e)
      simp [splitOnChar, ih hr, hc]

/-- Joining with a separator puts the separator before every piece but the
first. -/
theorem intercalate_cons_cons {α : Type} (sep a b : List α) (rest : List (List α)) :
    sep.intercalate (a :: b :: rest) = a ++ sep ++ sep.intercalate (b :: rest) := by
  simp [List.intercalate, List.intersperse]

/-- Splitting undoes joining: pieces free of the separator, joined with it,
split into the same pieces. -/
theorem splitOnChar_intercalate (sep : Char) (pieces : List (List Char)) (hne : pieces ≠ [])
    (hfree : ∀ piece ∈ pieces, sep ∉ piece) :
    splitOnChar sep ([sep].intercalate pieces) = pieces := by
  induction pieces with
  | nil => exact absurd rfl hne
  | cons a rest ih =>
      cases rest with
      | nil =>
          have : [sep].intercalate [a] = a := by simp [List.intercalate, List.intersperse]
          rw [this]
          exact splitOnChar_of_not_mem sep a (hfree a (List.mem_cons_self _ _))
      | cons b more =>
          rw [intercalate_cons_cons, List.append_assoc, List.singleton_append,
            splitOnChar_append sep a _ (hfree a (List.mem_cons_self _ _)),
            ih (by simp) (fun p hp => hfree p (List.mem_cons_of_mem _ hp))]

/-- The characters of the accumulating loop of `String.intercalate`. -/
theorem intercalate_go_toList (acc s : String) (l : List String) :
    (String.intercalate.go acc s l).toList =
      acc.toList ++ (l.map (fun a => s.toList ++ a.toList)).flatten := by
  induction l generalizing acc with
  | nil => simp [String.intercalate.go]
  | cons a rest ih =>
      rw [String.intercalate.go, ih]
      simp [String.toList, List.append_assoc]

/-- The characters of a list of pieces joined with a separator. -/
theorem intercalate_eq_flatten {α : Type} (sep a : List α) (rest : List (List α)) :
    sep.intercalate (a :: rest) = a ++ (rest.map (fun b => sep ++ b)).flatten := by
  induction rest generalizing a with
  | nil => simp [List.intercalate, List.intersperse]
  | cons b more ih =>
      rw [intercalate_cons_cons, ih]
      simp [List.append_assoc]

/-- The characters of `String.intercalate` are the characters of the items
joined with the characters of the separator. -/
theorem intercalate_toList (s : String) (items : List String) :
    (s.intercalate items).toList = s.toList.intercalate (items.map String.toList) := by
  cases items with
  | nil => simp [String.intercalate, List.intercalate, List.intersperse]
  | cons a rest =>
      rw [String.intercalate, intercalate_go_toList, List.map_cons, intercalate_eq_flatten]
      simp [List.map_map, Function.comp_def]

/-- The names that `controllersToStart` reads in a value that is a list of
items joined with commas are these items. -/
theorem controllers_names_eq (value : String) (items : List String) (hne : value ≠ "")
    (hjoin : ",".intercalate items = value) (hfree : ∀ item ∈ items, ',' ∉ item.toList) :
    (splitOnChar ',' value.toList).map String.mk = items := by
  have hitems : items ≠ [] := by
    intro h
    rw [h] at hjoin
    exact hne hjoin.symm
  have hchars : value.toList = [','].intercalate (items.map String.toList) := by
    rw [← hjoin, intercalate_toList]
    rfl
  rw [hchars, splitOnChar_intercalate ',' (items.map String.toList) (by simpa using hitems)
    (by
      intro piece hp
      obtain ⟨item, hi, rfl⟩ := List.mem_map.mp hp
      exact hfree item hi)]
  rw [List.map_map]
  have : (String.mk ∘ String.toList) = id := by
    funext s
    rfl
  rw [this, List.map_id]

/-- Claim C26: `controllersToStart` starts both controllers when `CONTROLLERS`
is unset or empty.  A value that is not empty is a list of items joined with
commas, in exactly one way (no item holds a comma); the ZDB controller is
started iff `zdb` is one of the items and the ZAU controller iff `zau` is; so
a value whose items are all other names starts none. -/
theorem controllersToStart_selects :
    controllersToStart none = (true, true) ∧
    controllersToStart (some "") = (true, true) ∧
    (∀ (value : String) (items : List String), value ≠ "" →
      ",".intercalate items = value → (∀ item ∈ items, ',' ∉ item.toList) →
      ((controllersToStart (some value)).1 = true ↔ "zdb" ∈ items) ∧
      ((controllersToStart (some value)).2 = true ↔ "zau" ∈ items) ∧
      ((∀ item ∈ items, item ≠ "zdb" ∧ item ≠ "zau") →
        controllersToStart (some value) = (false, false))) ∧
    (∀ value : String, ∃ items : List String,
      ",".intercalate items = value ∧ ∀ item ∈ items, ',' ∉ item.toList) := by
  refine ⟨rfl, rfl, ?_, ?_⟩
  · intro value items hne hjoin hfree
    have hnames := controllers_names_eq value items hne hjoin hfree
    unfold controllersToStart
    simp only [Option.getD_some, if_neg hne, hnames]
    refine ⟨by simp, by simp, ?_⟩
    intro hnone
    have h1 : "zdb" ∉ items := fun h => (hnone "zdb" h).1 rfl
    have h2 : "zau" ∉ items := fun h => (hnone "zau" h).2 rfl
    simp only [decide_eq_false h1, decide_eq_false h2]
  · intro value
    refine ⟨(splitOnChar ',' value.toList).map String.mk, ?_, ?_⟩
    · apply String.ext
      have hchars := intercalate_toList "," ((splitOnChar ',' value.toList).map String.mk)
      have hid : (String.toList ∘ String.mk) = id := by
        funext s
        rfl
      rw [List.map_map, hid, List.map_id] at hchars
      exact hchars.trans (splitOnChar_pieces ',' value.toList).1
    · intro item hi
      obtain ⟨piece, hp, rfl⟩ := List.mem_map.mp hi
      exact (splitOnChar_pieces ',' value.toList).2 piece hp

/-- Witness of claim C26 on the test `zdb and zau`: the value `zdb,zau` is
the items `zdb` and `zau` joined with a comma, and both controllers are
started. -/
theorem controllersToStart_selects_witness :
    controllersToStart (some "zdb,zau") = (true, true) ∧
      (controllersToStart (some "bla,zau")).1 = false :=
  ⟨Prod.ext
      ((controllersToStart_selects.2.2.1 "zdb,zau" ["zdb", "zau"] (by decide) (by decide)
        (by decide)).1.mpr (by decide))
      ((controllersToStart_selects.2.2.1 "zdb,zau" ["zdb", "zau"] (by decide) (by decide)
        (by decide)).2.1.mpr (by decide)),
    Bool.eq_false_iff.mpr (fun h =>
      absurd ((controllersToStart_selects.2.2.1 "bla,zau" ["bla", "zau"] (by decide)
        (by decide) (by decide)).1.mp h) (by decide))⟩

/-- The table of `TestControllersToStart`. -/
theorem controllersToStart_test_table :
    controllersToStart (some "zau") = (false, true) ∧
      controllersToStart (some "zdb") = (true, false) ∧
      controllersToStart (some "zdb,zau") = (true, true) ∧
      controllersToStart none = (true, true) ∧
      controllersToStart (some "bla") = (false, false) := by
  decide

/-- Claim C27: `IsRunningAndReady` holds iff the phase of the pod is Running
and its Ready condition has the status True; so it fails for a Running pod
whose Ready condition is not True and for a pod that is Ready in another
phase. -/
theorem IsRunningAndReady_iff (pod : Pod) :
    (IsRunningAndReady pod = true ↔
      pod.Phase = PodPhase.Running ∧
        ∃ c, pod.Conditions.find? (fun c => decide (c.CondType = "Ready")) = some c ∧
          c.Status = ConditionStatus.True) ∧
    (pod.Phase = PodPhase.Running →
      (∀ c, pod.Conditions.find? (fun c => decide (c.CondType = "Ready")) = some c →
        c.Status ≠ ConditionStatus.True) →
      IsRunningAndReady pod = false) ∧
    (pod.Phase ≠ PodPhase.Running → IsRunningAndReady pod = false) := by
  unfold IsRunningAndReady IsPodReady
  rcases hf : pod.Conditions.find? (fun c => decide (c.CondType = "Ready")) with _ | c
  · simp [hf]
  · by_cases hs : c.Status = ConditionStatus.True
    · by_cases hp : pod.Phase = PodPhase.Running
      · simp [hf, hs, hp]
      · simp [hf, hs, hp]
    · by_cases hp : pod.Phase = PodPhase.Running
      · simp [hf, hs, hp]
      · simp [hf, hs, hp]

/-- Witness of claim C27 on the test `pod is not running and ready`. -/
theorem IsRunningAndReady_iff_witness :
    IsRunningAndReady (fixturePodInPhase "pod" "test" PodPhase.Unknown "Ready") = false :=
  (IsRunningAndReady_iff (fixturePodInPhase "pod" "test" PodPhase.Unknown "Ready")).2.2
    (by decide)

/-- The table of `TestIsRunningAndReady`. -/
theorem IsRunningAndReady_test_table :
    IsRunningAndReady (fixturePodInPhase "pod" "test" PodPhase.Running "Ready") = true ∧
      IsRunningAndReady
        { fixtureSimplePod "pod" "node" with
          Phase := PodPhase.Running,
          Conditions := [{ CondType := "Ready", Status := ConditionStatus.False }] } = false ∧
      IsRunningAndReady
        { fixtureSimplePod "pod" "node" with
          Phase := PodPhase.Pending,
          Conditions := [{ CondType := "Ready", Status := ConditionStatus.False }] } = false ∧
      IsRunningAndReady (fixturePodInPhase "pod" "test" PodPhase.Unknown "Ready") = false := by
  decide

/-! ## The ZDB of a pod -/

/-- The first entry of a filtered list is the first entry of the list that
passes the filter. -/
theorem head?_filter_eq_find? {α : Type} (p : α → Bool) (l : List α) :
    (l.filter p).head? = l.find? p := by
  induction l with
  | nil => rfl
  | cons a rest ih =>
      by_cases ha : p a = true
      · simp [List.filter, List.find?, ha]
      · simp [List.filter, List.find?, ha, ih]

/-- The ZDBs that `GetZdbForPod` collects are those that select the pod. -/
theorem matchedZdbs_eq_filter (pod : Pod) (items : List ZoneDisruptionBudget) :
    matchedZdbs pod items = items.filter (selectsPod pod) := by
  unfold matchedZdbs
  congr 1
  funext zdb
  unfold selectsPod
  rcases LabelSelectorAsSelector zdb.Spec.Selector with e | sel
  · rfl
  · simp only
    rcases he : sel.Empty with _ | _ <;> rcases hm : sel.Matches pod.Labels with _ | _ <;> rfl

/-- The conversion loop fails when one of its items is rejected. -/
theorem collectRequirements_error {α : Type} (f : α → Except String Requirement) (l : List α)
    (a : α) (ha : a ∈ l) (hf : ∃ e, f a = Except.error e) :
    ∃ e, collectRequirements f l = Except.error e := by
  induction l with
  | nil => simp at ha
  | cons b rest ih =>
      rcases hb : f b with e | r
      · exact ⟨e, by simp [collectRequirements, hb]⟩
      · have hne : a ≠ b := by
          intro hab
          obtain ⟨e, he⟩ := hf
          rw [hab, hb] at he
          cases he
        have hmem : a ∈ rest := by
          rcases List.mem_cons.mp ha with h | h
          · exact absurd h hne
          · exact h
        obtain ⟨e, he⟩ := ih hmem
        exact ⟨e, by simp [collectRequirements, hb, he]⟩

/-- An entry read from a Go map is one of its entries. -/
theorem mem_mapEntries {V : Type} (m : GoMap V) (k : String) (v : V)
    (h : GoMap.get? m k = some v) : (k, v) ∈ mapEntries m := by
  induction m with
  | nil => simp [GoMap.get?] at h
  | cons e rest ih =>
      obtain ⟨k1, v1⟩ := e
      by_cases h1 : k1 = k
      · simp only [GoMap.get?, h1, if_true, Option.some.injEq] at h
        simp [mapEntries, h1, h]
      · simp only [GoMap.get?, h1, if_false] at h
        have h2 : ¬ k = k1 := fun e => h1 e.symm
        simp [mapEntries, ih h, h2]

/-- A requirement is rejected when its key is not a qualified name, when
the number of its values does not suit the operator, or when one of its
values is not a valid label value. -/
theorem NewRequirement_error (key : String) (op : SelectionOperator) (vals : List String)
    (h : IsQualifiedName key = false ∨ valuesCountAllowed op vals.length = false ∨
      ∃ v ∈ vals, IsValidLabelValue v = false) :
    ∃ e, NewRequirement key op vals = Except.error e := by
  unfold NewRequirement
  by_cases hk : IsQualifiedName key = false
  · exact ⟨_, by rw [if_pos hk]⟩
  · rw [if_neg hk]
    by_cases hn : valuesCountAllowed op vals.length = false
    · exact ⟨_, by rw [if_pos hn]⟩
    · rw [if_neg hn]
      rcases h with h | h | ⟨v, hv, hbad⟩
      · exact absurd h hk
      · exact absurd h hn
      · have hall : vals.all IsValidLabelValue = false := by
          rw [List.all_eq_false]
          exact ⟨v, hv, by simp [hbad]⟩
        exact ⟨_, by rw [if_pos hall]⟩

/-- An expression is rejected when its operator is none of the four, or when
the requirement built from it is rejected. -/
theorem requirementOfExpression_error (expr : LabelSelectorRequirement)
    (h : (expr.Operator ≠ LabelSelectorOpIn ∧ expr.Operator ≠ LabelSelectorOpNotIn ∧
        expr.Operator ≠ LabelSelectorOpExists ∧ expr.Operator ≠ LabelSelectorOpDoesNotExist) ∨
      IsQualifiedName expr.Key = false ∨
      (∃ v ∈ expr.Values, IsValidLabelValue v = false) ∨
      ((expr.Operator = LabelSelectorOpIn ∨ expr.Operator = LabelSelectorOpNotIn) ∧
        expr.Values = []) ∨
      ((expr.Operator = LabelSelectorOpExists ∨ expr.Operator = LabelSelectorOpDoesNotExist) ∧
        expr.Values ≠ [])) :
    ∃ e, requirementOfExpression expr = Except.error e := by
  unfold requirementOfExpression
  by_cases h1 : expr.Operator = LabelSelectorOpIn
  · rw [if_pos h1]
    apply NewRequirement_error
    rcases h with h | h | h | ⟨_, hv⟩ | ⟨ho, _⟩
    · exact absurd h1 h.1
    · exact Or.inl h
    · exact Or.inr (Or.inr h)
    · exact Or.inr (Or.inl (by simp [valuesCountAllowed, hv]))
    · rw [h1] at ho
      exact absurd ho (by decide)
  · rw [if_neg h1]
    by_cases h2 : expr.Operator = LabelSelectorOpNotIn
    · rw [if_pos h2]
      apply NewRequirement_error
      rcases h with h | h | h | ⟨_, hv⟩ | ⟨ho, _⟩
      · exact absurd h2 h.2.1
      · exact Or.inl h
      · exact Or.inr (Or.inr h)
      · exact Or.inr (Or.inl (by simp [valuesCountAllowed, hv]))
      · rw [h2] at ho
        exact absurd ho (by decide)
    · rw [if_neg h2]
      by_cases h3 : expr.Operator = LabelSelectorOpExists
      · rw [if_pos h3]
        apply NewRequirement_error
        rcases h with h | h | h | ⟨ho, _⟩ | ⟨_, hv⟩
        · exact absurd h3 h.2.2.1
        · exact Or.inl h
        · exact Or.inr (Or.inr h)
        · rw [h3] at ho
          exact absurd ho (by decide)
        · exact Or.inr (Or.inl (by simp [valuesCountAllowed, hv]))
      · rw [if_neg h3]
        by_cases h4 : expr.Operator = LabelSelectorOpDoesNotExist
        · rw [if_pos h4]
          apply NewRequirement_error
          rcases h with h | h | h | ⟨ho, _⟩ | ⟨_, hv⟩
          · exact absurd h4 h.2.2.2
          · exact Or.inl h
          · exact Or.inr (Or.inr h)
          · rw [h4] at ho
            exact absurd ho (by decide)
          · exact Or.inr (Or.inl (by simp [valuesCountAllowed, hv]))
        · rw [if_neg h4]
          exact ⟨_, rfl⟩

/-- A ZDB whose selector fails to convert selects no pod. -/
theorem selectsPod_of_error (pod : Pod) (zdb : ZoneDisruptionBudget)
    (h : ∃ e, LabelSelectorAsSelector zdb.Spec.Selector = Except.error e) :
    selectsPod pod zdb = false := by
  obtain ⟨e, he⟩ := h
  simp [selectsPod, he]

/-- A Go map of length 0 has no entry. -/
theorem GoMap.eq_nil_of_len_eq_zero {V : Type} (m : GoMap V) (h : GoMap.len m = 0) : m = [] := by
  induction m with
  | nil => rfl
  | cons e rest ih =>
      obtain ⟨k, v⟩ := e
      simp only [GoMap.len] at h
      by_cases hc : GoMap.contains rest k = true
      · rw [if_pos hc] at h
        rw [ih h] at hc
        simp [GoMap.contains, GoMap.get?] at hc
      · rw [if_neg hc] at h
        omega

/-- A ZDB selects no pod when a `matchLabels` pair of its selector has a key
that is not a qualified name or a value that is not a valid label value, or
when an expression of its selector has such a key or value, an operator that
is none of the four, no value for `In` or `NotIn`, or a value for `Exists` or
`DoesNotExist`. -/
theorem selectsPod_invalid (pod : Pod) (zdb : ZoneDisruptionBudget) (s : LabelSelector)
    (hs : zdb.Spec.Selector = some s)
    (h : (∃ k v, GoMap.get? s.MatchLabels k = some v ∧
        (IsQualifiedName k = false ∨ IsValidLabelValue v = false)) ∨
      ∃ expr ∈ s.MatchExpressions,
        (expr.Operator ≠ LabelSelectorOpIn ∧ expr.Operator ≠ LabelSelectorOpNotIn ∧
          expr.Operator ≠ LabelSelectorOpExists ∧
          expr.Operator ≠ LabelSelectorOpDoesNotExist) ∨
        IsQualifiedName expr.Key = false ∨
        (∃ v ∈ expr.Values, IsValidLabelValue v = false) ∨
        ((expr.Operator = LabelSelectorOpIn ∨ expr.Operator = LabelSelectorOpNotIn) ∧
          expr.Values = []) ∨
        ((expr.Operator = LabelSelectorOpExists ∨
          expr.Operator = LabelSelectorOpDoesNotExist) ∧ expr.Values ≠ [])) :
    selectsPod pod zdb = false := by
  apply selectsPod_of_error
  rw [hs]
  unfold LabelSelectorAsSelector
  have hpos : ¬ GoMap.len s.MatchLabels + s.MatchExpressions.length = 0 := by
    intro h0
    rcases h with ⟨k, v, hg, _⟩ | ⟨expr, he, _⟩
    · have hnil := GoMap.eq_nil_of_len_eq_zero s.MatchLabels (by omega)
      rw [hnil] at hg
      simp [GoMap.get?] at hg
    · have hlen : s.MatchExpressions.length = 0 := by omega
      rw [List.length_eq_zero.mp hlen] at he
      simp at he
  simp only [if_neg hpos]
  rcases h with ⟨k, v, hg, hbad⟩ | ⟨expr, he, hbad⟩
  · obtain ⟨e, herr⟩ := collectRequirements_error
      (fun kv => NewRequirement kv.1 SelectionOperator.Equals [kv.2]) (mapEntries s.MatchLabels)
      (k, v) (mem_mapEntries s.MatchLabels k v hg)
      (NewRequirement_error k SelectionOperator.Equals [v]
        (by
          rcases hbad with hk | hv
          · exact Or.inl hk
          · exact Or.inr (Or.inr ⟨v, by simp, hv⟩)))
    exact ⟨e, by simp [herr]⟩
  · obtain ⟨e, herr⟩ := collectRequirements_error requirementOfExpression s.MatchExpressions
      expr he (requirementOfExpression_error expr hbad)
    rcases hl : collectRequirements
        (fun kv => NewRequirement kv.1 SelectionOperator.Equals [kv.2])
        (mapEntries s.MatchLabels) with e1 | rs
    · exact ⟨e1, by simp [hl]⟩
    · exact ⟨e, by simp [hl, herr]⟩

/-- Claim C28, as amended: for a pod with at least one label, when the ZDBs of
its namespace are listed, `GetZdbForPod` returns the first ZDB of the listing
whose selector is valid, not empty and matches the labels of the pod, and no
ZDB, with no error, iff there is none; a pod without labels gets no ZDB and
no error, whatever the ZDBs are; a ZDB with a nil or an empty selector selects
no pod; a ZDB whose selector is not valid (a key that is not a qualified
name, a value that is not a label value, an unknown operator, or a number of
values that does not suit the operator) selects no pod; and the result
depends on the client only through the listing of the namespace of the
pod. -/
theorem GetZdbForPod_first_match :
    (∀ (c : Client) (pod : Pod) (items : List ZoneDisruptionBudget),
      GoMap.len pod.Labels ≠ 0 → c.ListZdb pod.Namespace = Except.ok items →
      GetZdbForPod c pod = Except.ok (items.find? (selectsPod pod)) ∧
        (∀ zdb, GetZdbForPod c pod = Except.ok (some zdb) ↔
          selectsPod pod zdb = true ∧
            ∃ before after, items = before ++ zdb :: after ∧
              ∀ x ∈ before, selectsPod pod x = false) ∧
        (GetZdbForPod c pod = Except.ok none ↔ ∀ x ∈ items, selectsPod pod x = false)) ∧
    (∀ (c : Client) (pod : Pod), GoMap.len pod.Labels = 0 →
      GetZdbForPod c pod = Except.ok none) ∧
    (∀ (pod : Pod) (zdb : ZoneDisruptionBudget),
      (zdb.Spec.Selector = none ∨
        ∃ s, zdb.Spec.Selector = some s ∧ s.MatchLabels = [] ∧ s.MatchExpressions = []) →
      selectsPod pod zdb = false) ∧
    (∀ (pod : Pod) (zdb : ZoneDisruptionBudget) (s : LabelSelector),
      zdb.Spec.Selector = some s →
      ((∃ k v, GoMap.get? s.MatchLabels k = some v ∧
          (IsQualifiedName k = false ∨ IsValidLabelValue v = false)) ∨
        ∃ expr ∈ s.MatchExpressions,
          (expr.Operator ≠ LabelSelectorOpIn ∧ expr.Operator ≠ LabelSelectorOpNotIn ∧
            expr.Operator ≠ LabelSelectorOpExists ∧
            expr.Operator ≠ LabelSelectorOpDoesNotExist) ∨
          IsQualifiedName expr.Key = false ∨
          (∃ v ∈ expr.Values, IsValidLabelValue v = false) ∨
          ((expr.Operator = LabelSelectorOpIn ∨ expr.Operator = LabelSelectorOpNotIn) ∧
            expr.Values = []) ∨
          ((expr.Operator = LabelSelectorOpExists ∨
            expr.Operator = LabelSelectorOpDoesNotExist) ∧ expr.Values ≠ [])) →
      selectsPod pod zdb = false) ∧
    (∀ (c1 c2 : Client) (pod : Pod), c1.ListZdb pod.Namespace = c2.ListZdb pod.Namespace →
      GetZdbForPod c1 pod = GetZdbForPod c2 pod) := by
  refine ⟨?_, ?_, ?_, ?_, ?_⟩
  · intro c pod items hlen hlist
    have hres : GetZdbForPod c pod = Except.ok (items.find? (selectsPod pod)) := by
      unfold GetZdbForPod
      rw [if_neg hlen, hlist]
      simp only
      rw [matchedZdbs_eq_filter, head?_filter_eq_find?]
    refine ⟨hres, ?_, ?_⟩
    · intro zdb
      rw [hres]
      simp only [Except.ok.injEq]
      rw [List.find?_eq_some]
      constructor
      · rintro ⟨h1, before, after, h2, h3⟩
        exact ⟨h1, before, after, h2, fun x hx => by simpa using h3 x hx⟩
      · rintro ⟨h1, before, after, h2, h3⟩
        exact ⟨h1, before, after, h2, fun x hx => by simp [h3 x hx]⟩
    · rw [hres]
      simp only [Except.ok.injEq]
      rw [List.find?_eq_none]
      constructor
      · intro h x hx
        simpa using h x hx
      · intro h x hx
        simp [h x hx]
  · intro c pod hlen
    unfold GetZdbForPod
    rw [if_pos hlen]
  · intro pod zdb hsel
    unfold selectsPod
    rcases hsel with h | ⟨s, h, h1, h2⟩
    · rw [h]
      rfl
    · rw [h]
      simp [LabelSelectorAsSelector, h1, h2, Selector.Empty, GoMap.len]
  · intro pod zdb s hs hbad
    exact selectsPod_invalid pod zdb s hs hbad
  · intro c1 c2 pod hlist
    unfold GetZdbForPod
    rw [hlist]

/-- Witness of claim C28: the pod of the test `Should allow evictions` in a
namespace that lists two ZDBs, first one whose selector has the key
`bad key!` and then the ZDB with the label of the pod.  The first is not
valid and is passed over; the second is the one returned. -/
theorem GetZdbForPod_first_match_witness :
    GetZdbForPod (fixtureListClient (fixtureEvictionPod "test-allow" "test1")
        (fixtureEvictionNode "test-allow")
        [fixtureBadKeyZdb, fixtureZdb "test1" 1 false [("az-1", 1)] []])
        (fixtureEvictionPod "test-allow" "test1") =
      Except.ok (some (fixtureZdb "test1" 1 false [("az-1", 1)] [])) :=
  ((GetZdbForPod_first_match.1
    (fixtureListClient (fixtureEvictionPod "test-allow" "test1")
      (fixtureEvictionNode "test-allow")
      [fixtureBadKeyZdb, fixtureZdb "test1" 1 false [("az-1", 1)] []])
    (fixtureEvictionPod "test-allow" "test1")
    [fixtureBadKeyZdb, fixtureZdb "test1" 1 false [("az-1", 1)] []] (by decide) rfl).2.1
    (fixtureZdb "test1" 1 false [("az-1", 1)] [])).mpr
    ⟨by decide, [fixtureBadKeyZdb], [], rfl, by decide⟩

/-- Counterexample to claim C28 as stated: a Running and Ready pod without
labels, and in its namespace a ZDB whose selector, `app` does not exist, is
valid, is not empty and matches the pod.  `GetZdbForPod` returns no ZDB. -/
theorem GetZdbForPod_unlabelled_pod_unmatched :
    selectsPod { fixtureEvictionPod "bare" "any" with Labels := [] } fixtureAbsenceZdb = true ∧
      (fixtureClient { fixtureEvictionPod "bare" "any" with Labels := [] }
        (fixtureEvictionNode "bare") fixtureAbsenceZdb).ListZdb "default" =
        Except.ok [fixtureAbsenceZdb] ∧
      GetZdbForPod (fixtureClient { fixtureEvictionPod "bare" "any" with Labels := [] }
        (fixtureEvictionNode "bare") fixtureAbsenceZdb)
        { fixtureEvictionPod "bare" "any" with Labels := [] } = Except.ok none := by
  decide

/-- The validity checks of label keys and values on examples: plain and
prefixed names are accepted; a blank, a leading dash, an upper-case prefix,
two slashes and a name of 64 characters are not. -/
theorem IsQualifiedName_examples :
    IsQualifiedName "name" = true ∧
      IsQualifiedName "app.kubernetes.io/name" = true ∧
      IsQualifiedName "controller-revision-hash" = true ∧
      IsQualifiedName "bad key!" = false ∧
      IsQualifiedName "" = false ∧
      IsQualifiedName "-name" = false ∧
      IsQualifiedName "Example.com/name" = false ∧
      IsQualifiedName "a/b/c" = false ∧
      IsQualifiedName "/name" = false ∧
      IsQualifiedName (String.mk (List.replicate 64 'a')) = false ∧
      IsQualifiedName (String.mk (List.replicate 63 'a')) = true ∧
      IsValidLabelValue "" = true ∧
      IsValidLabelValue "test1" = true ∧
      IsValidLabelValue "a b" = false ∧
      IsValidLabelValue "v1." = false := by
  decide
/-! ## The zone buckets -/

/-- A key is in a map after an assignment iff it is the key assigned or was in
the map. -/
theorem GoMap.contains_set {V : Type} (m : GoMap V) (k key : String) (v : V) :
    GoMap.contains (GoMap.set m k v) key = true ↔ key = k ∨ GoMap.contains m key = true := by
  by_cases h : key = k
  · subst h
    simp [GoMap.contains_set_same]
  · unfold GoMap.contains
    rw [GoMap.get?_set_other m k key v h]
    simp [h]

/-- The lookups of `resolveZones` are those of the pods given, in order. -/
theorem resolveZones_pods (pods : List Pod) :
    ∀ h : Helper, (resolveZones h pods).map (fun r => r.1) = pods := by
  induction pods with
  | nil => intro h; rfl
  | cons pod rest ih =>
      intro h
      simp [resolveZones, ih]

/-- One iteration of `GetZonePodsMap`: the pod is appended to the bucket of its
zone when the zone is found, the other buckets stay, and the helper is the
one that the lookup leaves. -/
theorem addPodToZoneMap_step (m : GoMap (List Pod)) (h : Helper) (pod : Pod) (z : String) :
    podsOfZone (addPodToZoneMap (m, h) pod).1 z =
        podsOfZone m z ++ resolvedIn z [(pod, (getPodZone h pod).1)] ∧
      (GoMap.contains (addPodToZoneMap (m, h) pod).1 z = true ↔
        GoMap.contains m z = true ∨
          ((getPodZone h pod).1.2 = true ∧ (getPodZone h pod).1.1 = z)) ∧
      (addPodToZoneMap (m, h) pod).2 = (getPodZone h pod).2 := by
  unfold addPodToZoneMap
  rcases hg : getPodZone h pod with ⟨⟨zone, found⟩, h1⟩
  cases found with
  | false => simp [resolvedIn]
  | true =>
      simp only
      rcases hm : GoMap.get? m zone with _ | ps
      · simp only
        refine ⟨?_, ?_, trivial⟩
        · rw [podsOfZone_set]
          by_cases hz : z = zone
          · subst hz
            simp [resolvedIn, podsOfZone, hm]
          · have hz2 : ¬ zone = z := fun e => hz e.symm
            simp [resolvedIn, hz, hz2]
        · rw [GoMap.contains_set]
          constructor
          · rintro (h2 | h2)
            · exact Or.inr ⟨trivial, h2.symm⟩
            · exact Or.inl h2
          · rintro (h2 | ⟨_, h2⟩)
            · exact Or.inr h2
            · exact Or.inl h2.symm
      · simp only
        refine ⟨?_, ?_, trivial⟩
        · rw [podsOfZone_set]
          by_cases hz : z = zone
          · subst hz
            simp [resolvedIn, podsOfZone, hm]
          · have hz2 : ¬ zone = z := fun e => hz e.symm
            simp [resolvedIn, hz, hz2]
        · rw [GoMap.contains_set]
          constructor
          · rintro (h2 | h2)
            · exact Or.inr ⟨trivial, h2.symm⟩
            · exact Or.inl h2
          · rintro (h2 | ⟨_, h2⟩)
            · exact Or.inr h2
            · exact Or.inl h2.symm

/-- The pods resolved to a zone among two runs of lookups. -/
theorem resolvedIn_append (z : String) (xs ys : List (Pod × String × Bool)) :
    resolvedIn z (xs ++ ys) = resolvedIn z xs ++ resolvedIn z ys := by
  simp [resolvedIn]

/-- The loop of `GetZonePodsMap` from any zone map: every bucket grows by the
pods resolved to its zone, in input order, and the keys are the old keys and
the zones found. -/
theorem foldl_addPodToZoneMap_buckets (pods : List Pod) :
    ∀ (m : GoMap (List Pod)) (h : Helper) (z : String),
      podsOfZone (pods.foldl addPodToZoneMap (m, h)).1 z =
          podsOfZone m z ++ resolvedIn z (resolveZones h pods) ∧
        (GoMap.contains (pods.foldl addPodToZoneMap (m, h)).1 z = true ↔
          GoMap.contains m z = true ∨
            ∃ r ∈ resolveZones h pods, r.2.2 = true ∧ r.2.1 = z) := by
  induction pods with
  | nil =>
      intro m h z
      simp [resolveZones, resolvedIn]
  | cons pod rest ih =>
      intro m h z
      obtain ⟨s1, s2, s3⟩ := addPodToZoneMap_step m h pod z
      have hacc : addPodToZoneMap (m, h) pod =
          ((addPodToZoneMap (m, h) pod).1, (getPodZone h pod).2) := by
        rw [← s3]
      simp only [List.foldl_cons]
      rw [hacc]
      obtain ⟨i1, i2⟩ := ih (addPodToZoneMap (m, h) pod).1 (getPodZone h pod).2 z
      refine ⟨?_, ?_⟩
      · rw [i1, s1]
        simp only [resolveZones]
        rw [List.append_assoc, ← resolvedIn_append]
        rfl
      · rw [i2, s2]
        simp only [resolveZones, List.mem_cons]
        constructor
        · rintro ((h1 | h1) | ⟨r, hr, h1⟩)
          · exact Or.inl h1
          · exact Or.inr ⟨_, Or.inl rfl, h1⟩
          · exact Or.inr ⟨r, Or.inr hr, h1⟩
        · rintro (h1 | ⟨r, hr | hr, h1⟩)
          · exact Or.inl (Or.inl h1)
          · subst hr
            exact Or.inl (Or.inr h1)
          · exact Or.inr ⟨r, hr, h1⟩

/-- In a list without repetitions that holds `a`, exactly one entry is `a`. -/
theorem sum_indicator_of_mem (ks : List String) (a : String) (hn : ks.Nodup) (ha : a ∈ ks) :
    (ks.map (fun z => if a = z then 1 else 0)).sum = 1 := by
  induction ks with
  | nil => simp at ha
  | cons k rest ih =>
      rw [List.nodup_cons] at hn
      by_cases hk : a = k
      · subst hk
        have hzero : (rest.map (fun z => if a = z then 1 else 0)).sum = 0 := by
          apply List.sum_eq_zero
          intro x hx
          rw [List.mem_map] at hx
          obtain ⟨z, hz, rfl⟩ := hx
          have : ¬ a = z := fun e => hn.1 (e ▸ hz)
          simp [this]
        simp [hzero]
      · have har : a ∈ rest := by
          rcases List.mem_cons.mp ha with h | h
          · exact absurd h hk
          · exact h
        simp [hk, ih hn.2 har]

/-- Over a list of zones without repetitions that holds every zone found, the
sizes of the sets of pods resolved to each zone add up to the number of pods
whose zone was found. -/
theorem sum_resolvedIn (ks : List String) (hn : ks.Nodup) (rs : List (Pod × String × Bool))
    (hall : ∀ r ∈ rs, r.2.2 = true → r.2.1 ∈ ks) :
    (ks.map (fun z => (resolvedIn z rs).length)).sum = (rs.filter (fun r => r.2.2)).length := by
  induction rs with
  | nil => simp [resolvedIn]
  | cons r rest ih =>
      have ih1 := ih (fun x hx => hall x (List.mem_cons_of_mem _ hx))
      have hsplit : ∀ z, (resolvedIn z (r :: rest)).length =
          (if r.2.2 = true ∧ r.2.1 = z then 1 else 0) + (resolvedIn z rest).length := by
        intro z
        unfold resolvedIn
        by_cases hc : r.2.2 = true ∧ r.2.1 = z
        · simp [List.filter, hc.1, hc.2]
          omega
        · rw [if_neg hc]
          have : (r.2.2 && decide (r.2.1 = z)) = false := by
            rcases hb : r.2.2 with _ | _
            · rfl
            · simp only [Bool.true_and, decide_eq_false_iff_not]
              exact fun e => hc ⟨hb, e⟩
          simp [List.filter, this]
      simp only [hsplit, List.sum_map_add, ih1]
      rcases hb : r.2.2 with _ | _
      · simp [List.filter, hb]
      · have hmem := hall r (List.mem_cons_self _ _) hb
        have hone := sum_indicator_of_mem ks r.2.1 hn hmem
        simp [List.filter, hb, hone]
        omega

/-- Claim C29: `GetZonePodsMap` returns a map in which the bucket of every
zone is the list of the pods whose lookup found that zone, in input order, so
a pod whose zone is found is in the bucket of that zone and in no other, and a
pod whose zone is not found is in no bucket; a zone is a key of the map iff
some lookup found it, so no bucket is empty; and the sizes of the buckets add
up to the number of pods whose zone was found. -/
theorem GetZonePodsMap_buckets (h : Helper) (pods : List Pod) :
    (resolveZones h pods).map (fun r => r.1) = pods ∧
    (∀ z, podsOfZone (GetZonePodsMap h pods).1 z = resolvedIn z (resolveZones h pods)) ∧
    (∀ z, GoMap.contains (GetZonePodsMap h pods).1 z = true ↔
      ∃ r ∈ resolveZones h pods, r.2.2 = true ∧ r.2.1 = z) ∧
    (∀ z, GoMap.contains (GetZonePodsMap h pods).1 z = true →
      podsOfZone (GetZonePodsMap h pods).1 z ≠ []) ∧
    ((GetSortedZonesFromMap (GetZonePodsMap h pods).1).map
        (fun z => (podsOfZone (GetZonePodsMap h pods).1 z).length)).sum =
      ((resolveZones h pods).filter (fun r => r.2.2)).length := by
  have hb : ∀ z, podsOfZone (GetZonePodsMap h pods).1 z = resolvedIn z (resolveZones h pods) := by
    intro z
    have := (foldl_addPodToZoneMap_buckets pods [] h z).1
    simpa [GetZonePodsMap, podsOfZone, GoMap.get?] using this
  have hk : ∀ z, GoMap.contains (GetZonePodsMap h pods).1 z = true ↔
      ∃ r ∈ resolveZones h pods, r.2.2 = true ∧ r.2.1 = z := by
    intro z
    have := (foldl_addPodToZoneMap_buckets pods [] h z).2
    simpa [GetZonePodsMap, GoMap.contains, GoMap.get?] using this
  refine ⟨resolveZones_pods pods h, hb, hk, ?_, ?_⟩
  · intro z hz
    rw [hb z]
    obtain ⟨r, hr, hf, hzone⟩ := (hk z).mp hz
    intro hnil
    have hmem : r.1 ∈ resolvedIn z (resolveZones h pods) := by
      unfold resolvedIn
      rw [List.mem_map]
      exact ⟨r, List.mem_filter.mpr ⟨hr, by simp [hf, hzone]⟩, rfl⟩
    rw [hnil] at hmem
    simp at hmem
  · simp only [hb]
    apply sum_resolvedIn _ (nodup_GetSortedZonesFromMap _)
    intro r hr hf
    rw [mem_GetSortedZonesFromMap, hk]
    exact ⟨r, hr, hf, rfl⟩

/-- Witness of claim C29 on the nine pods of the controller tests: the bucket
of the first zone is not empty. -/
theorem GetZonePodsMap_buckets_witness :
    podsOfZone (GetZonePodsMap (fixtureHelper "test1") (fixturePods "test1" [] [] [])).1
      "us-east-1a" ≠ [] :=
  (GetZonePodsMap_buckets (fixtureHelper "test1") (fixturePods "test1" [] [] [])).2.2.2.1
    "us-east-1a" (by decide)

/-- The buckets of the nine pods of the controller tests followed by a pod
without node: three buckets of three pods in input order, and the pod without
node in none. -/
theorem GetZonePodsMap_test :
    (podsOfZone (GetZonePodsMap (fixtureHelper "t")
        (fixturePods "t" [] [] [] ++ [fixtureSimplePod "stray" ""])).1 "us-east-1a").map
        (fun p => p.Name) = ["t-0", "t-3", "t-6"] ∧
      (podsOfZone (GetZonePodsMap (fixtureHelper "t")
        (fixturePods "t" [] [] [] ++ [fixtureSimplePod "stray" ""])).1 "us-east-1b").map
        (fun p => p.Name) = ["t-1", "t-4", "t-7"] ∧
      (podsOfZone (GetZonePodsMap (fixtureHelper "t")
        (fixturePods "t" [] [] [] ++ [fixtureSimplePod "stray" ""])).1 "us-east-1c").map
        (fun p => p.Name) = ["t-2", "t-5", "t-8"] ∧
      GetSortedZonesFromMap (GetZonePodsMap (fixtureHelper "t")
        (fixturePods "t" [] [] [] ++ [fixtureSimplePod "stray" ""])).1 =
        ["us-east-1a", "us-east-1b", "us-east-1c"] := by
  decide

/-! ## The frame of the decrement -/

/-- The in-memory change of `checkAndDecrement` outside the counter of the zone
and the entry of the pod: the other counters, the other entries and the other
fields of the ZDB stay. -/
theorem recordDisruption_frame (zdb : ZoneDisruptionBudget) (zone podName : String) (now : Nat) :
    (∀ z, z ≠ zone →
      GoMap.get? (recordDisruption zdb zone podName now).Status.DisruptionsAllowed z =
        GoMap.get? zdb.Status.DisruptionsAllowed z) ∧
    (∀ name, name ≠ podName →
      GoMap.get? (recordDisruption zdb zone podName now).Status.DisruptedPods name =
        GoMap.get? zdb.Status.DisruptedPods name) ∧
    (recordDisruption zdb zone podName now).Status.ObservedGeneration =
      zdb.Status.ObservedGeneration ∧
    (recordDisruption zdb zone podName now).Status.CurrentHealthy = zdb.Status.CurrentHealthy ∧
    (recordDisruption zdb zone podName now).Status.CurrentUnhealthy =
      zdb.Status.CurrentUnhealthy ∧
    (recordDisruption zdb zone podName now).Status.DesiredHealthy = zdb.Status.DesiredHealthy ∧
    (recordDisruption zdb zone podName now).Status.ExpectedPods = zdb.Status.ExpectedPods ∧
    (recordDisruption zdb zone podName now).Spec = zdb.Spec ∧
    (recordDisruption zdb zone podName now).Name = zdb.Name ∧
    (recordDisruption zdb zone podName now).Namespace = zdb.Namespace ∧
    (recordDisruption zdb zone podName now).Generation = zdb.Generation := by
  refine ⟨?_, ?_, rfl, rfl, rfl, rfl, rfl, rfl, rfl, rfl, rfl⟩
  · intro z hz
    exact GoMap.get?_set_other _ zone z _ hz
  · intro name hn
    exact GoMap.get?_set_other _ podName name _ hn

/-- Claim C30: a status update that `checkAndDecrement` issues outside dry-run
mode sends the ZDB it was given with two changes: the counter of the zone of
the pod in `disruptionsAllowed`, which was above 0 and so was an entry of the
map, is one lower, and `disruptedPods` maps the name of the pod to the current
time.  The counters of the other zones, the other entries of `disruptedPods`,
`observedGeneration`, `currentHealthy`, `currentUnhealthy`, `desiredHealthy`,
`expectedPods` and the spec are sent as they were. -/
theorem checkAndDecrement_frame (c : Client) (attempt : Nat) (pod : Pod)
    (zdb : ZoneDisruptionBudget) (dryRun : Bool) (w : StatusWrite)
    (hw : (checkAndDecrement c attempt pod zdb dryRun).Write = some w) :
    dryRun = false ∧ (checkAndDecrement c attempt pod zdb dryRun).Zdb = w.Object ∧
    ∃ zone, getZone c attempt pod = Except.ok zone ∧
      0 < getInt zdb.Status.DisruptionsAllowed zone ∧
      GoMap.contains zdb.Status.DisruptionsAllowed zone = true ∧
      zdb.Status.DisruptionsAllowed ≠ [] ∧
      getInt w.Object.Status.DisruptionsAllowed zone =
        getInt zdb.Status.DisruptionsAllowed zone - 1 ∧
      GoMap.get? w.Object.Status.DisruptedPods pod.Name = some (c.Now attempt) ∧
      (∀ z, z ≠ zone →
        GoMap.get? w.Object.Status.DisruptionsAllowed z =
          GoMap.get? zdb.Status.DisruptionsAllowed z) ∧
      (∀ name, name ≠ pod.Name →
        GoMap.get? w.Object.Status.DisruptedPods name =
          GoMap.get? zdb.Status.DisruptedPods name) ∧
      w.Object.Status.ObservedGeneration = zdb.Status.ObservedGeneration ∧
      w.Object.Status.CurrentHealthy = zdb.Status.CurrentHealthy ∧
      w.Object.Status.CurrentUnhealthy = zdb.Status.CurrentUnhealthy ∧
      w.Object.Status.DesiredHealthy = zdb.Status.DesiredHealthy ∧
      w.Object.Status.ExpectedPods = zdb.Status.ExpectedPods ∧
      w.Object.Spec = zdb.Spec ∧ w.Object.Generation = zdb.Generation := by
  rcases checkAndDecrement_cases c attempt pod zdb dryRun with
    ⟨hnone, _⟩ | ⟨hdry, _, _, zone, hz, hpos, heq⟩
  · rw [hnone] at hw
    simp at hw
  · rw [heq] at hw ⊢
    simp only [Option.some.injEq] at hw
    subst hw
    have hin : GoMap.contains zdb.Status.DisruptionsAllowed zone = true := by
      unfold GoMap.contains
      unfold getInt at hpos
      rcases hg : GoMap.get? zdb.Status.DisruptionsAllowed zone with _ | v
      · rw [hg] at hpos
        simp at hpos
      · rfl
    have hne : zdb.Status.DisruptionsAllowed ≠ [] := by
      intro hnil
      rw [hnil] at hin
      simp [GoMap.contains, GoMap.get?] at hin
    obtain ⟨e1, e2, _⟩ := recordDisruption_effect zdb zone pod.Name (c.Now attempt)
    obtain ⟨f1, f2, f3, f4, f5, f6, f7, f8, _, _, f11⟩ :=
      recordDisruption_frame zdb zone pod.Name (c.Now attempt)
    exact ⟨hdry, rfl, zone, hz, hpos, hin, hne, e1, e2, f1, f2, f3, f4, f5, f6, f7, f8, f11⟩

/-- Witness of claim C30 on the test `Should allow evictions`, with a second
zone: the object left in memory is the one sent, with a counter of 0 for
`az-1` and the counter of `az-2` as it was. -/
theorem checkAndDecrement_frame_witness :
    (checkAndDecrement (fixtureClient (fixtureEvictionPod "test-allow" "test1")
        (fixtureEvictionNode "test-allow")
        (fixtureZdb "test1" 1 false [("az-1", 1), ("az-2", 1)] []))
        0 (fixtureEvictionPod "test-allow" "test1")
        (fixtureZdb "test1" 1 false [("az-1", 1), ("az-2", 1)] []) false).Zdb =
      fixtureZdb "test1" 1 false [("az-1", 0), ("az-2", 1)] [("test-allow", 9)] :=
  (checkAndDecrement_frame (fixtureClient (fixtureEvictionPod "test-allow" "test1")
    (fixtureEvictionNode "test-allow")
    (fixtureZdb "test1" 1 false [("az-1", 1), ("az-2", 1)] []))
    0 (fixtureEvictionPod "test-allow" "test1")
    (fixtureZdb "test1" 1 false [("az-1", 1), ("az-2", 1)] []) false
    { Object := fixtureZdb "test1" 1 false [("az-1", 0), ("az-2", 1)] [("test-allow", 9)],
      Outcome := none } (by decide)).2.1

end ZoneAware
